import Mathlib

/-!
# Metropolis move engine (`metropolis_old.c`): embedding and verified properties

The C code is embedded shallowly.  C `int` values are `Int`, C `double` values are
idealised as rationals (`ℚ`), C arrays are total functions from the index, and the
process-terminating primitive `stop` is the error side of `Except`.
Collaborators that live in other translation units (energy terms, vector geometry, `exp`,
the random number generator) are taken as parameters through `Env` and `Rng`.
-/

namespace ADCP

/-! ## Data model -/

/-- Three-component vector of doubles (`vector` in `vector.h`). -/
abbrev Vec := Fin 3 → ℚ

/-- Three vectors stored together (`triplet` in `vector.h`); also used for `matrix`. -/
abbrev Triplet := Fin 3 → Vec

/-- Residue record (`AA` in `peptide.h`), restricted to the fields this file touches. -/
structure AA where
  etc : Nat
  num : Int
  id : Char
  chainid : Int
  chi1 : ℚ
  chi2 : ℚ
  h : Vec
  n : Vec
  ca : Vec
  c : Vec
  o : Vec
  cb : Vec

/-- Committed conformation (`Chain`): residues `aa`, backbone frames `xaa`, per-chain
previous frames `xaa_prev`, and the flat energy matrix `erg`. -/
structure Chain where
  NAA : Int
  aa : Int → AA
  xaa : Int → Triplet
  xaa_prev : Int → Triplet
  erg : Int → ℚ

/-- Trial staging buffer (`Chaint`). -/
structure Chaint where
  aat : Int → AA
  xaat : Int → Triplet
  xaat_prev : Int → Triplet
  ergt : Int → ℚ

/-- State of the C library generator behind `rand()`: an arbitrary stream of draws and a
cursor. -/
structure Rng where
  draws : Nat → Nat
  pos : Nat

/-- Fatal exits (`stop(...)`) and the one trapping operation of the file. -/
inductive Fatal where
  | noSequence
  | allocFailed
  | tableCount
  | selection
  | fixedMove
  | classification
  | divisionByZero
  | toleranceNotPositive
  | toleranceTooLarge
  | factorNotPositive
  | factorTooLarge
  deriving DecidableEq, Repr

/-- Lazily built lookup table: `MC_lookup_table` and `MC_lookup_table_n`. -/
structure LookupTable where
  table : Int → Int
  n : Int → Int

/-- The fields of `simulation_params` (and of its `protein_model`) read or written here.
`use_gamma_atoms` stands for the test `use_gamma_atoms != NO_GAMMA`; `seq_present` and
`sequence_present` for the tests `seq != NULL` and `sequence != NULL`. -/
structure SimParams where
  NAA : Int
  Nchains : Int
  NS : Bool
  thermobeta : ℚ
  external_potential_type : Int
  external_potential_type2 : Int
  external_k0 : ℚ
  use_gamma_atoms : Bool
  fix_chi_angles : Bool
  fix_CA_atoms : Bool
  seq_present : Bool
  sequence_present : Bool
  MC_lookup_table : Option LookupTable
  amplitude : ℚ
  accept_counter : Int
  reject_counter : Int
  acceptance : ℚ
  acceptance_rate : ℚ
  acceptance_rate_tolerance : ℚ
  amplitude_changing_factor : ℚ

/-- Collaborators defined outside this translation unit and the constants of the headers.
`malloc_ok` tells whether the two `malloc` calls of the table build succeed and `uninit` is
the indeterminate content of freshly allocated memory. -/
structure Env where
  RAND_MAX : Nat
  FIXED : Nat
  DBL_MAX : ℚ
  M_PI : ℚ
  energy2 : AA → AA → ℚ
  energy1 : AA → ℚ
  global_energy : Int → Int → Chain → Chaint → ℚ
  expf : ℚ → ℚ
  sidechain_dihedral : Char → Rng → ℚ × Rng
  sidechain_dihedral2 : Char → ℚ → Rng → ℚ × Rng
  randvector : Rng → Vec × Rng
  normalize : Vec → Vec
  rotmatrix : Vec → ℚ → Triplet
  rotation : Triplet → Triplet → Triplet
  carbonate_f : AA → AA → Triplet → AA
  carbonate_b : AA → AA → Triplet → AA
  acidate : AA → Triplet → Triplet → SimParams → AA
  malloc_ok : Bool
  uninit : Int → Int

/-- One call of `rand()`: a value in `0..RAND_MAX` and the advanced generator. -/
def rand (env : Env) (r : Rng) : Nat × Rng :=
  (r.draws r.pos % (env.RAND_MAX + 1), { r with pos := r.pos + 1 })

/-- The indices visited by `for (x = lo; x < hi; x++)`. -/
def intRange (lo hi : Int) : List Int :=
  (List.range (hi - lo).toNat).map (fun k : Nat => lo + (k : Int))

/-- Array store `a[k] = v`. -/
def store {α : Type} (a : Int → α) (k : Int) (v : α) : Int → α :=
  fun x => if x = k then v else a x

/-- Macro `Erg(I,J)`: offset of cell `(I,J)` in the committed matrix. -/
def ErgIdx (NAA I J : Int) : Int := I * NAA + J

/-- Macro `Ergt(I,J)`: offset of cell `(I,J)` in the trial sub-matrix. -/
def ErgtIdx (NAA start I J : Int) : Int := (I - start) * NAA + J

/-! ## `allowed` -/

/-- Locals of the evaluation loops of `allowed` together with the trial matrix. -/
structure EvalSt where
  ergt : Int → ℚ
  q : ℚ
  loss : ℚ

/-- Body of the inner loop of `allowed` (lines 53-66) for row `i`, column `j`. -/
def allowedCell (env : Env) (chain : Chain) (aat : Int → AA) (start end_ i j : Int)
    (s : EvalSt) : EvalSt :=
  if j < start ∨ end_ < j then
    let q := env.energy2 (aat i) (chain.aa j)
    { ergt := store s.ergt (ErgtIdx chain.NAA start i j) q, q := q,
      loss := s.loss + (chain.erg (ErgIdx chain.NAA i j) - q) }
  else if j > i then
    let q := env.energy2 (aat i) (aat j)
    { ergt := store s.ergt (ErgtIdx chain.NAA start i j) q, q := q,
      loss := s.loss + (chain.erg (ErgIdx chain.NAA i j) - q) }
  else if j = i then
    let q := env.energy1 (aat i)
    { ergt := store s.ergt (ErgtIdx chain.NAA start i j) q, q := q,
      loss := s.loss + (chain.erg (ErgIdx chain.NAA i j) - q) }
  else
    { s with ergt := store s.ergt (ErgtIdx chain.NAA start i j)
                       (s.ergt (ErgtIdx chain.NAA start j i)) }

/-- Inner loop of `allowed`: `for (j = 1; j < chain->NAA; j++)`. -/
def allowedRow (env : Env) (chain : Chain) (aat : Int → AA) (start end_ i : Int)
    (s : EvalSt) : EvalSt :=
  (intRange 1 chain.NAA).foldl (fun s j => allowedCell env chain aat start end_ i j s) s

/-- Evaluation loops of `allowed` (lines 49-68). -/
def allowedEval (env : Env) (chain : Chain) (aat : Int → AA) (start end_ : Int)
    (s : EvalSt) : EvalSt :=
  (intRange start (end_ + 1)).foldl (fun s i => allowedRow env chain aat start end_ i s) s

/-- Body of the commit loop (line 121): `Erg(i,j) = Erg(j,i) = Ergt(i,j)`. -/
def commitCell (NAA start : Int) (ergt : Int → ℚ) (i j : Int) (erg : Int → ℚ) : Int → ℚ :=
  store (store erg (ErgIdx NAA j i) (ergt (ErgtIdx NAA start i j))) (ErgIdx NAA i j)
    (ergt (ErgtIdx NAA start i j))

/-- Inner commit loop for row `i`. -/
def commitRow (NAA start : Int) (ergt : Int → ℚ) (i : Int) (erg : Int → ℚ) : Int → ℚ :=
  (intRange 1 NAA).foldl (fun e j => commitCell NAA start ergt i j e) erg

/-- Commit loops of `allowed` (lines 119-121). -/
def commitErg (NAA start end_ : Int) (ergt : Int → ℚ) (erg : Int → ℚ) : Int → ℚ :=
  (intRange start (end_ + 1)).foldl (fun e i => commitRow NAA start ergt i e) erg

/-- What `allowed` leaves behind: return value, both buffers, `*currE`, the generator. -/
structure AllowedResult where
  ret : Int
  chain : Chain
  chaint : Chaint
  currE : ℚ
  rng : Rng

/-- The values `allowed` has computed when it reaches the acceptance tests (line 94). -/
structure AllowedVals where
  ergt : Int → ℚ
  loss : ℚ
  q : ℚ
  externalloss : ℚ
  external_k : ℚ

/-- Lines 46-82 of `allowed`.  `loss_init` and `q_init` are the indeterminate contents of
the locals `loss` and `q`, which line 47 declares without an initialiser. -/
def allowedVals (env : Env) (sp : SimParams) (chain : Chain) (chaint : Chaint)
    (start end_ : Int) (loss_init q_init : ℚ) : AllowedVals :=
  let s := allowedEval env chain chaint.aat start end_
    { ergt := chaint.ergt, q := q_init, loss := loss_init }
  let loss := if sp.external_potential_type2 = 4 then
      s.loss - (chain.erg (ErgIdx chain.NAA 1 (chain.NAA - 1)) - s.q) else s.loss
  let q := env.global_energy start end_ chain { chaint with ergt := s.ergt }
  { ergt := s.ergt, loss := loss, q := q,
    externalloss := chain.erg (ErgIdx chain.NAA 0 0) - q,
    external_k := if q > 10 then 1 / 100 else sp.external_k0 }

/-- Lines 114-126 of `allowed`: the Nested-Sampling test, then the commit. -/
def allowedFinish (sp : SimParams) (chain : Chain) (chaint1 : Chaint) (start end_ : Int)
    (logLstar currE : ℚ) (v : AllowedVals) (rng : Rng) : AllowedResult :=
  if sp.NS = true ∧ ((-logLstar > currE ∧ -logLstar < currE - v.loss) ∨
      (-logLstar < currE ∧ v.loss < 0)) then
    { ret := 0, chain := chain, chaint := chaint1, currE := currE, rng := rng }
  else
    { ret := 1,
      chain := { chain with
        erg := store (commitErg chain.NAA start end_ v.ergt chain.erg)
                 (ErgIdx chain.NAA 0 0) v.q },
      chaint := chaint1,
      currE := currE - (v.loss + v.externalloss),
      rng := rng }

/-- The function `allowed` (lines 41-127).  The operands of `&&` on line 94 are evaluated
left to right, so `rand()` is called only when `loss < 0.0 && !NS` holds. -/
def allowed (env : Env) (sp : SimParams) (chain : Chain) (chaint : Chaint)
    (start end_ : Int) (logLstar currE : ℚ) (loss_init q_init : ℚ) (rng : Rng) :
    AllowedResult :=
  let v := allowedVals env sp chain chaint start end_ loss_init q_init
  let chaint1 : Chaint := { chaint with ergt := v.ergt }
  if v.loss < 0 ∧ sp.NS = false then
    let d := rand env rng
    if env.expf (sp.thermobeta * (v.loss + v.externalloss)) * (env.RAND_MAX : ℚ)
        < v.external_k * (d.1 : ℚ) then
      { ret := 0, chain := chain, chaint := chaint1, currE := currE, rng := d.2 }
    else allowedFinish sp chain chaint1 start end_ logLstar currE v d.2
  else allowedFinish sp chain chaint1 start end_ logLstar currE v rng

/-! ## The move lookup table (lines 180-292 of `crankshaft`) -/

/-- C truth value of `aa.etc & FIXED`. -/
def isFixed (env : Env) (a : AA) : Bool := a.etc &&& env.FIXED ≠ 0

/-- C truth value of `!aa.etc & FIXED`, which C parses as `(!aa.etc) & FIXED`. -/
def notEtcAndFixed (env : Env) (a : AA) : Bool :=
  (if a.etc = 0 then 1 else 0) &&& env.FIXED ≠ 0

/-- Locals of the scan of one length class: the table, `next` and `fixed_moves`. -/
structure RowSt where
  table : Int → Int
  next : Int
  fixed_moves : Int

/-- Lines 231-234: does the window `[j, j+i]` hold a FIXED residue of the chain of `j`? -/
def anyFixed (env : Env) (chain : Chain) (i j : Int) : Bool :=
  (intRange j (j + i + 1)).any (fun k =>
    isFixed env (chain.aa k) && decide ((chain.aa j).chainid = (chain.aa k).chainid))

/-- Body of the loop over window starts `j` (lines 229-273) for the length class `i`. -/
def tableStep (env : Env) (chain : Chain) (N i : Int) (s : RowSt) (j : Int) : RowSt :=
  let cid := fun k : Int => (chain.aa k).chainid
  if anyFixed env chain i j = true then
    let f1 := if cid j = cid (j + i) then s.fixed_moves + 1 else s.fixed_moves
    let f2 :=
      if j = 1 then (if cid j = cid (j + i) then f1 + 1 else f1)
      else (if cid j ≠ cid (j - 1) ∧ cid j = cid (j + i) then f1 + 1 else f1)
    let f3 :=
      if cid j ≠ cid (j + 1) ∧ notEtcAndFixed env (chain.aa (j + 1)) = true then f2 + 1
      else f2
    { s with fixed_moves := f3 }
  else
    let s1 : RowSt :=
      if j = 1 then
        (if cid j = cid (j + i) then
          { s with table := store s.table (i * N + s.next) (j - 1), next := s.next + 1 }
        else s)
      else
        (if cid j ≠ cid (j - 1) ∧ cid j = cid (j + i) ∧
            notEtcAndFixed env (chain.aa (j - i)) = true then
          { s with table := store s.table (i * N + s.next) (j - 1), next := s.next + 1 }
        else s)
    if cid j = cid (j + i) then
      { s1 with table := store s1.table (i * N + s1.next) j, next := s1.next + 1 }
    else s1

/-- The scan `for (j = 1; j < NAA - i; j++)` of the length class `i` (lines 225-274). -/
def tableScan (env : Env) (sp : SimParams) (chain : Chain) (i : Int)
    (table : Int → Int) : RowSt :=
  (intRange 1 (sp.NAA - i)).foldl (tableStep env chain (sp.NAA - 1 + sp.Nchains) i)
    { table := table, next := 0, fixed_moves := 0 }

/-- Lines 285-289: the rest of the row is filled with the sentinel `-1`. -/
def tableFill (sp : SimParams) (i : Int) (table : Int → Int) (next : Int) : Int → Int :=
  ((intRange next (sp.NAA - 1 + sp.Nchains)).foldl
    (fun (t : (Int → Int) × Int) _ =>
      (store t.1 (i * (sp.NAA - 1 + sp.Nchains) + t.2) (-1), t.2 + 1))
    (table, next)).1

/-- One iteration of the loop over length classes (lines 224-291): scan, self-test, record
the count, fill with sentinels. -/
def tableRow (env : Env) (sp : SimParams) (chain : Chain) (t : LookupTable) (i : Int) :
    Except Fatal LookupTable :=
  let s := tableScan env sp chain i t.table
  if s.next + s.fixed_moves ≠ (sp.NAA - 1) + (1 - i) * sp.Nchains then
    Except.error Fatal.tableCount
  else
    Except.ok { table := tableFill sp i s.table s.next, n := store t.n i s.next }

/-- The lazy build of the lookup table (lines 180-292). -/
def buildLookupTable (env : Env) (sp : SimParams) (chain : Chain) :
    Except Fatal LookupTable :=
  if sp.seq_present = false ∨ sp.sequence_present = false then
    Except.error Fatal.noSequence
  else if env.malloc_ok = false then Except.error Fatal.allocFailed
  else
    (tableRow env sp chain { table := env.uninit, n := env.uninit } 0).bind (fun t0 =>
    (tableRow env sp chain t0 1).bind (fun t1 =>
    (tableRow env sp chain t1 2).bind (fun t2 =>
    tableRow env sp chain t2 3)))

/-! ## `crankshaft` -/

/-- Lines 141-146: the identity fields of every residue are copied into the staging
buffer. -/
def copyIdentity (chain : Chain) (aat : Int → AA) : Int → AA :=
  (intRange 1 chain.NAA).foldl (fun t i =>
    store t i { t i with etc := (chain.aa i).etc, num := (chain.aa i).num,
                         id := (chain.aa i).id, chainid := (chain.aa i).chainid }) aat

/-- Body of the loop of lines 155-166: the side-chain dihedrals of residue `i` are drawn
afresh. -/
def resampleChi (env : Env) (chain : Chain) (s : (Int → AA) × Rng) (i : Int) :
    (Int → AA) × Rng :=
  let a := chain.aa i
  let s1 : (Int → AA) × Rng :=
    if a.id ≠ 'G' ∧ a.id ≠ 'A' ∧ a.chi1 ≠ env.DBL_MAX then
      let d := env.sidechain_dihedral a.id s.2
      (store s.1 i { s.1 i with chi1 := d.1 }, d.2)
    else s
  if (a.id = 'V' ∨ a.id = 'I' ∨ a.id = 'T') ∧ a.chi2 ≠ env.DBL_MAX then
    let d := env.sidechain_dihedral2 a.id (s1.1 i).chi1 s1.2
    (store s1.1 i { s1.1 i with chi2 := d.1 }, d.2)
  else s1

/-- Lines 153-175: set up the side-chain dihedral angles of the staging buffer. -/
def setupChi (env : Env) (sp : SimParams) (chain : Chain) (aat : Int → AA) (rng : Rng) :
    (Int → AA) × Rng :=
  if sp.use_gamma_atoms = true then
    let d := if sp.fix_chi_angles = false then rand env rng else (0, rng)
    if sp.fix_chi_angles = false ∧ (d.1 : ℚ) / (env.RAND_MAX : ℚ) < 1 / 4 then
      (intRange 1 chain.NAA).foldl (resampleChi env chain) (aat, d.2)
    else
      ((intRange 1 chain.NAA).foldl (fun t i =>
        store t i { t i with chi1 := (chain.aa i).chi1, chi2 := (chain.aa i).chi2 }) aat, d.2)
  else (aat, rng)

/-- The move window chosen by lines 300-333, with the segment length. -/
structure Selection where
  len : Int
  start : Int
  end_ : Int

/-- Lines 300-304: the segment length minus one, from the draw `toss`. -/
def segLen (chain : Chain) (toss : Nat) : Int :=
  if ((toss &&& 3 : Nat) : Int) > chain.NAA - 2 then chain.NAA - 2
  else ((toss &&& 3 : Nat) : Int)

/-- Lines 317-322: the segment end. -/
def segEnd (sp : SimParams) (start len : Int) : Int :=
  if sp.fix_CA_atoms = true then start + 1 else start + len + 1

/-- Lines 310-316: the segment start read from the lookup table. -/
def segStart (sp : SimParams) (chain : Chain) (t : LookupTable) (toss : Nat) : Int :=
  t.table (segLen chain toss * (sp.NAA - 1 + sp.Nchains) +
    Int.tmod ((toss >>> 2 : Nat) : Int) (t.n (segLen chain toss)))

/-- Lines 300-333: draw the segment length and the slot, read the start from the lookup
table, and refuse windows that hold a FIXED residue.  A zero count makes the `%` of line 316
trap. -/
def selectWindow (env : Env) (sp : SimParams) (chain : Chain) (t : LookupTable)
    (toss : Nat) : Except Fatal Selection :=
  if t.n (segLen chain toss) = 0 then Except.error Fatal.divisionByZero
  else if segStart sp chain t toss < 0 ∨
      segEnd sp (segStart sp chain t toss) (segLen chain toss) < 0 then
    Except.error Fatal.selection
  else if (intRange (segStart sp chain t toss)
      (segEnd sp (segStart sp chain t toss) (segLen chain toss))).any
        (fun ai => isFixed env (chain.aa ai)) = true then
    Except.error Fatal.fixedMove
  else
    Except.ok { len := segLen chain toss, start := segStart sp chain t toss,
                end_ := segEnd sp (segStart sp chain t toss) (segLen chain toss) }

/-- The two pivot flags set by lines 297-366. -/
structure Pivot where
  pivot_around_end : Bool
  pivot_around_start : Bool

/-- Lines 334-366: pivot or crankshaft.  The coin of the two-residue case at a chain break
is drawn only in that branch. -/
def classify (env : Env) (sp : SimParams) (chain : Chain) (w : Selection) (rng : Rng) :
    Except Fatal (Pivot × Rng) :=
  let cid := fun k : Int => (chain.aa k).chainid
  if w.start = 0 then
    Except.ok ({ pivot_around_end := true, pivot_around_start := false }, rng)
  else if w.end_ = sp.NAA then
    Except.ok ({ pivot_around_end := false, pivot_around_start := true }, rng)
  else if cid w.start ≠ cid w.end_ then
    if w.len = 0 then
      let d := rand env rng
      if d.1 &&& 2 ≠ 0 then
        Except.ok ({ pivot_around_end := false, pivot_around_start := true }, d.2)
      else Except.ok ({ pivot_around_end := true, pivot_around_start := false }, d.2)
    else if cid w.start = cid (w.start + 1) then
      Except.ok ({ pivot_around_end := false, pivot_around_start := true }, rng)
    else if cid w.end_ = cid (w.end_ - 1) then
      Except.ok ({ pivot_around_end := true, pivot_around_start := false }, rng)
    else Except.error Fatal.classification
  else Except.ok ({ pivot_around_end := false, pivot_around_start := false }, rng)

/-- Lines 369-394: the frames and the CA atoms at the fixed ends are copied into the staging
buffer. -/
def setupEnds (chain : Chain) (ct : Chaint) (p : Pivot) (start end_ : Int) : Chaint :=
  let cid := fun k : Int => (chain.aa k).chainid
  let ct1 : Chaint :=
    if p.pivot_around_end = false then
      let c0 : Chaint :=
        { ct with xaat := store ct.xaat start (chain.xaa start),
                  aat := store ct.aat start { ct.aat start with ca := (chain.aa start).ca } }
      if start = 1 then
        { c0 with xaat_prev := store c0.xaat_prev (cid end_) (chain.xaa_prev (cid end_)) }
      else if cid start ≠ cid (start - 1) then
        { c0 with xaat_prev := store c0.xaat_prev (cid end_) (chain.xaa_prev (cid end_)) }
      else { c0 with xaat := store c0.xaat (start - 1) (chain.xaa (start - 1)) }
    else
      { ct with xaat_prev := store ct.xaat_prev (cid end_) (chain.xaa_prev (cid end_)) }
  if p.pivot_around_start = false then
    { ct1 with xaat := store ct1.xaat end_ (chain.xaa end_),
               aat := store ct1.aat end_ { ct1.aat end_ with ca := (chain.aa end_).ca } }
  else ct1

/-- Lines 415-423: the rotation `t` is applied to the frames of the window. -/
def rotateFrames (env : Env) (chain : Chain) (ct : Chaint) (p : Pivot) (t : Triplet)
    (start end_ : Int) : Chaint :=
  (intRange start end_).foldl (fun c i =>
    if p.pivot_around_end = true ∧ i = start then
      { c with xaat_prev := store c.xaat_prev (chain.aa end_).chainid
                 (env.rotation t (chain.xaa_prev (chain.aa end_).chainid)) }
    else { c with xaat := store c.xaat i (env.rotation t (chain.xaa i)) }) ct

/-- Lines 424-436: the trial CA atoms are rebuilt, forward from the start or backward from
the end; the result carries the adjusted `start` and `end`. -/
def buildCA (env : Env) (ct : Chaint) (p : Pivot) (start end_ : Int) : Chaint × Int × Int :=
  if p.pivot_around_end = false then
    let c := (intRange start (end_ - 1)).foldl (fun (c : Chaint) i =>
      { c with aat := store c.aat (i + 1)
                 (env.carbonate_f (c.aat (i + 1)) (c.aat i) (c.xaat i)) }) ct
    (c, start, if p.pivot_around_start = true then end_ - 1 else end_)
  else
    let c := (intRange (start + 1) end_).reverse.foldl (fun (c : Chaint) i =>
      { c with aat := store c.aat i
                 (env.carbonate_b (c.aat i) (c.aat (i + 1)) (c.xaat i)) }) ct
    (c, start + 1, end_)

/-- Lines 438-461: the peptide bonds of the residues `start..end` (adjusted) are rebuilt. -/
def buildPeptides (env : Env) (sp : SimParams) (chain : Chain) (ct : Chaint) (p : Pivot)
    (start end_ : Int) : Chaint :=
  (intRange start (end_ + 1)).foldl (fun (c : Chaint) i =>
    if (p.pivot_around_end = true ∧ i = start) ∨
        (chain.aa i).chainid ≠ (chain.aa (i - 1)).chainid then
      { c with aat := store c.aat i
                 (env.acidate (c.aat i) (c.xaat_prev (chain.aa i).chainid) (c.xaat i) sp) }
    else
      { c with aat := store c.aat i
                 (env.acidate (c.aat i) (c.xaat (i - 1)) (c.xaat i) sp) }) ct

/-- Lines 474-482 (and 539-548): the trial frames are copied into the conformation. -/
def commitFrames (chain : Chain) (ct : Chaint) (p : Pivot) (start end_ : Int) : Chain :=
  let cid := fun k : Int => (chain.aa k).chainid
  let c1 : Chain :=
    if p.pivot_around_end = true ∨ cid start ≠ cid (start - 1) then
      { chain with xaa_prev := store chain.xaa_prev (cid end_) (ct.xaat_prev (cid end_)) }
    else { chain with xaa := store chain.xaa (start - 1) (ct.xaat (start - 1)) }
  (intRange start (end_ + 1)).foldl (fun (c : Chain) i =>
    { c with xaa := store c.xaa i (ct.xaat i) }) c1

/-- Lines 489-491 (and 555-557): the trial residue records `start..end` are copied into the
conformation. -/
def commitResidues (chain : Chain) (ct : Chaint) (start end_ : Int) : Chain :=
  (intRange start (end_ + 1)).foldl (fun (c : Chain) i =>
    { c with aa := store c.aa i (ct.aat i) }) chain

/-- Vector store `v[i] = x`. -/
def setAxis (v : Vec) (i : Fin 3) (x : ℚ) : Vec := fun k => if k = i then x else v k

/-- Lines 504-526: every staged residue is displaced by `movement` along the axis `i`. -/
def translateAll (chain : Chain) (aat : Int → AA) (i : Fin 3) (movement : ℚ) : Int → AA :=
  (intRange 1 chain.NAA).foldl (fun t j =>
    let a := t j
    let b := chain.aa j
    let a1 : AA := if a.id ≠ 'P' then { a with h := setAxis a.h i (b.h i + movement) } else a
    let a2 : AA := { a1 with n := setAxis a1.n i (b.n i + movement),
                             ca := setAxis a1.ca i (b.ca i + movement),
                             c := setAxis a1.c i (b.c i + movement),
                             o := setAxis a1.o i (b.o i + movement) }
    let a3 : AA :=
      if a2.id ≠ 'G' then { a2 with cb := setAxis a2.cb i (b.cb i + movement) } else a2
    store t j a3) aat

/-- Locals of the loop over the three axes (lines 498-529). -/
structure TransSt where
  aat : Int → AA
  rng : Rng
  moved : Bool

/-- Body of the loop over the three axes (lines 498-529). -/
def translateAxis (env : Env) (chain : Chain) (s : TransSt) (i : Fin 3) : TransSt :=
  let d := rand env s.rng
  let movement : ℚ := (d.1 : ℚ) / (env.RAND_MAX : ℚ)
  if movement < 1 / 10 then
    { aat := translateAll chain s.aat i (4 * (movement - 1 / 20)), rng := d.2, moved := true }
  else { s with rng := d.2 }

/-- What `crankshaft` leaves behind. -/
structure CrankResult where
  ret : Int
  chain : Chain
  chaint : Chaint
  sp : SimParams
  currE : ℚ
  rng : Rng

/-- Lines 493-565: the translational sub-move that follows an accepted pivot move. -/
def translationalMove (env : Env) (sp : SimParams) (chain : Chain) (ct : Chaint) (p : Pivot)
    (start end_ : Int) (currE : ℚ) (rng : Rng) : CrankResult :=
  if (p.pivot_around_start = true ∨ p.pivot_around_end = true) ∧
      sp.external_potential_type = 5 then
    let s := ([0, 1, 2] : List (Fin 3)).foldl (translateAxis env chain)
      { aat := ct.aat, rng := rng, moved := false }
    let ct1 : Chaint := { ct with aat := s.aat }
    if s.moved = false then
      { ret := 1, chain := chain, chaint := ct1, sp := sp, currE := currE, rng := s.rng }
    else
      let transExtEne := env.global_energy 1 (chain.NAA - 1) chain ct1
      let old := chain.erg (ErgIdx chain.NAA 0 0)
      let d := if transExtEne < old then (0, s.rng) else rand env s.rng
      if transExtEne < old ∨
          env.expf (sp.thermobeta * (transExtEne - old)) * (env.RAND_MAX : ℚ) < (d.1 : ℚ) then
        let c1 := commitFrames chain ct1 p start end_
        let c2 : Chain := { c1 with erg := store c1.erg (ErgIdx c1.NAA 0 0) transExtEne }
        { ret := 1, chain := commitResidues c2 ct1 start end_, chaint := ct1, sp := sp,
          currE := currE, rng := d.2 }
      else
        { ret := 1, chain := chain, chaint := ct1, sp := sp, currE := currE, rng := d.2 }
  else { ret := 1, chain := chain, chaint := ct, sp := sp, currE := currE, rng := rng }

/-- The staged trial move: the staging buffer, the adjusted `start` and `end`, and the
generator. -/
structure Staged where
  chaint : Chaint
  start : Int
  end_ : Int
  rng : Rng

/-- Lines 398-409: the rotation angle and the rotation axis. -/
def drawRotation (env : Env) (chain : Chain) (w : Selection) (p : Pivot) (ampl : ℚ)
    (rng : Rng) : Triplet × Rng :=
  let da := rand env rng
  let alpha : ℚ := ampl * (2 / (env.RAND_MAX : ℚ) * (da.1 : ℚ) - 1)
  let ax : Vec × Rng :=
    if p.pivot_around_start = false ∧ p.pivot_around_end = false then
      (env.normalize (fun k => (chain.aa w.end_).ca k - (chain.aa w.start).ca k), da.2)
    else env.randvector da.2
  (env.rotmatrix ax.1 alpha, ax.2)

/-- Lines 369-461: the trial segment is built in the staging buffer. -/
def stageMove (env : Env) (sp : SimParams) (chain : Chain) (ct : Chaint) (w : Selection)
    (p : Pivot) (ampl : ℚ) (rng : Rng) : Staged :=
  let ct1 := setupEnds chain ct p w.start w.end_
  let rot := drawRotation env chain w p ampl rng
  let ct2 := rotateFrames env chain ct1 p rot.1 w.start w.end_
  let b := buildCA env ct2 p w.start w.end_
  { chaint := buildPeptides env sp chain b.1 p b.2.1 b.2.2, start := b.2.1, end_ := b.2.2,
    rng := rot.2 }

/-- Lines 466-565: the acceptance test, the commit and the translational sub-move. -/
def finishMove (env : Env) (sp : SimParams) (chain : Chain) (p : Pivot) (st : Staged)
    (logLstar currE loss_init q_init : ℚ) : CrankResult :=
  let r := allowed env sp chain st.chaint st.start st.end_ logLstar currE loss_init q_init
    st.rng
  if r.ret = 0 then
    { ret := 0, chain := r.chain, chaint := r.chaint, sp := sp, currE := r.currE,
      rng := r.rng }
  else
    translationalMove env sp
      (commitResidues (commitFrames r.chain r.chaint p st.start st.end_) r.chaint
        st.start st.end_)
      r.chaint p st.start st.end_ r.currE r.rng

/-- Lines 296-565 of `crankshaft`, once the lookup table `t` is in place.  `loss_init` and
`q_init` are the indeterminate initial contents of the locals of `allowed`. -/
def crankshaftMove (env : Env) (sp : SimParams) (chain : Chain) (ct : Chaint)
    (t : LookupTable) (ampl logLstar currE loss_init q_init : ℚ) (rng : Rng) :
    Except Fatal CrankResult :=
  (selectWindow env sp chain t (rand env rng).1).bind (fun w =>
  (classify env sp chain w (rand env rng).2).bind (fun pr =>
    Except.ok (finishMove env sp chain pr.1
      (stageMove env sp chain ct w pr.1 ampl pr.2) logLstar currE loss_init q_init)))

/-- The function `crankshaft` (lines 132-566). -/
def crankshaft (env : Env) (chain : Chain) (chaint : Chaint) (ampl logLstar currE : ℚ)
    (sp : SimParams) (loss_init q_init : ℚ) (rng : Rng) : Except Fatal CrankResult :=
  let ct0 : Chaint := { chaint with aat := copyIdentity chain chaint.aat }
  let chi := setupChi env sp chain ct0.aat rng
  let ct1 : Chaint := { ct0 with aat := chi.1 }
  match sp.MC_lookup_table with
  | some t => crankshaftMove env sp chain ct1 t ampl logLstar currE loss_init q_init chi.2
  | none =>
    (buildLookupTable env sp chain).bind (fun t =>
      crankshaftMove env { sp with MC_lookup_table := some t } chain ct1 t ampl logLstar
        currE loss_init q_init chi.2)

/-! ## `move` -/

/-- What `move` leaves behind. -/
structure MoveResult where
  chain : Chain
  chaint : Chaint
  sp : SimParams
  currE : ℚ
  rng : Rng

/-- Line 583: in reset mode (`changeamp == -1`) both counters are zeroed. -/
def resetCounters (sp : SimParams) (changeamp : Int) : SimParams :=
  if changeamp = -1 then { sp with accept_counter := 0, reject_counter := 0 } else sp

/-- Lines 585-597: the outcome `ret` of `crankshaft` is counted. -/
def countMove (sp : SimParams) (ret : Int) : SimParams :=
  if ret ≠ 0 then { sp with accept_counter := sp.accept_counter + 1 }
  else { sp with reject_counter := sp.reject_counter + 1 }

/-- Lines 606-608: the amplitude is rescaled towards the target rate and clamped at
`-M_PI`. -/
def adjustAmplitude (env : Env) (sp : SimParams) : SimParams :=
  let sp1 : SimParams :=
    if sp.amplitude < 0 ∧
        sp.acceptance < sp.acceptance_rate - sp.acceptance_rate_tolerance then
      { sp with amplitude := sp.amplitude * sp.amplitude_changing_factor }
    else if sp.acceptance > sp.acceptance_rate + sp.acceptance_rate_tolerance then
      { sp with amplitude := sp.amplitude / sp.amplitude_changing_factor }
    else sp
  if sp1.amplitude < -env.M_PI then { sp1 with amplitude := -env.M_PI } else sp1

/-- Lines 601-609: with calibration active the configuration is validated and the
amplitude adjusted. -/
def calibrate (env : Env) (sp : SimParams) (changeamp : Int) : Except Fatal SimParams :=
  if changeamp ≠ 0 then
    if sp.acceptance_rate_tolerance ≤ 0 then Except.error Fatal.toleranceNotPositive
    else if sp.acceptance_rate_tolerance ≥ 1 then Except.error Fatal.toleranceTooLarge
    else if sp.amplitude_changing_factor ≤ 0 then Except.error Fatal.factorNotPositive
    else if sp.amplitude_changing_factor ≥ 1 then Except.error Fatal.factorTooLarge
    else Except.ok (adjustAmplitude env sp)
  else Except.ok sp

/-- Lines 599-612: a complete window of 1024 moves is evaluated and the counters are
zeroed. -/
def finishWindow (env : Env) (sp : SimParams) (changeamp : Int) : Except Fatal SimParams :=
  if sp.accept_counter + sp.reject_counter = 1024 then
    (calibrate env { sp with acceptance := (sp.accept_counter : ℚ) / 1024 } changeamp).bind
      (fun sp1 => Except.ok { sp1 with accept_counter := 0, reject_counter := 0 })
  else Except.ok sp

/-- The function `move` (lines 570-614). -/
def move (env : Env) (chain : Chain) (chaint : Chaint) (logLstar currE : ℚ)
    (changeamp : Int) (sp : SimParams) (loss_init q_init : ℚ) (rng : Rng) :
    Except Fatal MoveResult :=
  (crankshaft env chain chaint (resetCounters sp changeamp).amplitude logLstar currE
      (resetCounters sp changeamp) loss_init q_init rng).bind (fun r =>
    (finishWindow env (countMove r.sp r.ret) changeamp).bind (fun sp2 =>
      Except.ok { chain := r.chain, chaint := r.chaint, sp := sp2, currE := r.currE,
                  rng := r.rng }))

/-! ## Specification-side vocabulary -/

/-- Symmetry of a flat matrix on the residue indices `1..NAA-1`. -/
def SymOn (NAA : Int) (erg : Int → ℚ) : Prop :=
  ∀ a b : Int, 1 ≤ a → a < NAA → 1 ≤ b → b < NAA →
    erg (ErgIdx NAA a b) = erg (ErgIdx NAA b a)

/-- The trial term of the pair `{i,j}` for a row `i` of the window `[start,end_]`: the
value the specification expects in the cells `(i,j)` and `(j,i)` after a commit. -/
def trialTerm (env : Env) (chain : Chain) (aat : Int → AA) (start end_ i j : Int) : ℚ :=
  if j < start ∨ end_ < j then env.energy2 (aat i) (chain.aa j)
  else if i = j then env.energy1 (aat i)
  else env.energy2 (aat (min i j)) (aat (max i j))

/-- Sum of `committed - trial` taken once for each unordered pair `{i,j}` with `i` in the
window and `j` in `1..NAA-1`: in-window columns `j < i` are left out. -/
def pairLoss (env : Env) (chain : Chain) (aat : Int → AA) (start end_ : Int) : ℚ :=
  ((intRange start (end_ + 1)).map (fun i =>
    (((intRange 1 chain.NAA).filter (fun j => ¬ (start ≤ j ∧ j < i))).map (fun j =>
      chain.erg (ErgIdx chain.NAA i j) - trialTerm env chain aat start end_ i j)).sum)).sum

/-- Rows `start..k-1` of the trial matrix hold the trial terms. -/
def RowsDone (env : Env) (chain : Chain) (aat : Int → AA) (start end_ k : Int)
    (s : EvalSt) : Prop :=
  ∀ a b : Int, start ≤ a → a < k → 1 ≤ b → b < chain.NAA →
    s.ergt (ErgtIdx chain.NAA start a b) = trialTerm env chain aat start end_ a b

/-! ## Concrete inputs used to exercise the theorems -/

/-- A rational stand-in for `exp`, used at concrete inputs only: it is `1` at `0`, at least
`1` on non-negative arguments and inside `(0,1)` on negative ones, as `exp` is. -/
def expStandIn (x : ℚ) : ℚ := if x < 0 then 1 / (1 - x) else 1 + x

/-- A residue record whose sequence number is `k` and whose flags are `etc`. -/
def demoAA (k : Int) (etc : Nat) : AA :=
  { etc := etc, num := k, id := 'A', chainid := 1, chi1 := 0, chi2 := 0,
    h := (fun _ => 0), n := (fun _ => 0), ca := (fun _ => 0), c := (fun _ => 0),
    o := (fun _ => 0), cb := (fun _ => 0) }

/-- A frame with all components zero. -/
def demoTriplet : Triplet := fun _ _ => 0

/-- Collaborators for concrete runs: the pair energy is `e2` times the product of the two
sequence numbers, the self energy is the sequence number, the global energy is `g`.  The
geometry is a stand-in in which "rotating" a frame adds the angle to its components, a CA
atom is placed one frame vector away from its neighbour, and the N and C atoms of a residue
are placed from the frames before and after it. -/
def demoEnv (e2 g : ℚ) : Env :=
  { RAND_MAX := 32767, FIXED := 1, DBL_MAX := 1000000000, M_PI := 355 / 113,
    energy2 := (fun a b => e2 * ((a.num : ℚ) * (b.num : ℚ))),
    energy1 := (fun a => (a.num : ℚ)),
    global_energy := (fun _ _ _ _ => g),
    expf := expStandIn,
    sidechain_dihedral := (fun _ r => (0, r)),
    sidechain_dihedral2 := (fun _ _ r => (0, r)),
    randvector := (fun r => ((fun _ => 1), r)),
    normalize := (fun v => v),
    rotmatrix := (fun _ alpha => (fun _ _ => alpha)),
    rotation := (fun t x => (fun a b => x a b + t a b)),
    carbonate_f := (fun a prev x => { a with ca := (fun k => prev.ca k + x 0 k) }),
    carbonate_b := (fun a next x => { a with ca := (fun k => next.ca k - x 0 k) }),
    acidate := (fun a xprev x _ =>
      { a with n := (fun k => a.ca k - xprev 0 k), c := (fun k => a.ca k + x 0 k) }),
    malloc_ok := true,
    uninit := (fun _ => 0) }

/-- Parameters for concrete runs on a single chain of `NAA - 1` residues. -/
def demoParams (NAA : Int) (NS : Bool) (thermobeta external_k0 : ℚ) : SimParams :=
  { NAA := NAA, Nchains := 1, NS := NS, thermobeta := thermobeta,
    external_potential_type := 0, external_potential_type2 := 0,
    external_k0 := external_k0,
    use_gamma_atoms := false, fix_chi_angles := false, fix_CA_atoms := false,
    seq_present := true, sequence_present := true, MC_lookup_table := none,
    amplitude := 1, accept_counter := 0, reject_counter := 0, acceptance := 0,
    acceptance_rate := 2 / 5, acceptance_rate_tolerance := 1 / 20,
    amplitude_changing_factor := 9 / 10 }

/-- A committed conformation whose matrix holds `e` in every cell. -/
def demoChain (NAA : Int) (e : ℚ) : Chain :=
  { NAA := NAA, aa := (fun k => demoAA k 0), xaa := (fun _ => demoTriplet),
    xaa_prev := (fun _ => demoTriplet), erg := (fun _ => e) }

/-- A staging buffer whose residue `k` carries sequence number `k + 10`. -/
def demoChaint : Chaint :=
  { aat := (fun k => demoAA (k + 10) 0), xaat := (fun _ => demoTriplet),
    xaat_prev := (fun _ => demoTriplet), ergt := (fun _ => 0) }

/-- A generator whose every draw is `d`. -/
def demoRng (d : Nat) : Rng := { draws := (fun _ => d), pos := 0 }

/-- A committed conformation whose residue `k` carries the flags `flags k`. -/
def demoChainFlags (NAA : Int) (e : ℚ) (flags : Int → Nat) : Chain :=
  { NAA := NAA, aa := (fun k => demoAA k (flags k)), xaa := (fun _ => demoTriplet),
    xaa_prev := (fun _ => demoTriplet), erg := (fun _ => e) }

/-- The result of a call of `crankshaft` that returned (a rejected no-op result stands in
for a fatal exit). -/
def resultOf (x : Except Fatal CrankResult) : CrankResult :=
  match x with
  | Except.ok r => r
  | Except.error _ =>
    { ret := 0, chain := demoChain 0 0, chaint := demoChaint,
      sp := demoParams 0 false 0 0, currE := 0, rng := demoRng 0 }

/-- The result of a call of `move` that returned (the inputs stand in for a fatal exit). -/
def moveResultOf (x : Except Fatal MoveResult) : MoveResult :=
  match x with
  | Except.ok r => r
  | Except.error _ =>
    { chain := demoChain 0 0, chaint := demoChaint, sp := demoParams 0 false 0 0,
      currE := 0, rng := demoRng 0 }

/-- The calibration settings of `simulation_params` that `crankshaft` never writes. -/
def SameCalibration (a b : SimParams) : Prop :=
  a.amplitude = b.amplitude ∧ a.accept_counter = b.accept_counter ∧
  a.reject_counter = b.reject_counter ∧ a.acceptance = b.acceptance ∧
  a.acceptance_rate = b.acceptance_rate ∧
  a.acceptance_rate_tolerance = b.acceptance_rate_tolerance ∧
  a.amplitude_changing_factor = b.amplitude_changing_factor

/-- The four fatal exits of the calibration checks (lines 602-605). -/
def isConfigError (e : Fatal) : Bool :=
  match e with
  | Fatal.toleranceNotPositive => true
  | Fatal.toleranceTooLarge => true
  | Fatal.factorNotPositive => true
  | Fatal.factorTooLarge => true
  | _ => false

/-- The amplitude the specification expects after a complete calibration window with
acceptance rate `acc`: multiplied by the factor if negative and `acc` is below
target minus tolerance, otherwise divided by it if `acc` is above target plus tolerance,
otherwise left as it is; then clamped from below at `-pi`. -/
def expectedAmplitude (pi amplitude target tolerance factor acc : ℚ) : ℚ :=
  max (-pi)
    (if amplitude < 0 ∧ acc < target - tolerance then amplitude * factor
    else if acc > target + tolerance then amplitude / factor
    else amplitude)

/-- Parameters for concrete runs of `move` on a five-residue chain: amplitude, counters,
tolerance and factor as given, target rate `2/5`. -/
def demoCalibration (amplitude : ℚ) (accept reject : Int) (tol factor : ℚ) : SimParams :=
  { demoParams 6 false 1 1 with
    amplitude := amplitude, accept_counter := accept, reject_counter := reject,
    acceptance_rate_tolerance := tol, amplitude_changing_factor := factor }

/-- A concrete call of `move` on a five-residue chain whose every draw is `d`; the trial
energies are lower than the committed ones, so the move is accepted. -/
def demoMove (changeamp : Int) (sp : SimParams) (d : Nat) : Except Fatal MoveResult :=
  move (demoEnv (-1) 0) (demoChain 6 0) demoChaint 0 0 changeamp sp 0 0 (demoRng d)

/-- The call of `crankshaft` made by `demoMove`. -/
def demoCrank (changeamp : Int) (sp : SimParams) (d : Nat) : Except Fatal CrankResult :=
  crankshaft (demoEnv (-1) 0) (demoChain 6 0) demoChaint
    (resetCounters sp changeamp).amplitude 0 0 (resetCounters sp changeamp) 0 0 (demoRng d)

/-- A run of `k` complete calibration windows (`changeamp = 1`) in which every move was
accepted: the 1024 accepted moves of a window are summarised by the counter values with
which `move` reaches line 599 on the last move of the window. -/
def acceptedWindows (env : Env) (sp : SimParams) : Nat → Except Fatal SimParams
  | 0 => Except.ok sp
  | k + 1 => (acceptedWindows env sp k).bind (fun s =>
      finishWindow env { s with accept_counter := 1024, reject_counter := 0 } 1)

/-- Parameters for concrete runs of the translational sub-move: five residues, the
potential-model selector set to `5`, `thermobeta = 1`. -/
def demoParamsTrans : SimParams :=
  { demoParams 6 false 1 1 with external_potential_type := 5 }

/-- A generator whose first draws are the elements of `l` and whose later draws are `d`. -/
def demoRngSeq (l : List Nat) (d : Nat) : Rng := { draws := (fun n => l.getD n d), pos := 0 }

/-- The flags of a pivot around the chain end. -/
def demoPivotEnd : Pivot := { pivot_around_end := true, pivot_around_start := false }

/-- The staging buffer after the loop over the three axes of the translational sub-move
(lines 498-529). -/
def translatedBuffer (env : Env) (chain : Chain) (ct : Chaint) (rng : Rng) : Chaint :=
  { ct with aat := (([0, 1, 2] : List (Fin 3)).foldl (translateAxis env chain)
      { aat := ct.aat, rng := rng, moved := false }).aat }

/-- The table after the list `l` has been written into the slots `base, base+1, ...`. -/
def writeRow (t : Int → Int) (base : Int) (l : List Int) : Int → Int :=
  fun x => if base ≤ x ∧ x < base + (l.length : Int) then l.getD (x - base).toNat 0 else t x

/-- The start indices recorded by one iteration of the scan (lines 252-273), in the order in
which they are recorded: none when the window holds a FIXED residue, otherwise the extra
chain-start pivot `j-1` (when line 256 or 262 grants it) and then `j` itself (line 269). -/
def stepEntries (env : Env) (chain : Chain) (i j : Int) : List Int :=
  let cid := fun k : Int => (chain.aa k).chainid
  if anyFixed env chain i j = true then []
  else
    (if j = 1 then (if cid j = cid (j + i) then [j - 1] else [])
     else (if cid j ≠ cid (j - 1) ∧ cid j = cid (j + i) ∧
        notEtcAndFixed env (chain.aa (j - i)) = true then [j - 1] else [])) ++
    (if cid j = cid (j + i) then [j] else [])

/-- The start indices recorded by the scan of the length class `i`, in order. -/
def scanEntries (env : Env) (sp : SimParams) (chain : Chain) (i : Int) : List Int :=
  (intRange 1 (sp.NAA - i)).foldl (fun l j => l ++ stepEntries env chain i j) []

/-- The table of a build that returned (an all-sentinel table stands in for a fatal
exit). -/
def tableOf (x : Except Fatal LookupTable) : LookupTable :=
  match x with
  | Except.ok t => t
  | Except.error _ => { table := (fun _ => -1), n := (fun _ => 0) }

/-- The lookup table of a five-residue single chain with the flags `flags`. -/
def demoTable (flags : Int → Nat) : LookupTable :=
  tableOf (buildLookupTable (demoEnv 1 0) (demoParams 6 false 1 1) (demoChainFlags 6 0 flags))

/-- Row `L` of the table `t` lists `l`: `legal_count[L]` is the length of `l`, the first
slots hold the elements of `l` in order, and the remaining slots of the row, up to its
length `NAA-1+Nchains`, hold the sentinel `-1`. -/
def RowHolds (sp : SimParams) (t : LookupTable) (L : Int) (l : List Int) : Prop :=
  t.n L = (l.length : Int) ∧
  (∀ s : Nat, s < l.length →
    t.table (L * (sp.NAA - 1 + sp.Nchains) + (s : Int)) = l.getD s 0) ∧
  (∀ s : Int, (l.length : Int) ≤ s → s < sp.NAA - 1 + sp.Nchains →
    t.table (L * (sp.NAA - 1 + sp.Nchains) + s) = -1)

/-- The window `[j, j+L]` contains no FIXED residue. -/
def windowFree (env : Env) (chain : Chain) (L j : Int) : Bool :=
  !(intRange j (j + L + 1)).any (fun k => isFixed env (chain.aa k))

/-- Row `L` of the lookup table of a single chain of `n` residues as the specification
describes it: `0` if the window `[1, 1+L]` contains no FIXED residue, followed by every `j`
in `1..n-L` whose window `[j, j+L]` contains no FIXED residue. -/
def expectedRow (env : Env) (chain : Chain) (n L : Int) : List Int :=
  (if windowFree env chain L 1 = true then [0] else []) ++
    (intRange 1 (n - L + 1)).filter (fun j => windowFree env chain L j)

/-- Two chains of six residues each in one array (`NAA = 13`): residues `1..6` carry chain
id `1`, residues `7..12` chain id `2`. -/
def demoChainTwo : Chain :=
  { NAA := 13, aa := (fun k => { demoAA k 0 with chainid := if k ≤ 6 then 1 else 2 }),
    xaa := (fun _ => demoTriplet), xaa_prev := (fun _ => demoTriplet), erg := (fun _ => 0) }

/-- The two flags `(pivot_around_end, pivot_around_start)` of a classification that
returned; `none` for a fatal exit. -/
def pivotFlags (x : Except Fatal (Pivot × Rng)) : Option (Bool × Bool) :=
  match x with
  | Except.ok pr => some (pr.1.pivot_around_end, pr.1.pivot_around_start)
  | Except.error _ => none

/-- The window `[j, j+L]` has both ends on one chain and holds no FIXED residue of the
chain of `j`. -/
def LegalWindow (env : Env) (chain : Chain) (L j : Int) : Prop :=
  (chain.aa j).chainid = (chain.aa (j + L)).chainid ∧
  ∀ k : Int, j ≤ k → k ≤ j + L → isFixed env (chain.aa k) = true →
    (chain.aa j).chainid ≠ (chain.aa k).chainid

/-- The cached total of a committed matrix: the sum of `E[i][j]` over `1 <= i <= j <= NAA-1`
plus `E[0][0]`. -/
def cachedTotal (NAA : Int) (erg : Int → ℚ) : ℚ :=
  ((intRange 1 NAA).map (fun i =>
    ((intRange i NAA).map (fun j => erg (ErgIdx NAA i j))).sum)).sum + erg (ErgIdx NAA 0 0)

/-- The fatal exit taken by a call of `crankshaft`, if any. -/
def fatalOf (x : Except Fatal CrankResult) : Option Fatal :=
  match x with
  | Except.ok _ => none
  | Except.error e => some e

/-! ## Loop and indexing lemmas -/

theorem mem_intRange {lo hi x : Int} : x ∈ intRange lo hi ↔ lo ≤ x ∧ x < hi := by
  simp only [intRange, List.mem_map, List.mem_range]
  constructor
  · rintro ⟨k, hk, rfl⟩
    have := Int.lt_toNat.mp hk
    omega
  · rintro ⟨h1, h2⟩
    refine ⟨(x - lo).toNat, Int.lt_toNat.mpr ?_, ?_⟩
    · rw [Int.toNat_of_nonneg (by omega)]
      omega
    · rw [Int.toNat_of_nonneg (by omega)]
      omega

theorem ErgIdx_inj {N i j i' j' : Int} (hj : 0 ≤ j) (hjN : j < N) (hj' : 0 ≤ j')
    (hj'N : j' < N) (h : ErgIdx N i j = ErgIdx N i' j') : i = i' ∧ j = j' := by
  unfold ErgIdx at h
  have hN : 0 < N := by omega
  have e1 : (i * N + j) % N = j := by
    rw [Int.add_comm, Int.add_mul_emod_self]
    exact Int.emod_eq_of_lt hj hjN
  have e2 : (i' * N + j') % N = j' := by
    rw [Int.add_comm, Int.add_mul_emod_self]
    exact Int.emod_eq_of_lt hj' hj'N
  have hjj : j = j' := by rw [← e1, ← e2, h]
  subst hjj
  have h3 : i * N = i' * N := by omega
  exact ⟨Int.eq_of_mul_eq_mul_right (by omega) h3, rfl⟩

theorem foldl_preserves {α β : Type} (P : β → Prop) (f : β → α → β) (l : List α)
    (h : ∀ x ∈ l, ∀ s, P s → P (f s x)) (s : β) (hs : P s) : P (l.foldl f s) := by
  induction l generalizing s with
  | nil => simpa using hs
  | cons a t ih =>
    simp only [List.foldl_cons]
    exact ih (fun x hx => h x (List.mem_cons_of_mem _ hx)) _ (h a (List.mem_cons_self _ _) s hs)

theorem foldl_establishes {α β : Type} (P : β → Prop) (f : β → α → β) (l : List α)
    (a : α) (ha : a ∈ l) (hest : ∀ s, P (f s a))
    (hpres : ∀ x ∈ l, ∀ s, P s → P (f s x)) (s : β) : P (l.foldl f s) := by
  induction l generalizing s with
  | nil => simp at ha
  | cons b t ih =>
    simp only [List.foldl_cons]
    rcases List.mem_cons.mp ha with rfl | hmem
    · exact foldl_preserves P f t (fun x hx => hpres x (List.mem_cons_of_mem _ hx)) _ (hest s)
    · exact ih hmem (fun x hx => hpres x (List.mem_cons_of_mem _ hx)) _

theorem commitCell_apply (NAA start : Int) (ergt erg : Int → ℚ) (i j x : Int) :
    commitCell NAA start ergt i j erg x =
      if x = ErgIdx NAA i j ∨ x = ErgIdx NAA j i then ergt (ErgtIdx NAA start i j)
      else erg x := by
  unfold commitCell store
  by_cases h1 : x = ErgIdx NAA i j <;> by_cases h2 : x = ErgIdx NAA j i <;> simp [h1, h2]

theorem commitCell_sym {NAA start : Int} {ergt erg : Int → ℚ} {i j : Int}
    (hi1 : 1 ≤ i) (hiN : i < NAA) (hj1 : 1 ≤ j) (hjN : j < NAA) (h : SymOn NAA erg) :
    SymOn NAA (commitCell NAA start ergt i j erg) := by
  intro a b ha1 haN hb1 hbN
  rw [commitCell_apply, commitCell_apply]
  have hab := h a b ha1 haN hb1 hbN
  by_cases c1 : ErgIdx NAA a b = ErgIdx NAA i j
  · have := ErgIdx_inj (by omega) hbN (by omega) hjN c1
    obtain ⟨rfl, rfl⟩ := this
    simp
  · by_cases c2 : ErgIdx NAA a b = ErgIdx NAA j i
    · have := ErgIdx_inj (by omega) hbN (by omega) hiN c2
      obtain ⟨rfl, rfl⟩ := this
      simp
    · have c3 : ¬ ErgIdx NAA b a = ErgIdx NAA i j := by
        intro hc
        have := ErgIdx_inj (by omega) haN (by omega) hjN hc
        obtain ⟨rfl, rfl⟩ := this
        exact c2 rfl
      have c4 : ¬ ErgIdx NAA b a = ErgIdx NAA j i := by
        intro hc
        have := ErgIdx_inj (by omega) haN (by omega) hiN hc
        obtain ⟨rfl, rfl⟩ := this
        exact c1 rfl
      simp [c1, c2, c3, c4, hab]

theorem commitErg_sym {NAA start end_ : Int} (ergt erg : Int → ℚ)
    (hs : 1 ≤ start) (he : end_ ≤ NAA - 1) (h : SymOn NAA erg) :
    SymOn NAA (commitErg NAA start end_ ergt erg) := by
  unfold commitErg
  refine foldl_preserves (SymOn NAA) _ _ ?_ erg h
  intro i hi e hsym
  rw [mem_intRange] at hi
  unfold commitRow
  refine foldl_preserves (SymOn NAA) _ _ ?_ e hsym
  intro j hj e2 hsym2
  rw [mem_intRange] at hj
  exact commitCell_sym (by omega) (by omega) hj.1 hj.2 hsym2

theorem store_origin_sym {NAA : Int} {erg : Int → ℚ} (v : ℚ) (h : SymOn NAA erg) :
    SymOn NAA (store erg (ErgIdx NAA 0 0) v) := by
  intro a b ha1 haN hb1 hbN
  have n1 : ¬ ErgIdx NAA a b = ErgIdx NAA 0 0 := by
    intro hc
    have := ErgIdx_inj (by omega) hbN (le_refl 0) (by omega) hc
    omega
  have n2 : ¬ ErgIdx NAA b a = ErgIdx NAA 0 0 := by
    intro hc
    have := ErgIdx_inj (by omega) haN (le_refl 0) (by omega) hc
    omega
  simp only [store, n1, n2, if_false]
  exact h a b ha1 haN hb1 hbN

theorem allowedFinish_accept (sp : SimParams) (chain : Chain) (chaint1 : Chaint)
    (start end_ : Int) (logLstar currE : ℚ) (v : AllowedVals) (rng : Rng)
    (h : (allowedFinish sp chain chaint1 start end_ logLstar currE v rng).ret = 1) :
    (allowedFinish sp chain chaint1 start end_ logLstar currE v rng).chain =
      { chain with
        erg := store (commitErg chain.NAA start end_ v.ergt chain.erg)
                 (ErgIdx chain.NAA 0 0) v.q } ∧
    (allowedFinish sp chain chaint1 start end_ logLstar currE v rng).currE =
      currE - (v.loss + v.externalloss) := by
  unfold allowedFinish at h ⊢
  split_ifs at h ⊢ with h1
  · simp at h
  · exact ⟨rfl, rfl⟩

theorem allowed_accept (env : Env) (sp : SimParams) (chain : Chain) (chaint : Chaint)
    (start end_ : Int) (logLstar currE loss_init q_init : ℚ) (rng : Rng)
    (h : (allowed env sp chain chaint start end_ logLstar currE loss_init q_init rng).ret = 1) :
    (allowed env sp chain chaint start end_ logLstar currE loss_init q_init rng).chain =
      { chain with
        erg := store (commitErg chain.NAA start end_
            (allowedVals env sp chain chaint start end_ loss_init q_init).ergt chain.erg)
          (ErgIdx chain.NAA 0 0)
          (allowedVals env sp chain chaint start end_ loss_init q_init).q } ∧
    (allowed env sp chain chaint start end_ logLstar currE loss_init q_init rng).currE =
      currE - ((allowedVals env sp chain chaint start end_ loss_init q_init).loss +
        (allowedVals env sp chain chaint start end_ loss_init q_init).externalloss) := by
  unfold allowed at h ⊢
  simp only at h ⊢
  split_ifs at h ⊢ with h1 h2
  · simp at h
  · exact allowedFinish_accept _ _ _ _ _ _ _ _ _ h
  · exact allowedFinish_accept _ _ _ _ _ _ _ _ _ h

theorem allowedFinish_reject (sp : SimParams) (chain : Chain) (chaint1 : Chaint)
    (start end_ : Int) (logLstar currE : ℚ) (v : AllowedVals) (rng : Rng)
    (h : (allowedFinish sp chain chaint1 start end_ logLstar currE v rng).ret = 0) :
    (allowedFinish sp chain chaint1 start end_ logLstar currE v rng).chain = chain ∧
    (allowedFinish sp chain chaint1 start end_ logLstar currE v rng).currE = currE := by
  unfold allowedFinish at h ⊢
  split_ifs at h ⊢ with h1
  · exact ⟨rfl, rfl⟩
  · simp at h

theorem allowed_reject (env : Env) (sp : SimParams) (chain : Chain) (chaint : Chaint)
    (start end_ : Int) (logLstar currE loss_init q_init : ℚ) (rng : Rng)
    (h : (allowed env sp chain chaint start end_ logLstar currE loss_init q_init rng).ret = 0) :
    (allowed env sp chain chaint start end_ logLstar currE loss_init q_init rng).chain = chain ∧
    (allowed env sp chain chaint start end_ logLstar currE loss_init q_init rng).currE = currE := by
  unfold allowed at h ⊢
  simp only at h ⊢
  split_ifs at h ⊢ with h1 h2
  · exact ⟨rfl, rfl⟩
  · exact allowedFinish_reject _ _ _ _ _ _ _ _ _ h
  · exact allowedFinish_reject _ _ _ _ _ _ _ _ _ h

theorem allowed_ret (env : Env) (sp : SimParams) (chain : Chain) (chaint : Chaint)
    (start end_ : Int) (logLstar currE loss_init q_init : ℚ) (rng : Rng) :
    (allowed env sp chain chaint start end_ logLstar currE loss_init q_init rng).ret = 0 ∨
    (allowed env sp chain chaint start end_ logLstar currE loss_init q_init rng).ret = 1 := by
  unfold allowed allowedFinish
  simp only
  split_ifs <;> simp

theorem intRange_succ {lo hi : Int} (h : lo ≤ hi) :
    intRange lo (hi + 1) = intRange lo hi ++ [hi] := by
  unfold intRange
  have e : (hi + 1 - lo).toNat = (hi - lo).toNat + 1 := by
    have h1 := Int.toNat_of_nonneg (show 0 ≤ hi + 1 - lo by omega)
    have h2 := Int.toNat_of_nonneg (show 0 ≤ hi - lo by omega)
    omega
  rw [e, List.range_succ, List.map_append, List.map_singleton]
  congr 2
  have h2 := Int.toNat_of_nonneg (show 0 ≤ hi - lo by omega)
  omega

theorem intRange_self (lo : Int) : intRange lo lo = [] := by
  simp [intRange]

theorem foldl_intRange_inv {β : Type} (Inv : Int → β → Prop) (f : β → Int → β)
    (lo hi : Int) (hle : lo ≤ hi) (s : β) (h0 : Inv lo s)
    (hstep : ∀ k s, lo ≤ k → k < hi → Inv k s → Inv (k + 1) (f s k)) :
    Inv hi ((intRange lo hi).foldl f s) := by
  have main : ∀ n : Int, lo ≤ n →
      (∀ k s, lo ≤ k → k < n → Inv k s → Inv (k + 1) (f s k)) →
      Inv n ((intRange lo n).foldl f s) := by
    intro n hn
    refine Int.le_induction (P := fun n =>
      (∀ k s, lo ≤ k → k < n → Inv k s → Inv (k + 1) (f s k)) →
      Inv n ((intRange lo n).foldl f s)) ?_ ?_ n hn
    · intro _
      simpa [intRange_self] using h0
    · intro m hm ih hst
      rw [intRange_succ hm, List.foldl_append]
      simp only [List.foldl_cons, List.foldl_nil]
      exact hst m _ hm (by omega) (ih (fun k s h1 h2 hi => hst k s h1 (by omega) hi))
  exact main hi hle hstep

theorem ErgtIdx_inj {N start i j i' j' : Int} (hj : 0 ≤ j) (hjN : j < N) (hj' : 0 ≤ j')
    (hj'N : j' < N) (h : ErgtIdx N start i j = ErgtIdx N start i' j') : i = i' ∧ j = j' := by
  have := @ErgIdx_inj N (i - start) j (i' - start) j' hj hjN hj' hj'N h
  omega

theorem trialTerm_symm (env : Env) (chain : Chain) (aat : Int → AA) {start end_ a b : Int}
    (ha1 : start ≤ a) (ha2 : a ≤ end_) (hb1 : start ≤ b) (hb2 : b ≤ end_) :
    trialTerm env chain aat start end_ a b = trialTerm env chain aat start end_ b a := by
  unfold trialTerm
  have n1 : ¬ (b < start ∨ end_ < b) := by omega
  have n2 : ¬ (a < start ∨ end_ < a) := by omega
  simp only [n1, n2, if_false]
  by_cases hab : a = b
  · subst hab; rfl
  · have hba : ¬ b = a := fun h => hab h.symm
    simp only [hab, hba, if_false, min_comm, max_comm]

theorem allowedCell_ergt_other (env : Env) (chain : Chain) (aat : Int → AA)
    (start end_ i j : Int) (s : EvalSt) (x : Int) (hx : x ≠ ErgtIdx chain.NAA start i j) :
    (allowedCell env chain aat start end_ i j s).ergt x = s.ergt x := by
  unfold allowedCell
  split_ifs <;> simp [store, hx]

theorem allowedCell_ergt_self (env : Env) (chain : Chain) (aat : Int → AA)
    (start end_ i j : Int) (s : EvalSt) (hi2 : i ≤ end_)
    (hprev : start ≤ j → j < i →
      s.ergt (ErgtIdx chain.NAA start j i) = trialTerm env chain aat start end_ j i) :
    (allowedCell env chain aat start end_ i j s).ergt (ErgtIdx chain.NAA start i j) =
      trialTerm env chain aat start end_ i j := by
  unfold allowedCell
  split_ifs with h1 h2 h3
  · simp [store, trialTerm, h1]
  · have hij : ¬ i = j := by omega
    simp [store, trialTerm, h1, hij, min_eq_left (le_of_lt h2), max_eq_right (le_of_lt h2)]
  · subst h3
    simp [store, trialTerm, h1]
  · have hj1 : start ≤ j := by omega
    have hji : j < i := by omega
    simp only [store, if_true]
    rw [hprev hj1 hji]
    exact trialTerm_symm env chain aat hj1 (by omega) (by omega) hi2

theorem allowedRow_rowsDone (env : Env) (chain : Chain) (aat : Int → AA)
    (start end_ i : Int) (s : EvalSt) (hi1 : start ≤ i) (hi2 : i ≤ end_)
    (he : end_ ≤ chain.NAA - 1) (hs1 : 1 ≤ start)
    (h : RowsDone env chain aat start end_ i s) :
    RowsDone env chain aat start end_ (i + 1) (allowedRow env chain aat start end_ i s) := by
  unfold allowedRow
  have key := foldl_intRange_inv
    (fun (j : Int) (t : EvalSt) => RowsDone env chain aat start end_ i t ∧
      ∀ b : Int, 1 ≤ b → b < j →
        t.ergt (ErgtIdx chain.NAA start i b) = trialTerm env chain aat start end_ i b)
    (fun s j => allowedCell env chain aat start end_ i j s) 1 chain.NAA (by omega) s
    ⟨h, fun b hb1 hb2 => by omega⟩ ?_
  · obtain ⟨k1, k2⟩ := key
    intro a b ha1 ha2 hb1 hb2
    by_cases hai : a = i
    · subst hai; exact k2 b hb1 hb2
    · exact k1 a b ha1 (by omega) hb1 hb2
  · intro j t hj1 hj2 ⟨hrows, hcells⟩
    refine ⟨?_, ?_⟩
    · intro a b ha1 ha2 hb1 hb2
      rw [allowedCell_ergt_other]
      · exact hrows a b ha1 ha2 hb1 hb2
      · intro hc
        have := ErgtIdx_inj (by omega) hb2 (by omega) hj2 hc
        omega
    · intro b hb1 hb2
      by_cases hbj : b = j
      · subst hbj
        exact allowedCell_ergt_self env chain aat start end_ i b t hi2
          (fun h1 h2 => hrows b i h1 h2 (by omega) (by omega))
      · rw [allowedCell_ergt_other]
        · exact hcells b hb1 (by omega)
        · intro hc
          have := ErgtIdx_inj (by omega) (by omega) (by omega) hj2 hc
          omega

theorem allowedEval_rowsDone (env : Env) (chain : Chain) (aat : Int → AA)
    (start end_ : Int) (s : EvalSt) (hse : start ≤ end_)
    (he : end_ ≤ chain.NAA - 1) (hs1 : 1 ≤ start) :
    RowsDone env chain aat start end_ (end_ + 1) (allowedEval env chain aat start end_ s) := by
  unfold allowedEval
  refine foldl_intRange_inv (fun k t => RowsDone env chain aat start end_ k t) _ start
    (end_ + 1) (by omega) s (fun a b h1 h2 => by omega) ?_
  intro k t hk1 hk2 hinv
  exact allowedRow_rowsDone env chain aat start end_ k t hk1 (by omega) he hs1 hinv

theorem commitCell_window {NAA start end_ : Int} {ergt erg : Int → ℚ} {i j a b : Int}
    (T : Int → Int → ℚ)
    (hT : ∀ x y : Int, start ≤ x → x ≤ end_ → 1 ≤ y → y < NAA →
      ergt (ErgtIdx NAA start x y) = T x y)
    (hTs : ∀ x y : Int, start ≤ x → x ≤ end_ → start ≤ y → y ≤ end_ → T x y = T y x)
    (hs : 1 ≤ start) (he : end_ ≤ NAA - 1)
    (hi1 : start ≤ i) (hi2 : i ≤ end_) (hj1 : 1 ≤ j) (hj2 : j < NAA)
    (ha1 : start ≤ a) (ha2 : a ≤ end_) (hb1 : 1 ≤ b) (hb2 : b < NAA)
    (h : erg (ErgIdx NAA a b) = T a b ∧ erg (ErgIdx NAA b a) = T a b) :
    commitCell NAA start ergt i j erg (ErgIdx NAA a b) = T a b ∧
    commitCell NAA start ergt i j erg (ErgIdx NAA b a) = T a b := by
  rw [commitCell_apply, commitCell_apply, hT i j hi1 hi2 hj1 hj2]
  constructor
  · split_ifs with c
    · rcases c with c | c
      · obtain ⟨rfl, rfl⟩ := ErgIdx_inj (by omega) hb2 (by omega) hj2 c
        rfl
      · obtain ⟨rfl, rfl⟩ := ErgIdx_inj (by omega) hb2 (by omega) (by omega) c
        exact hTs _ _ hi1 hi2 ha1 ha2
    · exact h.1
  · split_ifs with c
    · rcases c with c | c
      · obtain ⟨rfl, rfl⟩ := ErgIdx_inj (by omega) (by omega) (by omega) hj2 c
        exact hTs _ _ hi1 hi2 ha1 ha2
      · obtain ⟨rfl, rfl⟩ := ErgIdx_inj (by omega) (by omega) (by omega) (by omega) c
        rfl
    · exact h.2

theorem commitCell_window_self {NAA start : Int} {ergt erg : Int → ℚ} {a b : Int} :
    commitCell NAA start ergt a b erg (ErgIdx NAA a b) = ergt (ErgtIdx NAA start a b) ∧
    commitCell NAA start ergt a b erg (ErgIdx NAA b a) = ergt (ErgtIdx NAA start a b) := by
  rw [commitCell_apply, commitCell_apply]
  simp

theorem commitErg_window {NAA start end_ : Int} {ergt : Int → ℚ} (erg : Int → ℚ) {a b : Int}
    (T : Int → Int → ℚ)
    (hT : ∀ x y : Int, start ≤ x → x ≤ end_ → 1 ≤ y → y < NAA →
      ergt (ErgtIdx NAA start x y) = T x y)
    (hTs : ∀ x y : Int, start ≤ x → x ≤ end_ → start ≤ y → y ≤ end_ → T x y = T y x)
    (hs : 1 ≤ start) (he : end_ ≤ NAA - 1)
    (ha1 : start ≤ a) (ha2 : a ≤ end_) (hb1 : 1 ≤ b) (hb2 : b < NAA) :
    commitErg NAA start end_ ergt erg (ErgIdx NAA a b) = T a b ∧
    commitErg NAA start end_ ergt erg (ErgIdx NAA b a) = T a b := by
  unfold commitErg
  refine foldl_establishes
    (fun e : Int → ℚ => e (ErgIdx NAA a b) = T a b ∧ e (ErgIdx NAA b a) = T a b)
    _ _ a (mem_intRange.mpr ⟨ha1, by omega⟩) ?_ ?_ erg
  · intro e
    unfold commitRow
    refine foldl_establishes
      (fun e : Int → ℚ => e (ErgIdx NAA a b) = T a b ∧ e (ErgIdx NAA b a) = T a b)
      _ _ b (mem_intRange.mpr ⟨hb1, hb2⟩) ?_ ?_ e
    · intro e2
      have := @commitCell_window_self NAA start ergt e2 a b
      rw [hT a b ha1 ha2 hb1 hb2] at this
      exact this
    · intro j hj e2 he2
      rw [mem_intRange] at hj
      exact commitCell_window T hT hTs hs he ha1 ha2 hj.1 hj.2 ha1 ha2 hb1 hb2 he2
  · intro i hi e hP
    rw [mem_intRange] at hi
    unfold commitRow
    refine foldl_preserves
      (fun e : Int → ℚ => e (ErgIdx NAA a b) = T a b ∧ e (ErgIdx NAA b a) = T a b)
      _ _ ?_ e hP
    intro j hj e2 he2
    rw [mem_intRange] at hj
    exact commitCell_window T hT hTs hs he hi.1 (by omega) hj.1 hj.2 ha1 ha2 hb1 hb2 he2

theorem commitErg_frame {NAA start end_ : Int} (ergt erg : Int → ℚ) {a b : Int}
    (hs : 1 ≤ start) (he : end_ ≤ NAA - 1)
    (hb1 : 0 ≤ b) (hb2 : b < NAA)
    (ha : a < start ∨ end_ < a) (hb : b < start ∨ end_ < b) :
    commitErg NAA start end_ ergt erg (ErgIdx NAA a b) = erg (ErgIdx NAA a b) := by
  unfold commitErg
  refine foldl_preserves (fun e : Int → ℚ => e (ErgIdx NAA a b) = erg (ErgIdx NAA a b))
    _ _ ?_ erg rfl
  intro i hi e hP
  rw [mem_intRange] at hi
  unfold commitRow
  refine foldl_preserves (fun e : Int → ℚ => e (ErgIdx NAA a b) = erg (ErgIdx NAA a b))
    _ _ ?_ e hP
  intro j hj e2 he2
  rw [mem_intRange] at hj
  rw [commitCell_apply]
  split_ifs with c
  · exfalso
    rcases c with c | c
    · have := ErgIdx_inj hb1 hb2 (by omega) hj.2 c
      omega
    · have := ErgIdx_inj hb1 hb2 (by omega) (by omega) c
      omega
  · exact he2

theorem allowedCell_loss (env : Env) (chain : Chain) (aat : Int → AA)
    (start end_ i j : Int) (s : EvalSt) (hi2 : i ≤ end_) :
    (allowedCell env chain aat start end_ i j s).loss =
      s.loss + (if ¬ (start ≤ j ∧ j < i) then
        chain.erg (ErgIdx chain.NAA i j) - trialTerm env chain aat start end_ i j else 0) := by
  unfold allowedCell
  by_cases h1 : j < start ∨ end_ < j
  · have h4 : ¬ (start ≤ j ∧ j < i) := by omega
    simp [h1, h4, trialTerm]
  · by_cases h2 : j > i
    · have h4 : ¬ (start ≤ j ∧ j < i) := by omega
      have hij : ¬ i = j := by omega
      simp [h1, h2, h4, trialTerm, hij, min_eq_left (le_of_lt h2), max_eq_right (le_of_lt h2)]
    · by_cases h3 : j = i
      · subst h3
        simp [h1, trialTerm]
      · have h4 : start ≤ j ∧ j < i := by omega
        simp [h1, h2, h3, h4]

theorem foldl_loss {l : List Int} (step : EvalSt → Int → EvalSt) (g : Int → ℚ)
    (p : Int → Prop) [DecidablePred p]
    (h : ∀ j s, (step s j).loss = s.loss + (if p j then g j else 0)) (s : EvalSt) :
    (l.foldl step s).loss = s.loss + ((l.filter (fun j => p j)).map g).sum := by
  induction l generalizing s with
  | nil => simp
  | cons a t ih =>
    simp only [List.foldl_cons]
    rw [ih, h]
    by_cases hp : p a
    · simp [List.filter_cons, hp, add_assoc]
    · simp [List.filter_cons, hp]

theorem foldl_loss_mem {l : List Int} (step : EvalSt → Int → EvalSt) (g : Int → ℚ)
    (h : ∀ i ∈ l, ∀ s, (step s i).loss = s.loss + g i) (s : EvalSt) :
    (l.foldl step s).loss = s.loss + (l.map g).sum := by
  induction l generalizing s with
  | nil => simp
  | cons a t ih =>
    simp only [List.foldl_cons, List.map_cons, List.sum_cons]
    rw [ih (fun i hi => h i (List.mem_cons_of_mem _ hi)), h a (List.mem_cons_self _ _)]
    ring

theorem allowedEval_loss (env : Env) (chain : Chain) (aat : Int → AA)
    (start end_ : Int) (s : EvalSt) :
    (allowedEval env chain aat start end_ s).loss =
      s.loss + pairLoss env chain aat start end_ := by
  unfold allowedEval pairLoss
  refine foldl_loss_mem _ _ ?_ s
  intro i hi t
  rw [mem_intRange] at hi
  unfold allowedRow
  exact foldl_loss (fun s j => allowedCell env chain aat start end_ i j s) _
    (fun j => ¬ (start ≤ j ∧ j < i))
    (fun j s => allowedCell_loss env chain aat start end_ i j s (by omega)) t

/-- With the cyclic special case off, the internal loss `allowed` works with is the initial
content of the local `loss` plus the pair sum. -/
theorem allowedVals_loss (env : Env) (sp : SimParams) (chain : Chain) (chaint : Chaint)
    (start end_ : Int) (loss_init q_init : ℚ) (hcyc : sp.external_potential_type2 ≠ 4) :
    (allowedVals env sp chain chaint start end_ loss_init q_init).loss =
      loss_init + pairLoss env chain chaint.aat start end_ := by
  unfold allowedVals
  simp only [hcyc, if_false]
  exact allowedEval_loss env chain chaint.aat start end_ _

theorem allowedVals_ergt (env : Env) (sp : SimParams) (chain : Chain) (chaint : Chaint)
    (start end_ : Int) (loss_init q_init : ℚ) (hs : 1 ≤ start) (hse : start ≤ end_)
    (he : end_ ≤ chain.NAA - 1) (i j : Int) (hi1 : start ≤ i) (hi2 : i ≤ end_)
    (hj1 : 1 ≤ j) (hj2 : j < chain.NAA) :
    (allowedVals env sp chain chaint start end_ loss_init q_init).ergt
        (ErgtIdx chain.NAA start i j) = trialTerm env chain chaint.aat start end_ i j := by
  unfold allowedVals
  exact allowedEval_rowsDone env chain chaint.aat start end_ _ hse he hs i j hi1 (by omega)
    hj1 hj2

theorem allowed_chaint (env : Env) (sp : SimParams) (chain : Chain) (chaint : Chaint)
    (start end_ : Int) (logLstar currE loss_init q_init : ℚ) (rng : Rng) :
    (allowed env sp chain chaint start end_ logLstar currE loss_init q_init rng).chaint =
      { chaint with
        ergt := (allowedVals env sp chain chaint start end_ loss_init q_init).ergt } := by
  unfold allowed allowedFinish
  simp only
  split_ifs <;> rfl

theorem allowedVals_q (env : Env) (sp : SimParams) (chain : Chain) (chaint : Chaint)
    (start end_ : Int) (loss_init q_init : ℚ) :
    (allowedVals env sp chain chaint start end_ loss_init q_init).q =
      env.global_energy start end_ chain { chaint with
        ergt := (allowedVals env sp chain chaint start end_ loss_init q_init).ergt } := rfl

theorem allowedVals_externalloss (env : Env) (sp : SimParams) (chain : Chain)
    (chaint : Chaint) (start end_ : Int) (loss_init q_init : ℚ) :
    (allowedVals env sp chain chaint start end_ loss_init q_init).externalloss =
      chain.erg (ErgIdx chain.NAA 0 0) -
        (allowedVals env sp chain chaint start end_ loss_init q_init).q := rfl

theorem rand_le (env : Env) (r : Rng) : (rand env r).1 ≤ env.RAND_MAX := by
  unfold rand
  exact Nat.lt_succ_iff.mp (Nat.mod_lt _ (Nat.succ_pos _))

/-- C1: if the committed matrix is symmetric on `1..NAA-1` and `allowed` accepts a move on a
window `1 <= start <= end <= NAA-1`, the committed matrix after the commit is symmetric on
`1..NAA-1` again, whatever the energy functions return. -/
theorem C1_commit_keeps_symmetry (env : Env) (sp : SimParams) (chain : Chain)
    (chaint : Chaint) (start end_ : Int) (logLstar currE loss_init q_init : ℚ) (rng : Rng)
    (hs : 1 ≤ start) (hse : start ≤ end_) (he : end_ ≤ chain.NAA - 1)
    (hsym : SymOn chain.NAA chain.erg)
    (hacc : (allowed env sp chain chaint start end_ logLstar currE loss_init q_init rng).ret
      = 1) :
    SymOn chain.NAA
      (allowed env sp chain chaint start end_ logLstar currE loss_init q_init rng).chain.erg := by
  have _ := hse
  rw [(allowed_accept env sp chain chaint start end_ logLstar currE loss_init q_init rng
    hacc).1]
  exact store_origin_sym _ (commitErg_sym _ _ hs he hsym)

theorem C1_witness :
    SymOn 4 (allowed (demoEnv (-1) 0) (demoParams 4 false 1 1) (demoChain 4 0) demoChaint
      2 3 0 0 0 0 (demoRng 5)).chain.erg :=
  C1_commit_keeps_symmetry (demoEnv (-1) 0) (demoParams 4 false 1 1) (demoChain 4 0)
    demoChaint 2 3 0 0 0 0 (demoRng 5) (by decide) (by decide) (by decide)
    (fun _ _ _ _ _ _ => rfl) (by decide!)

/-- C3: after `allowed` accepts a move on the window `[start,end]`, for every row `i` of the
window and every `j` in `1..NAA-1` the cells `E[i][j]` and `E[j][i]` both hold the trial
term of the pair (trial-committed, trial-trial on the ordered pair, or the self energy), and
`E[0][0]` holds the newly computed global energy. -/
theorem C3_commit_values (env : Env) (sp : SimParams) (chain : Chain)
    (chaint : Chaint) (start end_ : Int) (logLstar currE loss_init q_init : ℚ) (rng : Rng)
    (hs : 1 ≤ start) (hse : start ≤ end_) (he : end_ ≤ chain.NAA - 1)
    (hacc : (allowed env sp chain chaint start end_ logLstar currE loss_init q_init rng).ret
      = 1) :
    (∀ i j : Int, start ≤ i → i ≤ end_ → 1 ≤ j → j < chain.NAA →
      (allowed env sp chain chaint start end_ logLstar currE loss_init q_init rng).chain.erg
          (ErgIdx chain.NAA i j) = trialTerm env chain chaint.aat start end_ i j ∧
      (allowed env sp chain chaint start end_ logLstar currE loss_init q_init rng).chain.erg
          (ErgIdx chain.NAA j i) = trialTerm env chain chaint.aat start end_ i j) ∧
    (allowed env sp chain chaint start end_ logLstar currE loss_init q_init rng).chain.erg
        (ErgIdx chain.NAA 0 0) =
      env.global_energy start end_ chain
        (allowed env sp chain chaint start end_ logLstar currE loss_init q_init rng).chaint := by
  rw [(allowed_accept env sp chain chaint start end_ logLstar currE loss_init q_init rng
    hacc).1, allowed_chaint]
  refine ⟨?_, ?_⟩
  · intro i j hi1 hi2 hj1 hj2
    have hw := @commitErg_window chain.NAA start end_
      (allowedVals env sp chain chaint start end_ loss_init q_init).ergt
      chain.erg i j (trialTerm env chain chaint.aat start end_)
      (fun x y hx1 hx2 hy1 hy2 =>
        allowedVals_ergt env sp chain chaint start end_ loss_init q_init hs hse he x y
          hx1 hx2 hy1 hy2)
      (fun x y hx1 hx2 hy1 hy2 => trialTerm_symm env chain chaint.aat hx1 hx2 hy1 hy2)
      hs he hi1 hi2 hj1 hj2
    have n1 : ¬ ErgIdx chain.NAA i j = ErgIdx chain.NAA 0 0 := by
      intro hc
      have := ErgIdx_inj (by omega) hj2 (le_refl 0) (by omega) hc
      omega
    have n2 : ¬ ErgIdx chain.NAA j i = ErgIdx chain.NAA 0 0 := by
      intro hc
      have := ErgIdx_inj (by omega) (by omega) (le_refl 0) (by omega) hc
      omega
    simp only [store, n1, n2, if_false]
    exact hw
  · simp only [store, if_true]
    rfl

theorem C3_witness :
    (∀ i j : Int, 2 ≤ i → i ≤ 3 → 1 ≤ j → j < (demoChain 4 0).NAA →
      (allowed (demoEnv (-1) 7) (demoParams 4 false 1 1) (demoChain 4 0) demoChaint
          2 3 0 0 0 0 (demoRng 5)).chain.erg (ErgIdx (demoChain 4 0).NAA i j) =
        trialTerm (demoEnv (-1) 7) (demoChain 4 0) demoChaint.aat 2 3 i j ∧
      (allowed (demoEnv (-1) 7) (demoParams 4 false 1 1) (demoChain 4 0) demoChaint
          2 3 0 0 0 0 (demoRng 5)).chain.erg (ErgIdx (demoChain 4 0).NAA j i) =
        trialTerm (demoEnv (-1) 7) (demoChain 4 0) demoChaint.aat 2 3 i j) ∧
    (allowed (demoEnv (-1) 7) (demoParams 4 false 1 1) (demoChain 4 0) demoChaint
        2 3 0 0 0 0 (demoRng 5)).chain.erg (ErgIdx (demoChain 4 0).NAA 0 0) =
      (demoEnv (-1) 7).global_energy 2 3 (demoChain 4 0)
        (allowed (demoEnv (-1) 7) (demoParams 4 false 1 1) (demoChain 4 0) demoChaint
          2 3 0 0 0 0 (demoRng 5)).chaint :=
  C3_commit_values (demoEnv (-1) 7) (demoParams 4 false 1 1) (demoChain 4 0) demoChaint
    2 3 0 0 0 0 (demoRng 5) (by decide) (by decide) (by decide) (by decide!)

/-- C4: after `allowed` accepts a move on the window `[start,end]`, every cell of the
committed matrix other than `[0][0]` whose row and column both lie outside the window keeps
the value it had before the call. -/
theorem C4_commit_frame (env : Env) (sp : SimParams) (chain : Chain)
    (chaint : Chaint) (start end_ : Int) (logLstar currE loss_init q_init : ℚ) (rng : Rng)
    (hs : 1 ≤ start) (he : end_ ≤ chain.NAA - 1)
    (hacc : (allowed env sp chain chaint start end_ logLstar currE loss_init q_init rng).ret
      = 1)
    (a b : Int) (ha1 : 0 ≤ a) (ha2 : a < chain.NAA) (hb1 : 0 ≤ b) (hb2 : b < chain.NAA)
    (hne : ¬ (a = 0 ∧ b = 0)) (ha : a < start ∨ end_ < a) (hb : b < start ∨ end_ < b) :
    (allowed env sp chain chaint start end_ logLstar currE loss_init q_init rng).chain.erg
        (ErgIdx chain.NAA a b) = chain.erg (ErgIdx chain.NAA a b) := by
  have _ := ha1
  have _ := ha2
  rw [(allowed_accept env sp chain chaint start end_ logLstar currE loss_init q_init rng
    hacc).1]
  have n1 : ¬ ErgIdx chain.NAA a b = ErgIdx chain.NAA 0 0 := by
    intro hc
    have := ErgIdx_inj hb1 hb2 (le_refl 0) (by omega) hc
    exact hne this
  simp only [store, n1, if_false]
  exact commitErg_frame _ _ hs he hb1 hb2 ha hb

theorem C4_witness :
    (allowed (demoEnv (-1) 7) (demoParams 11 false 1 1) (demoChain 11 0) demoChaint
        3 5 0 0 0 0 (demoRng 5)).chain.erg (ErgIdx (demoChain 11 0).NAA 2 7) =
      (demoChain 11 0).erg (ErgIdx (demoChain 11 0).NAA 2 7) :=
  C4_commit_frame (demoEnv (-1) 7) (demoParams 11 false 1 1) (demoChain 11 0) demoChaint
    3 5 0 0 0 0 (demoRng 5) (by decide) (by decide) (by decide!) 2 7 (by decide) (by decide)
    (by decide) (by decide) (by decide) (by decide) (by decide)

/-- On acceptance with the cyclic special case off, `*currE` is reduced by the initial
content of the local `loss`, plus the pair sum, plus the external loss. -/
theorem allowed_currE_accept (env : Env) (sp : SimParams) (chain : Chain)
    (chaint : Chaint) (start end_ : Int) (logLstar currE loss_init q_init : ℚ) (rng : Rng)
    (hcyc : sp.external_potential_type2 ≠ 4)
    (hacc : (allowed env sp chain chaint start end_ logLstar currE loss_init q_init rng).ret
      = 1) :
    (allowed env sp chain chaint start end_ logLstar currE loss_init q_init rng).currE =
      currE - (loss_init + pairLoss env chain chaint.aat start end_ +
        (chain.erg (ErgIdx chain.NAA 0 0) - env.global_energy start end_ chain
          (allowed env sp chain chaint start end_ logLstar currE loss_init q_init
            rng).chaint)) := by
  rw [(allowed_accept env sp chain chaint start end_ logLstar currE loss_init q_init rng
    hacc).2, allowedVals_loss env sp chain chaint start end_ loss_init q_init hcyc,
    allowedVals_externalloss, allowed_chaint]
  rfl

/-- C5 (evaluation at the failing input): with the local `loss` holding `1` on entry, an
accepted move on the window `[1,1]` of a two-residue chain lowers `*currE` by `12`, while the
pair sum plus the external loss is `11`. -/
theorem C5_loss_not_accumulated_from_zero :
    (allowed (demoEnv (-1) 0) (demoParams 3 false 1 1) (demoChain 3 0) demoChaint
        1 1 0 0 1 0 (demoRng 5)).ret = 1 ∧
    (demoParams 3 false 1 1).external_potential_type2 ≠ 4 ∧
    pairLoss (demoEnv (-1) 0) (demoChain 3 0) demoChaint.aat 1 1 +
      ((demoChain 3 0).erg (ErgIdx 3 0 0) -
        (demoEnv (-1) 0).global_energy 1 1 (demoChain 3 0)
          (allowed (demoEnv (-1) 0) (demoParams 3 false 1 1) (demoChain 3 0) demoChaint
            1 1 0 0 1 0 (demoRng 5)).chaint) = 11 ∧
    (allowed (demoEnv (-1) 0) (demoParams 3 false 1 1) (demoChain 3 0) demoChaint
        1 1 0 0 1 0 (demoRng 5)).currE = 0 - 12 := by
  decide!

/-- What an accepting call of `allowed` on a window `1 <= start <= end <= NAA-1` leaves in
the committed matrix: the trial terms in the rows and columns of the window, the recomputed
global energy in `E[0][0]`. -/
theorem allowed_commit_cells (env : Env) (sp : SimParams) (chain : Chain)
    (chaint : Chaint) (start end_ : Int) (logLstar currE loss_init q_init : ℚ) (rng : Rng)
    (hacc : (allowed env sp chain chaint start end_ logLstar currE loss_init q_init rng).ret
      = 1) :
    (1 ≤ start → start ≤ end_ → end_ ≤ chain.NAA - 1 →
      ∀ i j : Int, start ≤ i → i ≤ end_ → 1 ≤ j → j < chain.NAA →
        (allowed env sp chain chaint start end_ logLstar currE loss_init q_init rng).chain.erg
            (ErgIdx chain.NAA i j) = trialTerm env chain chaint.aat start end_ i j ∧
        (allowed env sp chain chaint start end_ logLstar currE loss_init q_init rng).chain.erg
            (ErgIdx chain.NAA j i) = trialTerm env chain chaint.aat start end_ i j) ∧
    (allowed env sp chain chaint start end_ logLstar currE loss_init q_init rng).chain.erg
        (ErgIdx chain.NAA 0 0) =
      env.global_energy start end_ chain
        (allowed env sp chain chaint start end_ logLstar currE loss_init q_init
          rng).chaint := by
  rw [(allowed_accept env sp chain chaint start end_ logLstar currE loss_init q_init rng
    hacc).1, allowed_chaint]
  refine ⟨?_, ?_⟩
  · intro hs hse he i j hi1 hi2 hj1 hj2
    have hw := @commitErg_window chain.NAA start end_
      (allowedVals env sp chain chaint start end_ loss_init q_init).ergt
      chain.erg i j (trialTerm env chain chaint.aat start end_)
      (fun x y hx1 hx2 hy1 hy2 =>
        allowedVals_ergt env sp chain chaint start end_ loss_init q_init hs hse he x y
          hx1 hx2 hy1 hy2)
      (fun x y hx1 hx2 hy1 hy2 => trialTerm_symm env chain chaint.aat hx1 hx2 hy1 hy2)
      hs he hi1 hi2 hj1 hj2
    have n1 : ¬ ErgIdx chain.NAA i j = ErgIdx chain.NAA 0 0 := by
      intro hc
      have := ErgIdx_inj (by omega) hj2 (le_refl 0) (by omega) hc
      omega
    have n2 : ¬ ErgIdx chain.NAA j i = ErgIdx chain.NAA 0 0 := by
      intro hc
      have := ErgIdx_inj (by omega) (by omega) (le_refl 0) (by omega) hc
      omega
    simp only [store, n1, n2, if_false]
    exact hw
  · simp only [store, if_true]
    rfl

/-- C6: in the Metropolis branch (Nested Sampling off), if the internal loss is non-negative
then `allowed` returns 1 and commits, whatever the uniform draw, `thermobeta`, the external
loss and the external coupling weight are: the committed matrix is the old one with the
commit loops of lines 119-122 applied, so that on a window `1 <= start <= end <= NAA-1` the
cells `E[i][j]` and `E[j][i]` hold the trial term of the pair for every row `i` of the
window and every `j` in `1..NAA-1`, `E[0][0]` holds the recomputed global energy, and
`*currE` is lowered by the internal plus the external loss. -/
theorem C6_metropolis_accepts_nonneg_internal_loss (env : Env) (sp : SimParams)
    (chain : Chain) (chaint : Chaint) (start end_ : Int)
    (logLstar currE loss_init q_init : ℚ) (rng : Rng)
    (hNS : sp.NS = false)
    (hloss : 0 ≤ (allowedVals env sp chain chaint start end_ loss_init q_init).loss) :
    (allowed env sp chain chaint start end_ logLstar currE loss_init q_init rng).ret = 1 ∧
    (allowed env sp chain chaint start end_ logLstar currE loss_init q_init rng).chain.erg =
      store (commitErg chain.NAA start end_
          (allowedVals env sp chain chaint start end_ loss_init q_init).ergt chain.erg)
        (ErgIdx chain.NAA 0 0)
        (allowedVals env sp chain chaint start end_ loss_init q_init).q ∧
    (allowed env sp chain chaint start end_ logLstar currE loss_init q_init rng).currE =
      currE - ((allowedVals env sp chain chaint start end_ loss_init q_init).loss +
        (allowedVals env sp chain chaint start end_ loss_init q_init).externalloss) ∧
    (1 ≤ start → start ≤ end_ → end_ ≤ chain.NAA - 1 →
      ∀ i j : Int, start ≤ i → i ≤ end_ → 1 ≤ j → j < chain.NAA →
        (allowed env sp chain chaint start end_ logLstar currE loss_init q_init rng).chain.erg
            (ErgIdx chain.NAA i j) = trialTerm env chain chaint.aat start end_ i j ∧
        (allowed env sp chain chaint start end_ logLstar currE loss_init q_init rng).chain.erg
            (ErgIdx chain.NAA j i) = trialTerm env chain chaint.aat start end_ i j) ∧
    (allowed env sp chain chaint start end_ logLstar currE loss_init q_init rng).chain.erg
        (ErgIdx chain.NAA 0 0) =
      env.global_energy start end_ chain
        (allowed env sp chain chaint start end_ logLstar currE loss_init q_init
          rng).chaint ∧
    (allowedVals env sp chain chaint start end_ loss_init q_init).externalloss =
      chain.erg (ErgIdx chain.NAA 0 0) -
        env.global_energy start end_ chain
          (allowed env sp chain chaint start end_ logLstar currE loss_init q_init
            rng).chaint := by
  have hret :
      (allowed env sp chain chaint start end_ logLstar currE loss_init q_init rng).ret = 1 := by
    unfold allowed allowedFinish
    have h1 : ¬ ((allowedVals env sp chain chaint start end_ loss_init q_init).loss < 0) :=
      not_lt.mpr hloss
    simp [h1, hNS]
  have h := allowed_accept env sp chain chaint start end_ logLstar currE loss_init q_init rng
    hret
  have hc := allowed_commit_cells env sp chain chaint start end_ logLstar currE loss_init
    q_init rng hret
  refine ⟨hret, by rw [h.1], h.2, hc.1, hc.2, ?_⟩
  rw [allowedVals_externalloss, allowedVals_q, allowed_chaint]

/-- C6 on the window `[2,3]` of a three-residue chain with a zero committed matrix, negative
`thermobeta`, coupling weight `9`, external loss `0 - 50` and the largest draw: the move is
accepted, `E[2][1] = E[1][2] = -12` (trial residue 2 against committed residue 1),
`E[2][3] = E[3][2] = -156` (trial against trial), `E[3][3] = 13`, `E[0][0] = 50`, and
`*currE` goes from `0` to `-(156 - 50) = -106`. -/
theorem C6_witness :
    (allowed (demoEnv (-1) 50) (demoParams 4 false (-3) 9) (demoChain 4 0) demoChaint
        2 3 0 0 0 0 (demoRng 32767)).ret = 1 ∧
    ((allowed (demoEnv (-1) 50) (demoParams 4 false (-3) 9) (demoChain 4 0) demoChaint
        2 3 0 0 0 0 (demoRng 32767)).chain.erg (ErgIdx (demoChain 4 0).NAA 2 1) =
      trialTerm (demoEnv (-1) 50) (demoChain 4 0) demoChaint.aat 2 3 2 1 ∧
    (allowed (demoEnv (-1) 50) (demoParams 4 false (-3) 9) (demoChain 4 0) demoChaint
        2 3 0 0 0 0 (demoRng 32767)).chain.erg (ErgIdx (demoChain 4 0).NAA 1 2) =
      trialTerm (demoEnv (-1) 50) (demoChain 4 0) demoChaint.aat 2 3 2 1) ∧
    trialTerm (demoEnv (-1) 50) (demoChain 4 0) demoChaint.aat 2 3 2 1 = -12 ∧
    (allowed (demoEnv (-1) 50) (demoParams 4 false (-3) 9) (demoChain 4 0) demoChaint
        2 3 0 0 0 0 (demoRng 32767)).chain.erg (ErgIdx 4 2 3) = -156 ∧
    (allowed (demoEnv (-1) 50) (demoParams 4 false (-3) 9) (demoChain 4 0) demoChaint
        2 3 0 0 0 0 (demoRng 32767)).chain.erg (ErgIdx 4 3 2) = -156 ∧
    (allowed (demoEnv (-1) 50) (demoParams 4 false (-3) 9) (demoChain 4 0) demoChaint
        2 3 0 0 0 0 (demoRng 32767)).chain.erg (ErgIdx 4 3 3) = 13 ∧
    (allowed (demoEnv (-1) 50) (demoParams 4 false (-3) 9) (demoChain 4 0) demoChaint
        2 3 0 0 0 0 (demoRng 32767)).chain.erg (ErgIdx 4 0 0) = 50 ∧
    (allowed (demoEnv (-1) 50) (demoParams 4 false (-3) 9) (demoChain 4 0) demoChaint
        2 3 0 0 0 0 (demoRng 32767)).currE = -106 :=
  ⟨(C6_metropolis_accepts_nonneg_internal_loss (demoEnv (-1) 50) (demoParams 4 false (-3) 9)
      (demoChain 4 0) demoChaint 2 3 0 0 0 0 (demoRng 32767) rfl (by decide!)).1,
   (C6_metropolis_accepts_nonneg_internal_loss (demoEnv (-1) 50) (demoParams 4 false (-3) 9)
      (demoChain 4 0) demoChaint 2 3 0 0 0 0 (demoRng 32767) rfl (by decide!)).2.2.2.1
      (by decide) (by decide) (by decide) 2 1 (by decide) (by decide) (by decide)
      (by decide),
   by decide!, by decide!, by decide!, by decide!, by decide!, by decide!⟩

/-- C7 (as stated, refuted): in the Metropolis branch a move whose total loss
`internal_loss + external_loss` is non-negative is rejected at the draw `RAND_MAX` when the
coupling weight is `2` (total loss `0`), and when `thermobeta` is `-1` (total loss `1`). -/
theorem C7_counterexample :
    ((demoParams 2 false 1 2).NS = false ∧
      0 ≤ (allowedVals (demoEnv 1 9) (demoParams 2 false 1 2) (demoChain 2 10) demoChaint
          1 1 0 0).loss +
        (allowedVals (demoEnv 1 9) (demoParams 2 false 1 2) (demoChain 2 10) demoChaint
          1 1 0 0).externalloss ∧
      (allowed (demoEnv 1 9) (demoParams 2 false 1 2) (demoChain 2 10) demoChaint
        1 1 0 0 0 0 (demoRng 32767)).ret = 0) ∧
    ((demoParams 2 false (-1) 1).NS = false ∧
      0 ≤ (allowedVals (demoEnv 1 8) (demoParams 2 false (-1) 1) (demoChain 2 10) demoChaint
          1 1 0 0).loss +
        (allowedVals (demoEnv 1 8) (demoParams 2 false (-1) 1) (demoChain 2 10) demoChaint
          1 1 0 0).externalloss ∧
      (allowed (demoEnv 1 8) (demoParams 2 false (-1) 1) (demoChain 2 10) demoChaint
        1 1 0 0 0 0 (demoRng 32767)).ret = 0) := by
  decide!

/-- C7 (amended): in the Metropolis branch, when `thermobeta` is non-negative and the external
coupling weight is at most 1, a move whose total loss `internal_loss + external_loss` is
non-negative is accepted for every value of the uniform draw (`exp` being at least 1 on
non-negative arguments). -/
theorem C7_metropolis_accepts_nonneg_total_loss (env : Env) (sp : SimParams)
    (chain : Chain) (chaint : Chaint) (start end_ : Int)
    (logLstar currE loss_init q_init : ℚ) (rng : Rng)
    (hexp : ∀ x : ℚ, 0 ≤ x → 1 ≤ env.expf x)
    (hNS : sp.NS = false) (hbeta : 0 ≤ sp.thermobeta) (hk : sp.external_k0 ≤ 1)
    (htot : 0 ≤ (allowedVals env sp chain chaint start end_ loss_init q_init).loss +
      (allowedVals env sp chain chaint start end_ loss_init q_init).externalloss) :
    (allowed env sp chain chaint start end_ logLstar currE loss_init q_init rng).ret = 1 := by
  have hk' : (allowedVals env sp chain chaint start end_ loss_init q_init).external_k ≤ 1 := by
    unfold allowedVals
    simp only
    split_ifs
    · norm_num
    · exact hk
  have hd : ((rand env rng).1 : ℚ) ≤ (env.RAND_MAX : ℚ) := by
    exact_mod_cast rand_le env rng
  have hd0 : (0 : ℚ) ≤ ((rand env rng).1 : ℚ) := by positivity
  have hR0 : (0 : ℚ) ≤ (env.RAND_MAX : ℚ) := by positivity
  have hE := hexp _ (mul_nonneg hbeta htot)
  have hno : ¬ (env.expf (sp.thermobeta *
      ((allowedVals env sp chain chaint start end_ loss_init q_init).loss +
        (allowedVals env sp chain chaint start end_ loss_init q_init).externalloss)) *
        (env.RAND_MAX : ℚ) <
      (allowedVals env sp chain chaint start end_ loss_init q_init).external_k *
        ((rand env rng).1 : ℚ)) := by
    rw [not_lt]
    calc (allowedVals env sp chain chaint start end_ loss_init q_init).external_k *
          ((rand env rng).1 : ℚ) ≤ 1 * ((rand env rng).1 : ℚ) :=
            mul_le_mul_of_nonneg_right hk' hd0
      _ = ((rand env rng).1 : ℚ) := one_mul _
      _ ≤ (env.RAND_MAX : ℚ) := hd
      _ = 1 * (env.RAND_MAX : ℚ) := (one_mul _).symm
      _ ≤ _ := mul_le_mul_of_nonneg_right hE hR0
  unfold allowed allowedFinish
  simp only [hNS]
  split_ifs <;> simp_all

theorem C7_witness :
    (allowed (demoEnv 1 9) (demoParams 2 false 1 1) (demoChain 2 10) demoChaint
      1 1 0 0 0 0 (demoRng 32767)).ret = 1 :=
  C7_metropolis_accepts_nonneg_total_loss (demoEnv 1 9) (demoParams 2 false 1 1)
    (demoChain 2 10) demoChaint 1 1 0 0 0 0 (demoRng 32767)
    (fun x hx => by
      show 1 ≤ expStandIn x
      unfold expStandIn
      rw [if_neg (not_lt.mpr hx)]
      linarith)
    rfl (by decide!) (by decide!) (by decide!)

/-- C8 (evaluation at the failing input): in the Nested-Sampling branch with the threshold
`-logLstar = 0` and the running energy `-5` below it, a move with internal loss `0` and
external loss `11 - 21 = -10` is accepted, because line 114 tests `*currE - loss = -5`
against the threshold, and line 124 leaves `*currE = -5 - (0 + (-10)) = 5`, above the
threshold. -/
theorem C8_external_loss_escapes_threshold :
    (demoParams 2 true 1 1).NS = true ∧
    (-5 : ℚ) < -0 ∧
    (allowedVals (demoEnv 1 21) (demoParams 2 true 1 1) (demoChain 2 11) demoChaint
      1 1 0 0).loss = 0 ∧
    (allowedVals (demoEnv 1 21) (demoParams 2 true 1 1) (demoChain 2 11) demoChaint
      1 1 0 0).externalloss = -10 ∧
    (allowed (demoEnv 1 21) (demoParams 2 true 1 1) (demoChain 2 11) demoChaint
      1 1 0 (-5) 0 0 (demoRng 0)).ret = 1 ∧
    (allowed (demoEnv 1 21) (demoParams 2 true 1 1) (demoChain 2 11) demoChaint
      1 1 0 (-5) 0 0 (demoRng 0)).currE = 5 ∧
    ¬ ((allowed (demoEnv 1 21) (demoParams 2 true 1 1) (demoChain 2 11) demoChaint
      1 1 0 (-5) 0 0 (demoRng 0)).currE < -0) := by
  decide!

theorem intRange_single (j : Int) : intRange j (j + 1) = [j] := by
  rw [intRange_succ (le_refl j), intRange_self]
  rfl

theorem tableStep_count_single (env : Env) (chain : Chain) (N i NAA : Int) (s : RowSt)
    (j : Int) (hi0 : 0 ≤ i) (hj1 : 1 ≤ j) (hj2 : j < NAA - i)
    (hchain : ∀ k : Int, 1 ≤ k → k ≤ NAA - 1 →
      (chain.aa k).chainid = (chain.aa 1).chainid)
    (hlast : isFixed env (chain.aa (NAA - 1)) = false) :
    (tableStep env chain N i s j).next + (tableStep env chain N i s j).fixed_moves =
      s.next + s.fixed_moves + (if j = 1 then 2 else 1) := by
  have cj : (chain.aa j).chainid = (chain.aa 1).chainid := hchain j hj1 (by omega)
  have cji : (chain.aa (j + i)).chainid = (chain.aa 1).chainid :=
    hchain (j + i) (by omega) (by omega)
  unfold tableStep
  simp only [cj, cji]
  by_cases hf : anyFixed env chain i j = true
  · simp only [hf, if_true]
    have hj3 : j + 1 ≤ NAA - 1 := by
      by_contra hc
      have hi : i = 0 := by omega
      have hjl : j = NAA - 1 := by omega
      subst hi
      unfold anyFixed at hf
      rw [show j + 0 + 1 = j + 1 by ring, intRange_single] at hf
      simp only [List.any_cons, List.any_nil, Bool.or_false, Bool.and_eq_true] at hf
      rw [hjl, hlast] at hf
      exact Bool.false_ne_true hf.1
    have cj1 : (chain.aa (j + 1)).chainid = (chain.aa 1).chainid :=
      hchain (j + 1) (by omega) hj3
    by_cases h1 : j = 1
    · subst h1
      have c2 : (chain.aa 2).chainid = (chain.aa 1).chainid := hchain 2 (by omega) (by omega)
      simp [c2]
      ring
    · have cjm : (chain.aa (j - 1)).chainid = (chain.aa 1).chainid :=
        hchain (j - 1) (by omega) (by omega)
      simp [h1, cj1, cjm]
      ring
  · simp only [hf]
    by_cases h1 : j = 1
    · subst h1
      simp
      ring
    · have cjm : (chain.aa (j - 1)).chainid = (chain.aa 1).chainid :=
        hchain (j - 1) (by omega) (by omega)
      simp [h1, cjm]
      ring

theorem tableScan_count_single (env : Env) (sp : SimParams) (chain : Chain) (i : Int)
    (table : Int → Int) (hi0 : 0 ≤ i) (hi3 : i ≤ 3) (hNAA : 5 ≤ sp.NAA)
    (hchain : ∀ k : Int, 1 ≤ k → k ≤ sp.NAA - 1 →
      (chain.aa k).chainid = (chain.aa 1).chainid)
    (hlast : isFixed env (chain.aa (sp.NAA - 1)) = false) :
    (tableScan env sp chain i table).next + (tableScan env sp chain i table).fixed_moves =
      sp.NAA - i := by
  unfold tableScan
  have key := foldl_intRange_inv
    (fun (k : Int) (s : RowSt) => s.next + s.fixed_moves = if k = 1 then 0 else k)
    (tableStep env chain (sp.NAA - 1 + sp.Nchains) i) 1 (sp.NAA - i) (by omega)
    { table := table, next := 0, fixed_moves := 0 } (by simp) ?_
  · have hne : ¬ (sp.NAA - i = 1) := by omega
    simpa [hne] using key
  · intro k s hk1 hk2 hinv
    rw [tableStep_count_single env chain _ i sp.NAA s k hi0 hk1 hk2 hchain hlast, hinv]
    have hk : ¬ (k + 1 = 1) := by omega
    by_cases h1 : k = 1
    · subst h1; simp
    · simp only [h1, hk, if_false]

theorem tableRow_ok_single (env : Env) (sp : SimParams) (chain : Chain) (t : LookupTable)
    (i : Int) (hi0 : 0 ≤ i) (hi3 : i ≤ 3) (hNAA : 5 ≤ sp.NAA) (hN : sp.Nchains = 1)
    (hchain : ∀ k : Int, 1 ≤ k → k ≤ sp.NAA - 1 →
      (chain.aa k).chainid = (chain.aa 1).chainid)
    (hlast : isFixed env (chain.aa (sp.NAA - 1)) = false) :
    ∃ t1, tableRow env sp chain t i = Except.ok t1 := by
  unfold tableRow
  have h := tableScan_count_single env sp chain i t.table hi0 hi3 hNAA hchain hlast
  have h2 : ¬ ((tableScan env sp chain i t.table).next +
      (tableScan env sp chain i t.table).fixed_moves ≠ sp.NAA - 1 + (1 - i) * sp.Nchains) := by
    rw [h, hN]
    simp
  simp only [h2, if_false]
  exact ⟨_, rfl⟩

/-- C10: for a single chain (`Nchains = 1`, one chain id) of at least 4 residues
(`NAA >= 5`) whose last residue is not FIXED, whatever the other FIXED flags are, every
length class `L` in `0..3` passes the self-test of the table build: the number of recorded
legal starts plus the count of moves disallowed by FIXED residues is
`(NAA-1) + (1-L)*Nchains`, and the build (sequence present, allocation successful) returns a
table. -/
theorem C10_single_chain_self_test (env : Env) (sp : SimParams) (chain : Chain)
    (hN : sp.Nchains = 1) (hNAA : 5 ≤ sp.NAA)
    (hchain : ∀ k : Int, 1 ≤ k → k ≤ sp.NAA - 1 →
      (chain.aa k).chainid = (chain.aa 1).chainid)
    (hlast : isFixed env (chain.aa (sp.NAA - 1)) = false)
    (hseq : sp.seq_present = true ∧ sp.sequence_present = true)
    (hmem : env.malloc_ok = true) :
    (∀ (L : Int) (table : Int → Int), 0 ≤ L → L ≤ 3 →
      (tableScan env sp chain L table).next + (tableScan env sp chain L table).fixed_moves =
        (sp.NAA - 1) + (1 - L) * sp.Nchains) ∧
    ∃ t, buildLookupTable env sp chain = Except.ok t := by
  refine ⟨?_, ?_⟩
  · intro L table h0 h3
    rw [tableScan_count_single env sp chain L table h0 h3 hNAA hchain hlast, hN]
    ring
  · unfold buildLookupTable
    simp only [hseq.1, hseq.2, hmem]
    obtain ⟨t0, e0⟩ := tableRow_ok_single env sp chain
      { table := env.uninit, n := env.uninit } 0 (by decide) (by decide) hNAA hN hchain hlast
    obtain ⟨t1, e1⟩ := tableRow_ok_single env sp chain t0 1 (by decide) (by decide) hNAA hN
      hchain hlast
    obtain ⟨t2, e2⟩ := tableRow_ok_single env sp chain t1 2 (by decide) (by decide) hNAA hN
      hchain hlast
    obtain ⟨t3, e3⟩ := tableRow_ok_single env sp chain t2 3 (by decide) (by decide) hNAA hN
      hchain hlast
    refine ⟨t3, ?_⟩
    simp [e0, e1, e2, e3, Except.bind]

theorem translationalMove_ret (env : Env) (sp : SimParams) (chain : Chain) (ct : Chaint)
    (p : Pivot) (start end_ : Int) (currE : ℚ) (rng : Rng) :
    (translationalMove env sp chain ct p start end_ currE rng).ret = 1 := by
  unfold translationalMove
  simp only
  split_ifs <;> rfl

theorem commitResidues_aa (chain : Chain) (ct : Chaint) (start end_ k : Int)
    (hk : k < start ∨ end_ < k) :
    (commitResidues chain ct start end_).aa k = chain.aa k := by
  unfold commitResidues
  refine foldl_preserves (fun c : Chain => c.aa k = chain.aa k) _ _ ?_ chain rfl
  intro i hi c hc
  rw [mem_intRange] at hi
  have hne : ¬ k = i := by omega
  simp only [store, hne, if_false]
  exact hc

theorem commitFrames_aa (chain : Chain) (ct : Chaint) (p : Pivot) (start end_ : Int) :
    (commitFrames chain ct p start end_).aa = chain.aa := by
  unfold commitFrames
  refine foldl_preserves (fun c : Chain => c.aa = chain.aa) _ _ ?_ _ ?_
  · intro i _ c hc
    exact hc
  · simp only
    split_ifs <;> rfl

theorem translationalMove_aa (env : Env) (sp : SimParams) (chain : Chain) (ct : Chaint)
    (p : Pivot) (start end_ : Int) (currE : ℚ) (rng : Rng) (k : Int)
    (hk : k < start ∨ end_ < k) :
    (translationalMove env sp chain ct p start end_ currE rng).chain.aa k = chain.aa k := by
  unfold translationalMove
  simp only
  split_ifs
  all_goals first
    | rfl
    | (rw [commitResidues_aa _ _ _ _ _ hk]
       exact congrFun (commitFrames_aa _ _ _ _ _) k)

theorem buildCA_bounds (env : Env) (ct : Chaint) (p : Pivot) (start end_ : Int) :
    start ≤ (buildCA env ct p start end_).2.1 ∧ (buildCA env ct p start end_).2.2 ≤ end_ := by
  unfold buildCA
  split_ifs <;> simp

theorem selectWindow_ok (env : Env) (sp : SimParams) (chain : Chain) (t : LookupTable)
    (toss : Nat) (w : Selection) (h : selectWindow env sp chain t toss = Except.ok w) :
    ∀ ai : Int, w.start ≤ ai → ai < w.end_ → isFixed env (chain.aa ai) = false := by
  unfold selectWindow at h
  split_ifs at h with h1 h2 h3
  simp only [Except.ok.injEq] at h
  subst h
  intro ai ha1 ha2
  simp only at ha1 ha2
  by_contra hc
  apply h3
  rw [List.any_eq_true]
  exact ⟨ai, mem_intRange.mpr ⟨ha1, ha2⟩, by simpa using hc⟩

theorem stageMove_bounds (env : Env) (sp : SimParams) (chain : Chain) (ct : Chaint)
    (w : Selection) (p : Pivot) (ampl : ℚ) (rng : Rng) :
    w.start ≤ (stageMove env sp chain ct w p ampl rng).start ∧
    (stageMove env sp chain ct w p ampl rng).end_ ≤ w.end_ := by
  unfold stageMove
  exact buildCA_bounds _ _ _ _ _

theorem finishMove_spec (env : Env) (sp : SimParams) (chain : Chain) (p : Pivot)
    (st : Staged) (logLstar currE loss_init q_init : ℚ) :
    ((finishMove env sp chain p st logLstar currE loss_init q_init).ret = 0 →
      (finishMove env sp chain p st logLstar currE loss_init q_init).chain = chain ∧
      (finishMove env sp chain p st logLstar currE loss_init q_init).currE = currE) ∧
    ∀ k : Int, k < st.start ∨ st.end_ < k →
      (finishMove env sp chain p st logLstar currE loss_init q_init).chain.aa k =
        chain.aa k := by
  unfold finishMove
  simp only
  split_ifs with h0
  · have hrej := allowed_reject _ _ _ _ _ _ _ _ _ _ _ h0
    refine ⟨fun _ => ⟨hrej.1, hrej.2⟩, fun k _ => ?_⟩
    simp only
    rw [hrej.1]
  · have hacc := (allowed_ret env sp chain st.chaint st.start st.end_ logLstar currE
      loss_init q_init st.rng).resolve_left h0
    refine ⟨fun hr => ?_, fun k hk => ?_⟩
    · rw [translationalMove_ret] at hr
      exact absurd hr (by decide)
    · rw [translationalMove_aa _ _ _ _ _ _ _ _ _ k hk, commitResidues_aa _ _ _ _ k hk,
        congrFun (commitFrames_aa _ _ _ _ _) k, (allowed_accept _ _ _ _ _ _ _ _ _ _ _ hacc).1]

/-- What a call of `crankshaftMove` that returns guarantees: a rejected move leaves the
conformation and the running energy as they were, and residue records change only inside the
selected window. -/
theorem crankshaftMove_spec (env : Env) (sp : SimParams) (chain : Chain) (ct : Chaint)
    (t : LookupTable) (ampl logLstar currE loss_init q_init : ℚ) (rng : Rng)
    (r : CrankResult)
    (h : crankshaftMove env sp chain ct t ampl logLstar currE loss_init q_init rng =
      Except.ok r) :
    (r.ret = 0 → r.chain = chain ∧ r.currE = currE) ∧
    ∃ w : Selection, selectWindow env sp chain t (rand env rng).1 = Except.ok w ∧
      ∀ k : Int, k < w.start ∨ w.end_ < k → r.chain.aa k = chain.aa k := by
  unfold crankshaftMove at h
  cases hw : selectWindow env sp chain t (rand env rng).1 with
  | error e => rw [hw] at h; simp [Except.bind] at h
  | ok w =>
    rw [hw] at h
    simp only [Except.bind] at h
    cases hp : classify env sp chain w (rand env rng).2 with
    | error e => rw [hp] at h; simp at h
    | ok pr =>
      rw [hp] at h
      simp only [Except.ok.injEq] at h
      subst h
      have hb := stageMove_bounds env sp chain ct w pr.1 ampl pr.2
      have hf := finishMove_spec env sp chain pr.1 (stageMove env sp chain ct w pr.1 ampl pr.2)
        logLstar currE loss_init q_init
      exact ⟨hf.1, w, rfl, fun k hk => hf.2 k (by omega)⟩

/-- What a call of `crankshaft` that returns guarantees: a rejected move leaves the
conformation and the running energy as they were; a window was selected from the lookup
table; no residue of that window before its last index is FIXED; residue records change only
inside that window. -/
theorem crankshaft_spec (env : Env) (chain : Chain) (chaint : Chaint)
    (ampl logLstar currE : ℚ) (sp : SimParams) (loss_init q_init : ℚ) (rng : Rng)
    (r : CrankResult)
    (h : crankshaft env chain chaint ampl logLstar currE sp loss_init q_init rng =
      Except.ok r) :
    (r.ret = 0 → r.chain = chain ∧ r.currE = currE) ∧
    ∃ w : Selection,
      (∃ (sp1 : SimParams) (t : LookupTable) (toss : Nat),
        selectWindow env sp1 chain t toss = Except.ok w) ∧
      (∀ ai : Int, w.start ≤ ai → ai < w.end_ → isFixed env (chain.aa ai) = false) ∧
      ∀ k : Int, k < w.start ∨ w.end_ < k → r.chain.aa k = chain.aa k := by
  unfold crankshaft at h
  simp only at h
  cases ht : sp.MC_lookup_table with
  | some t =>
    rw [ht] at h
    simp only at h
    obtain ⟨h1, w, hw, h2⟩ := crankshaftMove_spec _ _ _ _ _ _ _ _ _ _ _ _ h
    exact ⟨h1, w, ⟨_, _, _, hw⟩, selectWindow_ok _ _ _ _ _ _ hw, h2⟩
  | none =>
    rw [ht] at h
    simp only at h
    cases hb : buildLookupTable env sp chain with
    | error e => rw [hb] at h; simp [Except.bind] at h
    | ok t =>
      rw [hb] at h
      simp only [Except.bind] at h
      obtain ⟨h1, w, hw, h2⟩ := crankshaftMove_spec _ _ _ _ _ _ _ _ _ _ _ _ h
      exact ⟨h1, w, ⟨_, _, _, hw⟩, selectWindow_ok _ _ _ _ _ _ hw, h2⟩

/-- C2: whenever `allowed` returns 0 (Metropolis or Nested-Sampling branch) the committed
conformation, with every cell of its energy matrix, and `*currE` are what they were before
the call; whenever `crankshaft` returns 0 the conformation (`aa`, `xaa`, `xaa_prev` and the
matrix) and `*currE` are unchanged as well. -/
theorem C2_rejection_mutates_nothing (env : Env) (sp : SimParams) (chain : Chain)
    (chaint : Chaint) (start end_ : Int) (ampl logLstar currE loss_init q_init : ℚ)
    (rng : Rng) :
    ((allowed env sp chain chaint start end_ logLstar currE loss_init q_init rng).ret = 0 →
      (allowed env sp chain chaint start end_ logLstar currE loss_init q_init rng).chain
        = chain ∧
      (allowed env sp chain chaint start end_ logLstar currE loss_init q_init rng).currE
        = currE) ∧
    (∀ r : CrankResult,
      crankshaft env chain chaint ampl logLstar currE sp loss_init q_init rng = Except.ok r →
      r.ret = 0 → r.chain = chain ∧ r.currE = currE) :=
  ⟨fun h => allowed_reject env sp chain chaint start end_ logLstar currE loss_init q_init
      rng h,
   fun r h h0 => (crankshaft_spec env chain chaint ampl logLstar currE sp loss_init q_init
      rng r h).1 h0⟩

theorem C2_witness :
    ((allowed (demoEnv 1 0) (demoParams 6 false 1 1) (demoChain 6 0) demoChaint 2 3 0 0 0 0
        (demoRng 32767)).ret = 0 ∧
      (allowed (demoEnv 1 0) (demoParams 6 false 1 1) (demoChain 6 0) demoChaint 2 3 0 0 0 0
        (demoRng 32767)).chain = demoChain 6 0 ∧
      (allowed (demoEnv 1 0) (demoParams 6 false 1 1) (demoChain 6 0) demoChaint 2 3 0 0 0 0
        (demoRng 32767)).currE = 0) ∧
    ((allowed (demoEnv 1 0) (demoParams 6 true 1 1) (demoChain 6 0) demoChaint 2 3 0 5 0 0
        (demoRng 32767)).ret = 0 ∧
      (allowed (demoEnv 1 0) (demoParams 6 true 1 1) (demoChain 6 0) demoChaint 2 3 0 5 0 0
        (demoRng 32767)).chain = demoChain 6 0 ∧
      (allowed (demoEnv 1 0) (demoParams 6 true 1 1) (demoChain 6 0) demoChaint 2 3 0 5 0 0
        (demoRng 32767)).currE = 5) ∧
    ((crankshaft (demoEnv 1 0) (demoChain 6 0) demoChaint 1 0 0 (demoParams 6 false 1 1) 0 0
        (demoRng 32767)).toOption.map (fun r => r.ret) = some 0 ∧
      ∀ r : CrankResult,
        crankshaft (demoEnv 1 0) (demoChain 6 0) demoChaint 1 0 0 (demoParams 6 false 1 1) 0 0
          (demoRng 32767) = Except.ok r →
        r.ret = 0 ∧ r.chain = demoChain 6 0 ∧ r.currE = 0) := by
  have hret : (allowed (demoEnv 1 0) (demoParams 6 false 1 1) (demoChain 6 0) demoChaint
      2 3 0 0 0 0 (demoRng 32767)).ret = 0 := by decide!
  have hns : (allowed (demoEnv 1 0) (demoParams 6 true 1 1) (demoChain 6 0) demoChaint
      2 3 0 5 0 0 (demoRng 32767)).ret = 0 := by decide!
  have hc : (crankshaft (demoEnv 1 0) (demoChain 6 0) demoChaint 1 0 0
      (demoParams 6 false 1 1) 0 0 (demoRng 32767)).toOption.map (fun r => r.ret)
        = some 0 := by decide!
  have key := C2_rejection_mutates_nothing (demoEnv 1 0) (demoParams 6 false 1 1)
    (demoChain 6 0) demoChaint 2 3 1 0 0 0 0 (demoRng 32767)
  have keyNS := C2_rejection_mutates_nothing (demoEnv 1 0) (demoParams 6 true 1 1)
    (demoChain 6 0) demoChaint 2 3 1 0 5 0 0 (demoRng 32767)
  refine ⟨⟨hret, key.1 hret⟩, ⟨hns, keyNS.1 hns⟩, hc, fun r hr => ?_⟩
  have h0 : r.ret = 0 := by
    rw [hr] at hc
    simpa [Except.toOption] using hc
  exact ⟨h0, key.2 r hr h0⟩

/-- C9 (evaluation at the failing input): on a five-residue chain (`NAA = 6`) whose residue
2 is FIXED, the draw 4 selects the window `start = 1`, `end = 2` from the lookup table; the
check of lines 327-333 looks at residue 1 only and passes, the move is accepted, and the
commit of lines 489-491 overwrites the record of the FIXED residue 2, whose N atom moves
from `0` to `32759/32767`. -/
theorem C9_fixed_residue_at_window_end_overwritten :
    isFixed (demoEnv (-1) 0) ((demoChainFlags 6 0 (fun k => if k = 2 then 1 else 0)).aa 2)
      = true ∧
    (selectWindow (demoEnv (-1) 0) (demoParams 6 false 1 1)
        (demoChainFlags 6 0 (fun k => if k = 2 then 1 else 0))
        (tableOf (buildLookupTable (demoEnv (-1) 0) (demoParams 6 false 1 1)
          (demoChainFlags 6 0 (fun k => if k = 2 then 1 else 0)))) 4).toOption.map
      (fun w => (w.len, w.start, w.end_)) = some (0, 1, 2) ∧
    ((demoChainFlags 6 0 (fun k => if k = 2 then 1 else 0)).aa 2).n 0 = 0 ∧
    (crankshaft (demoEnv (-1) 0) (demoChainFlags 6 0 (fun k => if k = 2 then 1 else 0))
        demoChaint 1 0 0 (demoParams 6 false 1 1) 0 0 (demoRng 4)).toOption.map
      (fun r => (r.ret, (r.chain.aa 2).n 0)) = some (1, 32759 / 32767) := by
  decide!

theorem C10_witness :
    (∀ (L : Int) (table : Int → Int), 0 ≤ L → L ≤ 3 →
      (tableScan (demoEnv 1 0) (demoParams 6 false 1 1)
          (demoChainFlags 6 0 (fun k => if k = 2 then 1 else 0)) L table).next +
        (tableScan (demoEnv 1 0) (demoParams 6 false 1 1)
          (demoChainFlags 6 0 (fun k => if k = 2 then 1 else 0)) L table).fixed_moves =
        ((demoParams 6 false 1 1).NAA - 1) + (1 - L) * (demoParams 6 false 1 1).Nchains) ∧
    ∃ t, buildLookupTable (demoEnv 1 0) (demoParams 6 false 1 1)
      (demoChainFlags 6 0 (fun k => if k = 2 then 1 else 0)) = Except.ok t :=
  C10_single_chain_self_test (demoEnv 1 0) (demoParams 6 false 1 1)
    (demoChainFlags 6 0 (fun k => if k = 2 then 1 else 0)) rfl (by decide)
    (fun _ _ _ => rfl) (by decide!) ⟨rfl, rfl⟩ rfl

/-- In the Nested-Sampling branch the Metropolis test is skipped, so `allowed` returns what
the threshold test of line 114 decides. -/
theorem allowed_NS_ret (env : Env) (sp : SimParams) (chain : Chain) (chaint : Chaint)
    (start end_ : Int) (logLstar currE loss_init q_init : ℚ) (rng : Rng)
    (hNS : sp.NS = true) :
    (allowed env sp chain chaint start end_ logLstar currE loss_init q_init rng).ret = 0 ↔
      ((-logLstar > currE ∧ -logLstar <
          currE - (allowedVals env sp chain chaint start end_ loss_init q_init).loss) ∨
        (-logLstar < currE ∧
          (allowedVals env sp chain chaint start end_ loss_init q_init).loss < 0)) := by
  have hm : ¬ ((allowedVals env sp chain chaint start end_ loss_init q_init).loss < 0 ∧
      sp.NS = false) := by
    rw [hNS]
    simp
  unfold allowed
  simp only [hm, if_false]
  unfold allowedFinish
  by_cases hc : (-logLstar > currE ∧ -logLstar <
          currE - (allowedVals env sp chain chaint start end_ loss_init q_init).loss) ∨
        (-logLstar < currE ∧
          (allowedVals env sp chain chaint start end_ loss_init q_init).loss < 0)
  · rw [if_pos ⟨hNS, hc⟩]
    exact ⟨fun _ => hc, fun _ => rfl⟩
  · rw [if_neg (fun h => hc h.2)]
    exact ⟨fun h => absurd h one_ne_zero, fun h => absurd h hc⟩

/-- C20 (as stated, refuted): in the Nested-Sampling branch with threshold `-logLstar = 0`,
`allowed` accepts a move of loss `0` from the running energy `5` above the threshold, and a
move of loss `-5` from the running energy `-5`, which lands exactly on the threshold. -/
theorem C20_counterexample :
    ((demoParams 2 true 1 1).NS = true ∧ (-(0 : ℚ)) < 5 ∧
      (allowedVals (demoEnv 1 11) (demoParams 2 true 1 1) (demoChain 2 11) demoChaint
        1 1 0 0).loss ≤ 0 ∧
      (allowed (demoEnv 1 11) (demoParams 2 true 1 1) (demoChain 2 11) demoChaint
        1 1 0 5 0 0 (demoRng 0)).ret = 1) ∧
    ((-5 : ℚ) < -(0 : ℚ) ∧
      (-5 : ℚ) - (allowedVals (demoEnv 1 6) (demoParams 2 true 1 1) (demoChain 2 6)
        demoChaint 1 1 0 0).loss ≥ -(0 : ℚ) ∧
      (allowed (demoEnv 1 6) (demoParams 2 true 1 1) (demoChain 2 6) demoChaint
        1 1 0 (-5) 0 0 (demoRng 0)).ret = 1) := by
  decide!

/-- C20 (amended): in the Nested-Sampling branch `allowed` rejects the move whenever the
current energy is above the threshold `-logLstar` and the move increases the energy
(`loss < 0`), and whenever the current energy is below the threshold and the energy after
the move would be above it (`currE - loss > -logLstar`). -/
theorem C20_nested_sampling_rejects (env : Env) (sp : SimParams) (chain : Chain)
    (chaint : Chaint) (start end_ : Int) (logLstar currE loss_init q_init : ℚ) (rng : Rng)
    (hNS : sp.NS = true) :
    (-logLstar < currE →
      (allowedVals env sp chain chaint start end_ loss_init q_init).loss < 0 →
      (allowed env sp chain chaint start end_ logLstar currE loss_init q_init rng).ret = 0) ∧
    (currE < -logLstar →
      currE - (allowedVals env sp chain chaint start end_ loss_init q_init).loss
        > -logLstar →
      (allowed env sp chain chaint start end_ logLstar currE loss_init q_init rng).ret
        = 0) := by
  refine ⟨fun h1 h2 => ?_, fun h1 h2 => ?_⟩
  · exact (allowed_NS_ret env sp chain chaint start end_ logLstar currE loss_init q_init rng
      hNS).mpr (Or.inr ⟨h1, h2⟩)
  · exact (allowed_NS_ret env sp chain chaint start end_ logLstar currE loss_init q_init rng
      hNS).mpr (Or.inl ⟨h1, h2⟩)

theorem C20_witness :
    (allowed (demoEnv 1 0) (demoParams 6 true 1 1) (demoChain 6 0) demoChaint 2 3 0 5 0 0
        (demoRng 0)).ret = 0 ∧
    (allowed (demoEnv 1 0) (demoParams 6 true 1 1) (demoChain 6 0) demoChaint 2 3 0 (-5)
        0 0 (demoRng 0)).ret = 0 :=
  ⟨(C20_nested_sampling_rejects (demoEnv 1 0) (demoParams 6 true 1 1) (demoChain 6 0)
      demoChaint 2 3 0 5 0 0 (demoRng 0) rfl).1 (by decide!) (by decide!),
   (C20_nested_sampling_rejects (demoEnv 1 0) (demoParams 6 true 1 1) (demoChain 6 0)
      demoChaint 2 3 0 (-5) 0 0 (demoRng 0) rfl).2 (by decide!) (by decide!)⟩

theorem translationalMove_sp (env : Env) (sp : SimParams) (chain : Chain) (ct : Chaint)
    (p : Pivot) (start end_ : Int) (currE : ℚ) (rng : Rng) :
    (translationalMove env sp chain ct p start end_ currE rng).sp = sp := by
  unfold translationalMove
  simp only
  split_ifs <;> rfl

theorem finishMove_sp (env : Env) (sp : SimParams) (chain : Chain) (p : Pivot)
    (st : Staged) (logLstar currE loss_init q_init : ℚ) :
    (finishMove env sp chain p st logLstar currE loss_init q_init).sp = sp := by
  unfold finishMove
  simp only
  split_ifs
  · rfl
  · exact translationalMove_sp _ _ _ _ _ _ _ _ _

theorem crankshaftMove_sp (env : Env) (sp : SimParams) (chain : Chain) (ct : Chaint)
    (t : LookupTable) (ampl logLstar currE loss_init q_init : ℚ) (rng : Rng)
    (r : CrankResult)
    (h : crankshaftMove env sp chain ct t ampl logLstar currE loss_init q_init rng =
      Except.ok r) : r.sp = sp := by
  unfold crankshaftMove at h
  cases hw : selectWindow env sp chain t (rand env rng).1 with
  | error e => rw [hw] at h; simp [Except.bind] at h
  | ok w =>
    rw [hw] at h
    simp only [Except.bind] at h
    cases hp : classify env sp chain w (rand env rng).2 with
    | error e => rw [hp] at h; simp at h
    | ok pr =>
      rw [hp] at h
      simp only [Except.ok.injEq] at h
      subst h
      exact finishMove_sp _ _ _ _ _ _ _ _ _

/-- A call of `crankshaft` that returns leaves the calibration settings of `sim_params` as
they were (it may only store the lookup table). -/
theorem crankshaft_sameCalibration (env : Env) (chain : Chain) (chaint : Chaint)
    (ampl logLstar currE : ℚ) (sp : SimParams) (loss_init q_init : ℚ) (rng : Rng)
    (r : CrankResult)
    (h : crankshaft env chain chaint ampl logLstar currE sp loss_init q_init rng =
      Except.ok r) : SameCalibration r.sp sp := by
  unfold crankshaft at h
  simp only at h
  cases ht : sp.MC_lookup_table with
  | some t =>
    rw [ht] at h
    simp only at h
    rw [crankshaftMove_sp _ _ _ _ _ _ _ _ _ _ _ _ h]
    exact ⟨rfl, rfl, rfl, rfl, rfl, rfl, rfl⟩
  | none =>
    rw [ht] at h
    simp only at h
    cases hb : buildLookupTable env sp chain with
    | error e => rw [hb] at h; simp [Except.bind] at h
    | ok t =>
      rw [hb] at h
      simp only [Except.bind] at h
      rw [crankshaftMove_sp _ _ _ _ _ _ _ _ _ _ _ _ h]
      exact ⟨rfl, rfl, rfl, rfl, rfl, rfl, rfl⟩

theorem countMove_fields (sp : SimParams) (ret : Int) :
    (countMove sp ret).amplitude = sp.amplitude ∧
    (countMove sp ret).acceptance = sp.acceptance ∧
    (countMove sp ret).acceptance_rate = sp.acceptance_rate ∧
    (countMove sp ret).acceptance_rate_tolerance = sp.acceptance_rate_tolerance ∧
    (countMove sp ret).amplitude_changing_factor = sp.amplitude_changing_factor ∧
    (countMove sp ret).accept_counter + (countMove sp ret).reject_counter =
      sp.accept_counter + sp.reject_counter + 1 := by
  unfold countMove
  split_ifs
  · refine ⟨rfl, rfl, rfl, rfl, rfl, ?_⟩
    simp only
    ring
  · refine ⟨rfl, rfl, rfl, rfl, rfl, ?_⟩
    simp only
    ring

theorem resetCounters_fields (sp : SimParams) (changeamp : Int) :
    (resetCounters sp changeamp).amplitude = sp.amplitude ∧
    (resetCounters sp changeamp).acceptance = sp.acceptance ∧
    (resetCounters sp changeamp).acceptance_rate = sp.acceptance_rate ∧
    (resetCounters sp changeamp).acceptance_rate_tolerance = sp.acceptance_rate_tolerance ∧
    (resetCounters sp changeamp).amplitude_changing_factor = sp.amplitude_changing_factor := by
  unfold resetCounters
  split_ifs <;> exact ⟨rfl, rfl, rfl, rfl, rfl⟩

/-- A call of `move` that returns is a call of `crankshaft` that returned followed by a
window evaluation that returned. -/
theorem move_ok (env : Env) (chain : Chain) (chaint : Chaint) (logLstar currE : ℚ)
    (changeamp : Int) (sp : SimParams) (loss_init q_init : ℚ) (rng : Rng) (r : MoveResult)
    (h : move env chain chaint logLstar currE changeamp sp loss_init q_init rng
      = Except.ok r) :
    ∃ cr : CrankResult,
      crankshaft env chain chaint (resetCounters sp changeamp).amplitude logLstar currE
        (resetCounters sp changeamp) loss_init q_init rng = Except.ok cr ∧
      finishWindow env (countMove cr.sp cr.ret) changeamp = Except.ok r.sp := by
  unfold move at h
  cases hc : crankshaft env chain chaint (resetCounters sp changeamp).amplitude logLstar
      currE (resetCounters sp changeamp) loss_init q_init rng with
  | error e => rw [hc] at h; simp [Except.bind] at h
  | ok cr =>
    rw [hc] at h
    simp only [Except.bind] at h
    cases hf : finishWindow env (countMove cr.sp cr.ret) changeamp with
    | error e => rw [hf] at h; simp at h
    | ok sp2 =>
      rw [hf] at h
      simp only [Except.ok.injEq] at h
      subst h
      exact ⟨cr, rfl, hf⟩

theorem finishWindow_incomplete (env : Env) (sp : SimParams) (changeamp : Int)
    (h : sp.accept_counter + sp.reject_counter ≠ 1024) :
    finishWindow env sp changeamp = Except.ok sp := by
  unfold finishWindow
  rw [if_neg h]

theorem calibrate_ok_iff (env : Env) (sp : SimParams) (changeamp : Int) :
    (∃ sp1, calibrate env sp changeamp = Except.ok sp1) ↔
      (changeamp = 0 ∨ (0 < sp.acceptance_rate_tolerance ∧ sp.acceptance_rate_tolerance < 1 ∧
        0 < sp.amplitude_changing_factor ∧ sp.amplitude_changing_factor < 1)) := by
  unfold calibrate
  by_cases h0 : changeamp = 0
  · simp [h0]
  · simp only [ne_eq, h0, not_false_eq_true, if_true, false_or]
    split_ifs with h1 h2 h3 h4
    · simp; intro h; linarith
    · simp; intro _ h; linarith
    · simp; intro _ _ h; linarith
    · simp; intro _ _ _; linarith
    · simp
      exact ⟨by linarith, by linarith, by linarith, by linarith⟩

theorem calibrate_error_config (env : Env) (sp : SimParams) (changeamp : Int) (e : Fatal)
    (h : calibrate env sp changeamp = Except.error e) : isConfigError e = true := by
  unfold calibrate at h
  split_ifs at h <;> simp at h <;> subst h <;> rfl

theorem finishWindow_complete (env : Env) (sp : SimParams) (changeamp : Int)
    (sp2 : SimParams) (hsum : sp.accept_counter + sp.reject_counter = 1024)
    (h : finishWindow env sp changeamp = Except.ok sp2) :
    sp2.accept_counter = 0 ∧ sp2.reject_counter = 0 ∧
    ∃ sp1, calibrate env { sp with acceptance := (sp.accept_counter : ℚ) / 1024 } changeamp
        = Except.ok sp1 ∧
      sp2 = { sp1 with accept_counter := 0, reject_counter := 0 } := by
  unfold finishWindow at h
  rw [if_pos hsum] at h
  cases hc : calibrate env { sp with acceptance := (sp.accept_counter : ℚ) / 1024 }
      changeamp with
  | error e => rw [hc] at h; simp [Except.bind] at h
  | ok sp1 =>
    rw [hc] at h
    simp only [Except.bind, Except.ok.injEq] at h
    subst h
    exact ⟨rfl, rfl, sp1, rfl, rfl⟩

/-- C14: whatever `changeamp` is, a call of `move` that brings
`accept_counter + reject_counter` to 1024 leaves both counters at zero; hence if the two
counters sum to at most 1023 before a call of `move`, they sum to at most 1023 after it. -/
theorem C14_window_resets_counters (env : Env) (chain : Chain) (chaint : Chaint)
    (logLstar currE : ℚ) (changeamp : Int) (sp : SimParams) (loss_init q_init : ℚ)
    (rng : Rng) (cr : CrankResult) (r : MoveResult)
    (hc : crankshaft env chain chaint (resetCounters sp changeamp).amplitude logLstar currE
      (resetCounters sp changeamp) loss_init q_init rng = Except.ok cr)
    (h : move env chain chaint logLstar currE changeamp sp loss_init q_init rng
      = Except.ok r) :
    ((countMove cr.sp cr.ret).accept_counter + (countMove cr.sp cr.ret).reject_counter
        = 1024 → r.sp.accept_counter = 0 ∧ r.sp.reject_counter = 0) ∧
    (sp.accept_counter + sp.reject_counter ≤ 1023 →
      r.sp.accept_counter + r.sp.reject_counter ≤ 1023) := by
  obtain ⟨cr2, hc2, hf⟩ := move_ok _ _ _ _ _ _ _ _ _ _ _ h
  rw [hc] at hc2
  simp only [Except.ok.injEq] at hc2
  subst hc2
  have hfull : (countMove cr.sp cr.ret).accept_counter +
      (countMove cr.sp cr.ret).reject_counter = 1024 →
      r.sp.accept_counter = 0 ∧ r.sp.reject_counter = 0 := by
    intro hsum
    have := finishWindow_complete env _ changeamp r.sp hsum hf
    exact ⟨this.1, this.2.1⟩
  refine ⟨hfull, fun hle => ?_⟩
  by_cases hsum : (countMove cr.sp cr.ret).accept_counter +
      (countMove cr.sp cr.ret).reject_counter = 1024
  · obtain ⟨h1, h2⟩ := hfull hsum
    rw [h1, h2]
    decide
  · rw [finishWindow_incomplete env _ changeamp hsum] at hf
    simp only [Except.ok.injEq] at hf
    rw [← hf]
    have hcm := (countMove_fields cr.sp cr.ret).2.2.2.2.2
    have hsc := crankshaft_sameCalibration _ _ _ _ _ _ _ _ _ _ _ hc
    have ha := hsc.2.1
    have hr := hsc.2.2.1
    rw [hcm, ha, hr] at hsum ⊢
    unfold resetCounters at hsum ⊢
    split_ifs at hsum ⊢ with hca
    · simp only
      omega
    · omega

theorem demoCrank_ok (ca : Int) (sp : SimParams) (d : Nat)
    (hs : (demoCrank ca sp d).toOption.isSome = true) :
    crankshaft (demoEnv (-1) 0) (demoChain 6 0) demoChaint
      (resetCounters sp ca).amplitude 0 0 (resetCounters sp ca) 0 0 (demoRng d) =
      Except.ok (resultOf (demoCrank ca sp d)) := by
  show demoCrank ca sp d = _
  cases hx : demoCrank ca sp d with
  | error e => rw [hx] at hs; simp [Except.toOption] at hs
  | ok r => rfl

theorem demoMove_ok (ca : Int) (sp : SimParams) (d : Nat)
    (hs : (demoMove ca sp d).toOption.isSome = true) :
    move (demoEnv (-1) 0) (demoChain 6 0) demoChaint 0 0 ca sp 0 0 (demoRng d) =
      Except.ok (moveResultOf (demoMove ca sp d)) := by
  show demoMove ca sp d = _
  cases hx : demoMove ca sp d with
  | error e => rw [hx] at hs; simp [Except.toOption] at hs
  | ok r => rfl

theorem C14_witness :
    ((moveResultOf (demoMove 0 (demoCalibration 1 1000 23 (1 / 20) (9 / 10)) 4)).sp.accept_counter
        = 0 ∧
      (moveResultOf (demoMove 0 (demoCalibration 1 1000 23 (1 / 20) (9 / 10)) 4)).sp.reject_counter
        = 0) ∧
    (moveResultOf (demoMove 1 (demoCalibration 1 500 23 (1 / 20) (9 / 10)) 4)).sp.accept_counter +
      (moveResultOf (demoMove 1 (demoCalibration 1 500 23 (1 / 20) (9 / 10)) 4)).sp.reject_counter
        ≤ 1023 :=
  ⟨(C14_window_resets_counters (demoEnv (-1) 0) (demoChain 6 0) demoChaint 0 0 0
      (demoCalibration 1 1000 23 (1 / 20) (9 / 10)) 0 0 (demoRng 4) _ _
      (demoCrank_ok 0 _ 4 (by decide!)) (demoMove_ok 0 _ 4 (by decide!))).1 (by decide!),
    (C14_window_resets_counters (demoEnv (-1) 0) (demoChain 6 0) demoChaint 0 0 1
      (demoCalibration 1 500 23 (1 / 20) (9 / 10)) 0 0 (demoRng 4) _ _
      (demoCrank_ok 1 _ 4 (by decide!)) (demoMove_ok 1 _ 4 (by decide!))).2 (by decide)⟩

/-- C15: a call of `move` in reset mode (`changeamp = -1`) zeroes both counters before the
move and evaluates no window: whatever the counters were, afterwards
`accept_counter + reject_counter = 1`, and the amplitude and the stored acceptance rate are
unchanged. -/
theorem C15_reset_mode (env : Env) (chain : Chain) (chaint : Chaint)
    (logLstar currE : ℚ) (sp : SimParams) (loss_init q_init : ℚ) (rng : Rng)
    (r : MoveResult)
    (h : move env chain chaint logLstar currE (-1) sp loss_init q_init rng = Except.ok r) :
    ((resetCounters sp (-1)).accept_counter = 0 ∧ (resetCounters sp (-1)).reject_counter = 0) ∧
    r.sp.accept_counter + r.sp.reject_counter = 1 ∧
    r.sp.amplitude = sp.amplitude ∧ r.sp.acceptance = sp.acceptance := by
  obtain ⟨cr, hc, hf⟩ := move_ok _ _ _ _ _ _ _ _ _ _ _ h
  have hsc := crankshaft_sameCalibration _ _ _ _ _ _ _ _ _ _ _ hc
  have hcm := countMove_fields cr.sp cr.ret
  have hr0 : (resetCounters sp (-1)).accept_counter = 0 ∧
      (resetCounters sp (-1)).reject_counter = 0 := by
    unfold resetCounters
    simp
  have hsum : (countMove cr.sp cr.ret).accept_counter +
      (countMove cr.sp cr.ret).reject_counter = 1 := by
    rw [hcm.2.2.2.2.2, hsc.2.1, hsc.2.2.1, hr0.1, hr0.2]
    decide
  have hne : (countMove cr.sp cr.ret).accept_counter +
      (countMove cr.sp cr.ret).reject_counter ≠ 1024 := by
    rw [hsum]
    decide
  rw [finishWindow_incomplete env _ (-1) hne] at hf
  simp only [Except.ok.injEq] at hf
  rw [← hf]
  refine ⟨hr0, hsum, ?_, ?_⟩
  · rw [hcm.1, hsc.1, (resetCounters_fields sp (-1)).1]
  · rw [hcm.2.1, hsc.2.2.2.1, (resetCounters_fields sp (-1)).2.1]

theorem C15_witness :
    (moveResultOf (demoMove (-1) (demoCalibration 1 1000 23 (1 / 20) (9 / 10)) 4)).sp.accept_counter
      + (moveResultOf (demoMove (-1) (demoCalibration 1 1000 23 (1 / 20) (9 / 10))
        4)).sp.reject_counter = 1 :=
  (C15_reset_mode (demoEnv (-1) 0) (demoChain 6 0) demoChaint 0 0
    (demoCalibration 1 1000 23 (1 / 20) (9 / 10)) 0 0 (demoRng 4) _
    (demoMove_ok (-1) _ 4 (by decide!))).2.1

theorem finishWindow_error_iff (env : Env) (sp : SimParams) (changeamp : Int) :
    (∃ e, finishWindow env sp changeamp = Except.error e ∧ isConfigError e = true) ↔
      (sp.accept_counter + sp.reject_counter = 1024 ∧ changeamp ≠ 0 ∧
        ¬ (0 < sp.acceptance_rate_tolerance ∧ sp.acceptance_rate_tolerance < 1 ∧
          0 < sp.amplitude_changing_factor ∧ sp.amplitude_changing_factor < 1)) := by
  unfold finishWindow calibrate
  by_cases hsum : sp.accept_counter + sp.reject_counter = 1024
  · simp only [hsum, if_true, true_and]
    by_cases h0 : changeamp = 0
    · simp [h0, Except.bind]
    · simp only [ne_eq, h0, not_false_eq_true, if_true, true_and]
      split_ifs with h1 h2 h3 h4
      · refine ⟨fun _ hv => ?_, fun _ => ⟨_, rfl, rfl⟩⟩
        linarith [hv.1]
      · refine ⟨fun _ hv => ?_, fun _ => ⟨_, rfl, rfl⟩⟩
        linarith [hv.2.1]
      · refine ⟨fun _ hv => ?_, fun _ => ⟨_, rfl, rfl⟩⟩
        linarith [hv.2.2.1]
      · refine ⟨fun _ hv => ?_, fun _ => ⟨_, rfl, rfl⟩⟩
        linarith [hv.2.2.2]
      · constructor
        · rintro ⟨e, he, _⟩
          simp [Except.bind] at he
        · intro hv
          exact absurd ⟨by linarith, by linarith, by linarith, by linarith⟩ hv
  · simp [hsum]

/-- C16: given that the move itself does not abort, a call of `move` stops with a fatal
configuration error exactly when it completes a 1024-move window with calibration active
(`changeamp != 0`) and the tolerance or the factor lies outside the open interval `(0,1)`. -/
theorem C16_configuration_error_iff (env : Env) (chain : Chain) (chaint : Chaint)
    (logLstar currE : ℚ) (changeamp : Int) (sp : SimParams) (loss_init q_init : ℚ)
    (rng : Rng) (cr : CrankResult)
    (hc : crankshaft env chain chaint (resetCounters sp changeamp).amplitude logLstar currE
      (resetCounters sp changeamp) loss_init q_init rng = Except.ok cr) :
    (∃ e, move env chain chaint logLstar currE changeamp sp loss_init q_init rng
        = Except.error e ∧ isConfigError e = true) ↔
      ((countMove cr.sp cr.ret).accept_counter + (countMove cr.sp cr.ret).reject_counter
          = 1024 ∧ changeamp ≠ 0 ∧
        ¬ (0 < sp.acceptance_rate_tolerance ∧ sp.acceptance_rate_tolerance < 1 ∧
          0 < sp.amplitude_changing_factor ∧ sp.amplitude_changing_factor < 1)) := by
  have hsc := crankshaft_sameCalibration _ _ _ _ _ _ _ _ _ _ _ hc
  have hcm := countMove_fields cr.sp cr.ret
  have htol : (countMove cr.sp cr.ret).acceptance_rate_tolerance =
      sp.acceptance_rate_tolerance := by
    rw [hcm.2.2.2.1, hsc.2.2.2.2.2.1, (resetCounters_fields sp changeamp).2.2.2.1]
  have hfac : (countMove cr.sp cr.ret).amplitude_changing_factor =
      sp.amplitude_changing_factor := by
    rw [hcm.2.2.2.2.1, hsc.2.2.2.2.2.2, (resetCounters_fields sp changeamp).2.2.2.2]
  have hfw := finishWindow_error_iff env (countMove cr.sp cr.ret) changeamp
  rw [htol, hfac] at hfw
  rw [← hfw]
  unfold move
  rw [hc]
  simp only [Except.bind]
  cases hx : finishWindow env (countMove cr.sp cr.ret) changeamp with
  | error e => simp
  | ok sp2 => simp

theorem C16_witness :
    ∃ e, demoMove 1 (demoCalibration 1 1000 23 (1 / 20) (3 / 2)) 4 = Except.error e ∧
      isConfigError e = true :=
  (C16_configuration_error_iff (demoEnv (-1) 0) (demoChain 6 0) demoChaint 0 0 1
    (demoCalibration 1 1000 23 (1 / 20) (3 / 2)) 0 0 (demoRng 4) _
    (demoCrank_ok 1 _ 4 (by decide!))).mpr ⟨by decide!, by decide, by decide!⟩

theorem adjustAmplitude_amplitude (env : Env) (sp : SimParams) :
    (adjustAmplitude env sp).amplitude =
      expectedAmplitude env.M_PI sp.amplitude sp.acceptance_rate
        sp.acceptance_rate_tolerance sp.amplitude_changing_factor sp.acceptance := by
  unfold adjustAmplitude expectedAmplitude
  simp only
  split_ifs with h1 h2 h3 h4 h5
  · exact (max_eq_left (le_of_lt h2)).symm
  · exact (max_eq_right (not_lt.mp h2)).symm
  · exact (max_eq_left (le_of_lt h4)).symm
  · exact (max_eq_right (not_lt.mp h4)).symm
  · exact (max_eq_left (le_of_lt h5)).symm
  · exact (max_eq_right (not_lt.mp h5)).symm

/-- C19: on a call of `move` that completes a 1024-move window with calibration active (and
returns, so the configuration is valid), the new amplitude is the old one multiplied by the
factor if it is negative and `accept_counter/1024` is below target minus tolerance, otherwise
divided by the factor if that rate is above target plus tolerance, otherwise the old one,
clamped from below at `-pi`; on every other call that returns the amplitude is unchanged. -/
theorem C19_amplitude_update (env : Env) (chain : Chain) (chaint : Chaint)
    (logLstar currE : ℚ) (changeamp : Int) (sp : SimParams) (loss_init q_init : ℚ)
    (rng : Rng) (cr : CrankResult) (r : MoveResult)
    (hc : crankshaft env chain chaint (resetCounters sp changeamp).amplitude logLstar currE
      (resetCounters sp changeamp) loss_init q_init rng = Except.ok cr)
    (h : move env chain chaint logLstar currE changeamp sp loss_init q_init rng
      = Except.ok r) :
    ((countMove cr.sp cr.ret).accept_counter + (countMove cr.sp cr.ret).reject_counter
        = 1024 ∧ changeamp ≠ 0 →
      r.sp.amplitude = expectedAmplitude env.M_PI sp.amplitude sp.acceptance_rate
        sp.acceptance_rate_tolerance sp.amplitude_changing_factor
        (((countMove cr.sp cr.ret).accept_counter : ℚ) / 1024)) ∧
    (¬ ((countMove cr.sp cr.ret).accept_counter + (countMove cr.sp cr.ret).reject_counter
        = 1024 ∧ changeamp ≠ 0) → r.sp.amplitude = sp.amplitude) := by
  obtain ⟨cr2, hc2, hf⟩ := move_ok _ _ _ _ _ _ _ _ _ _ _ h
  rw [hc] at hc2
  simp only [Except.ok.injEq] at hc2
  subst hc2
  have hsc := crankshaft_sameCalibration _ _ _ _ _ _ _ _ _ _ _ hc
  have hcm := countMove_fields cr.sp cr.ret
  have hrf := resetCounters_fields sp changeamp
  have hamp : (countMove cr.sp cr.ret).amplitude = sp.amplitude := by
    rw [hcm.1, hsc.1, hrf.1]
  have hrate : (countMove cr.sp cr.ret).acceptance_rate = sp.acceptance_rate := by
    rw [hcm.2.2.1, hsc.2.2.2.2.1, hrf.2.2.1]
  have htol : (countMove cr.sp cr.ret).acceptance_rate_tolerance =
      sp.acceptance_rate_tolerance := by
    rw [hcm.2.2.2.1, hsc.2.2.2.2.2.1, hrf.2.2.2.1]
  have hfac : (countMove cr.sp cr.ret).amplitude_changing_factor =
      sp.amplitude_changing_factor := by
    rw [hcm.2.2.2.2.1, hsc.2.2.2.2.2.2, hrf.2.2.2.2]
  refine ⟨fun hw => ?_, fun hw => ?_⟩
  · obtain ⟨_, _, sp1, hcal, hsp2⟩ := finishWindow_complete env _ changeamp r.sp hw.1 hf
    rw [hsp2]
    unfold calibrate at hcal
    rw [if_pos hw.2] at hcal
    split_ifs at hcal
    simp only [Except.ok.injEq] at hcal
    rw [← hcal]
    show (adjustAmplitude env _).amplitude = _
    rw [adjustAmplitude_amplitude]
    show expectedAmplitude env.M_PI (countMove cr.sp cr.ret).amplitude
      (countMove cr.sp cr.ret).acceptance_rate
      (countMove cr.sp cr.ret).acceptance_rate_tolerance
      (countMove cr.sp cr.ret).amplitude_changing_factor _ = _
    rw [hamp, hrate, htol, hfac]
  · by_cases hsum : (countMove cr.sp cr.ret).accept_counter +
        (countMove cr.sp cr.ret).reject_counter = 1024
    · have h0 : changeamp = 0 := by
        by_contra hne
        exact hw ⟨hsum, hne⟩
      obtain ⟨_, _, sp1, hcal, hsp2⟩ := finishWindow_complete env _ changeamp r.sp hsum hf
      rw [hsp2]
      unfold calibrate at hcal
      rw [if_neg (fun hne => hne h0)] at hcal
      simp only [Except.ok.injEq] at hcal
      rw [← hcal]
      exact hamp
    · rw [finishWindow_incomplete env _ changeamp hsum] at hf
      simp only [Except.ok.injEq] at hf
      rw [← hf]
      exact hamp

theorem C19_witness :
    (moveResultOf (demoMove 1 (demoCalibration (-1) 1000 23 (1 / 20) (9 / 10)) 4)).sp.amplitude
        = -(10 / 9) ∧
    (moveResultOf (demoMove 0 (demoCalibration (-1) 1000 23 (1 / 20) (9 / 10)) 4)).sp.amplitude
        = -1 := by
  have h1 := (C19_amplitude_update (demoEnv (-1) 0) (demoChain 6 0) demoChaint 0 0 1
    (demoCalibration (-1) 1000 23 (1 / 20) (9 / 10)) 0 0 (demoRng 4) _ _
    (demoCrank_ok 1 _ 4 (by decide!)) (demoMove_ok 1 _ 4 (by decide!))).1
    ⟨by decide!, by decide⟩
  have h2 := (C19_amplitude_update (demoEnv (-1) 0) (demoChain 6 0) demoChaint 0 0 0
    (demoCalibration (-1) 1000 23 (1 / 20) (9 / 10)) 0 0 (demoRng 4) _ _
    (demoCrank_ok 0 _ 4 (by decide!)) (demoMove_ok 0 _ 4 (by decide!))).2
    (fun hw => hw.2 rfl)
  refine ⟨h1.trans ?_, h2⟩
  decide!

/-- For an amplitude in `[-pi, 0]` the adjustment of lines 606-608 stays in `[-pi, 0]`. -/
theorem adjustAmplitude_nonpos_capped (env : Env) (sp : SimParams) (hpi : 0 ≤ env.M_PI)
    (hf : 0 < sp.amplitude_changing_factor) (h0 : sp.amplitude ≤ 0) :
    -env.M_PI ≤ (adjustAmplitude env sp).amplitude ∧ (adjustAmplitude env sp).amplitude ≤ 0 := by
  rw [adjustAmplitude_amplitude]
  unfold expectedAmplitude
  refine ⟨le_max_left _ _, max_le (by linarith) ?_⟩
  split_ifs
  · exact mul_nonpos_of_nonpos_of_nonneg h0 (le_of_lt hf)
  · exact div_nonpos_of_nonpos_of_nonneg h0 (le_of_lt hf)
  · exact h0

/-- C13 (evaluation at the failing inputs): with the positive amplitude `M_PI`, the call of
`move` that completes a calibration window of 1024 accepted moves returns the amplitude
`M_PI / 0.9`, above `M_PI`; and in the convergence scenario (start `M_PI / 2`, target `0.4`, tolerance
`0.05`, factor `0.9`) the amplitude is above `M_PI` after ten such windows. -/
theorem C13_positive_amplitude_exceeds_pi :
    |(demoCalibration (355 / 113) 1023 0 (1 / 20) (9 / 10)).amplitude|
      ≤ (demoEnv (-1) 0).M_PI ∧
    (demoMove 1 (demoCalibration (355 / 113) 1023 0 (1 / 20) (9 / 10)) 4).toOption.map
      (fun r => r.sp.amplitude) = some (3550 / 1017) ∧
    (demoEnv (-1) 0).M_PI < |(3550 / 1017 : ℚ)| ∧
    (demoCalibration (355 / 226) 0 0 (1 / 20) (9 / 10)).amplitude
      = (demoEnv (-1) 0).M_PI / 2 ∧
    (acceptedWindows (demoEnv (-1) 0) (demoCalibration (355 / 226) 0 0 (1 / 20) (9 / 10))
      10).toOption.map (fun s => decide ((demoEnv (-1) 0).M_PI < |s.amplitude|))
        = some true := by
  decide!

/-- When the recomputed global energy is lower than the committed `E[0][0]`, a translation
that perturbed at least one axis of a pivot move is committed. -/
theorem translationalMove_downhill (env : Env) (sp : SimParams) (chain : Chain)
    (ct : Chaint) (p : Pivot) (start end_ : Int) (currE : ℚ) (rng : Rng)
    (hp : (p.pivot_around_start = true ∨ p.pivot_around_end = true) ∧
      sp.external_potential_type = 5)
    (hmoved : (([0, 1, 2] : List (Fin 3)).foldl (translateAxis env chain)
      { aat := ct.aat, rng := rng, moved := false }).moved = true)
    (hdown : env.global_energy 1 (chain.NAA - 1) chain (translatedBuffer env chain ct rng)
      < chain.erg (ErgIdx chain.NAA 0 0)) :
    (translationalMove env sp chain ct p start end_ currE rng).chain =
      commitResidues
        { commitFrames chain (translatedBuffer env chain ct rng) p start end_ with
          erg := store (commitFrames chain (translatedBuffer env chain ct rng) p start end_).erg
            (ErgIdx (commitFrames chain (translatedBuffer env chain ct rng) p start end_).NAA
              0 0)
            (env.global_energy 1 (chain.NAA - 1) chain (translatedBuffer env chain ct rng)) }
        (translatedBuffer env chain ct rng) start end_ := by
  unfold translatedBuffer at hdown ⊢
  unfold translationalMove
  simp only
  rw [if_pos hp, if_neg (by rw [hmoved]; decide), if_pos (Or.inl hdown)]

/-- C17 (what the code does where the claim expects a probabilistic acceptance): with
`thermobeta >= 0` (and `exp` at least 1 on non-negative arguments), a translation whose
recomputed global energy is not lower than the committed `E[0][0]` is never committed,
whatever the uniform draws are. -/
theorem C17_translation_uphill_never_accepted (env : Env) (sp : SimParams) (chain : Chain)
    (ct : Chaint) (p : Pivot) (start end_ : Int) (currE : ℚ) (rng : Rng)
    (hexp : ∀ x : ℚ, 0 ≤ x → 1 ≤ env.expf x) (hbeta : 0 ≤ sp.thermobeta)
    (hup : chain.erg (ErgIdx chain.NAA 0 0) ≤
      env.global_energy 1 (chain.NAA - 1) chain (translatedBuffer env chain ct rng)) :
    (translationalMove env sp chain ct p start end_ currE rng).chain = chain := by
  unfold translatedBuffer at hup
  have hlt : ¬ (env.global_energy 1 (chain.NAA - 1) chain
      { ct with aat := (([0, 1, 2] : List (Fin 3)).foldl (translateAxis env chain)
        { aat := ct.aat, rng := rng, moved := false }).aat } <
      chain.erg (ErgIdx chain.NAA 0 0)) := not_lt.mpr hup
  unfold translationalMove
  simp only
  by_cases h1 : (p.pivot_around_start = true ∨ p.pivot_around_end = true) ∧
      sp.external_potential_type = 5
  · rw [if_pos h1]
    by_cases h2 : (([0, 1, 2] : List (Fin 3)).foldl (translateAxis env chain)
        { aat := ct.aat, rng := rng, moved := false }).moved = false
    · rw [if_pos h2]
    · rw [if_neg h2, if_neg]
      intro h3
      rcases h3 with h3 | h3
      · exact hlt h3
      · rw [if_neg hlt] at h3
        have hE := hexp _ (mul_nonneg hbeta (sub_nonneg.mpr hup))
        have hd : ((rand env (([0, 1, 2] : List (Fin 3)).foldl (translateAxis env chain)
            { aat := ct.aat, rng := rng, moved := false }).rng).1 : ℚ)
              ≤ (env.RAND_MAX : ℚ) := by
          exact_mod_cast rand_le env _
        have hR0 : (0 : ℚ) ≤ (env.RAND_MAX : ℚ) := by positivity
        have := mul_le_mul_of_nonneg_right hE hR0
        linarith
  · rw [if_neg h1]

theorem C17_witness :
    (translationalMove (demoEnv 0 7) demoParamsTrans (demoChain 6 5) demoChaint demoPivotEnd
      1 2 0 (demoRngSeq [0, 0, 0] 32767)).chain = demoChain 6 5 :=
  C17_translation_uphill_never_accepted (demoEnv 0 7) demoParamsTrans (demoChain 6 5)
    demoChaint demoPivotEnd 1 2 0 (demoRngSeq [0, 0, 0] 32767)
    (fun x hx => by
      show 1 ≤ expStandIn x
      unfold expStandIn
      rw [if_neg (not_lt.mpr hx)]
      linarith)
    (by decide!) (by decide!)

/-- C18 (evaluation at the failing input): after a pivot move on the window `[1,2]` of a
five-residue chain, a translation of all three axes by `-1/5` is staged for every residue
and accepted (global energy `3` below the committed `5`); `E[0][0]` becomes `3`, residues 1
and 2 carry the translated CA atom, and residue 3 keeps the CA atom it had although `-1/5`
is staged for it. -/
theorem C18_translation_commits_window_only :
    (translationalMove (demoEnv 0 3) demoParamsTrans (demoChain 6 5) demoChaint demoPivotEnd
      1 2 0 (demoRngSeq [0, 0, 0] 7)).chain.erg (ErgIdx 6 0 0) = 3 ∧
    ((translationalMove (demoEnv 0 3) demoParamsTrans (demoChain 6 5) demoChaint demoPivotEnd
      1 2 0 (demoRngSeq [0, 0, 0] 7)).chain.aa 1).ca 0 = -(1 / 5) ∧
    ((translationalMove (demoEnv 0 3) demoParamsTrans (demoChain 6 5) demoChaint demoPivotEnd
      1 2 0 (demoRngSeq [0, 0, 0] 7)).chain.aa 2).ca 0 = -(1 / 5) ∧
    ((translationalMove (demoEnv 0 3) demoParamsTrans (demoChain 6 5) demoChaint demoPivotEnd
      1 2 0 (demoRngSeq [0, 0, 0] 7)).chaint.aat 3).ca 0 = -(1 / 5) ∧
    ((demoChain 6 5).aa 3).ca 0 = 0 ∧
    ((translationalMove (demoEnv 0 3) demoParamsTrans (demoChain 6 5) demoChaint demoPivotEnd
      1 2 0 (demoRngSeq [0, 0, 0] 7)).chain.aa 3).ca 0 = 0 := by
  decide!

theorem writeRow_nil (t : Int → Int) (base : Int) : writeRow t base [] = t := by
  funext x
  unfold writeRow
  have : ¬ (base ≤ x ∧ x < base + ((([] : List Int).length : Nat) : Int)) := by
    simp only [List.length_nil, Nat.cast_zero]
    omega
  rw [if_neg this]

theorem writeRow_push (t : Int → Int) (base : Int) (l : List Int) (v : Int) :
    store (writeRow t base l) (base + (l.length : Int)) v = writeRow t base (l ++ [v]) := by
  funext x
  unfold store writeRow
  simp only [List.length_append, List.length_singleton, Nat.cast_add, Nat.cast_one]
  by_cases hx : x = base + (l.length : Int)
  · subst hx
    have hc : base ≤ base + (l.length : Int) ∧
        base + (l.length : Int) < base + ((l.length : Int) + 1) := by omega
    rw [if_pos rfl, if_pos hc]
    have hidx : (base + (l.length : Int) - base).toNat = l.length := by
      rw [show base + (l.length : Int) - base = (l.length : Int) by ring]
      exact Int.toNat_natCast _
    rw [hidx, List.getD_append_right _ _ _ _ (le_refl _)]
    simp
  · rw [if_neg hx]
    by_cases hin : base ≤ x ∧ x < base + (l.length : Int)
    · have hc : base ≤ x ∧ x < base + ((l.length : Int) + 1) := by omega
      rw [if_pos hin, if_pos hc]
      have hidx : (x - base).toNat < l.length := by
        have := Int.toNat_of_nonneg (show 0 ≤ x - base by omega)
        omega
      rw [List.getD_append _ _ _ _ hidx]
    · have hc : ¬ (base ≤ x ∧ x < base + ((l.length : Int) + 1)) := by omega
      rw [if_neg hin, if_neg hc]

theorem writeRow_inside (t : Int → Int) (base : Int) (l : List Int) (s : Nat)
    (hs : s < l.length) : writeRow t base l (base + (s : Int)) = l.getD s 0 := by
  unfold writeRow
  have hc : base ≤ base + (s : Int) ∧ base + (s : Int) < base + (l.length : Int) := by omega
  rw [if_pos hc]
  have hidx : (base + (s : Int) - base).toNat = s := by
    rw [show base + (s : Int) - base = (s : Int) by ring]
    exact Int.toNat_natCast _
  rw [hidx]

theorem writeRow_outside (t : Int → Int) (base : Int) (l : List Int) (x : Int)
    (hx : x < base ∨ base + (l.length : Int) ≤ x) : writeRow t base l x = t x := by
  unfold writeRow
  have hc : ¬ (base ≤ x ∧ x < base + (l.length : Int)) := by omega
  rw [if_neg hc]

/-- One iteration of the scan appends `stepEntries` to the recorded list and never lowers
`fixed_moves`. -/
theorem tableStep_rep (env : Env) (chain : Chain) (N i j : Int) (t0 : Int → Int)
    (s : RowSt) (l : List Int) (hn : s.next = (l.length : Int))
    (ht : s.table = writeRow t0 (i * N) l) :
    (tableStep env chain N i s j).next = ((l ++ stepEntries env chain i j).length : Int) ∧
    (tableStep env chain N i s j).table = writeRow t0 (i * N) (l ++ stepEntries env chain i j) ∧
    s.fixed_moves ≤ (tableStep env chain N i s j).fixed_moves := by
  unfold tableStep stepEntries
  simp only
  by_cases hf : anyFixed env chain i j = true
  · rw [if_pos hf, if_pos hf]
    simp only [List.append_nil]
    refine ⟨hn, ht, ?_⟩
    split_ifs <;> omega
  · rw [if_neg hf, if_neg hf]
    split_ifs
    all_goals
      simp only [List.append_nil, List.nil_append, List.length_append, List.length_singleton,
        List.length_cons, List.length_nil, Nat.cast_add, Nat.cast_one, hn, ht, le_refl,
        and_true, true_and, writeRow_push, List.append_assoc, List.singleton_append,
        Nat.cast_zero, zero_add]
    all_goals first
      | done
      | omega
      | (refine ⟨by omega, ?_⟩
         rw [show (l.length : Int) + 1 = ((l ++ [j - 1]).length : Int) by simp,
           writeRow_push]
         simp)

theorem tableScan_fold_rep (env : Env) (chain : Chain) (N i : Int) (t0 : Int → Int)
    (js : List Int) (s : RowSt) (l : List Int) (hn : s.next = (l.length : Int))
    (ht : s.table = writeRow t0 (i * N) l) :
    (js.foldl (tableStep env chain N i) s).next =
      ((js.foldl (fun l j => l ++ stepEntries env chain i j) l).length : Int) ∧
    (js.foldl (tableStep env chain N i) s).table =
      writeRow t0 (i * N) (js.foldl (fun l j => l ++ stepEntries env chain i j) l) ∧
    s.fixed_moves ≤ (js.foldl (tableStep env chain N i) s).fixed_moves := by
  induction js generalizing s l with
  | nil => exact ⟨hn, ht, le_refl _⟩
  | cons j js ih =>
    simp only [List.foldl_cons]
    obtain ⟨h1, h2, h3⟩ := tableStep_rep env chain N i j t0 s l hn ht
    obtain ⟨k1, k2, k3⟩ := ih (tableStep env chain N i s j) (l ++ stepEntries env chain i j)
      h1 h2
    exact ⟨k1, k2, le_trans h3 k3⟩

/-- The scan of the length class `i` records `scanEntries` in the slots of row `i`, from
slot 0 on, leaves the rest of the table as it was, and counts a non-negative number of
disallowed moves. -/
theorem tableScan_rep (env : Env) (sp : SimParams) (chain : Chain) (i : Int)
    (table : Int → Int) :
    (tableScan env sp chain i table).next = ((scanEntries env sp chain i).length : Int) ∧
    (tableScan env sp chain i table).table =
      writeRow table (i * (sp.NAA - 1 + sp.Nchains)) (scanEntries env sp chain i) ∧
    0 ≤ (tableScan env sp chain i table).fixed_moves := by
  unfold tableScan scanEntries
  exact tableScan_fold_rep env chain (sp.NAA - 1 + sp.Nchains) i table _
    { table := table, next := 0, fixed_moves := 0 } [] rfl (writeRow_nil _ _).symm

theorem stepEntries_nonneg (env : Env) (chain : Chain) (i j : Int) (hj : 1 ≤ j) :
    ∀ x ∈ stepEntries env chain i j, 0 ≤ x := by
  intro x hx
  unfold stepEntries at hx
  simp only at hx
  split_ifs at hx <;> simp at hx <;> omega

theorem scanEntries_nonneg (env : Env) (sp : SimParams) (chain : Chain) (i : Int) :
    ∀ x ∈ scanEntries env sp chain i, 0 ≤ x := by
  unfold scanEntries
  refine foldl_preserves (fun l : List Int => ∀ x ∈ l, 0 ≤ x) _ _ ?_ [] (by simp)
  intro j hj l hl x hx
  rw [mem_intRange] at hj
  rcases List.mem_append.mp hx with h | h
  · exact hl x h
  · exact stepEntries_nonneg env chain i j hj.1 x h

/-- The sentinel fill of lines 285-289 writes `-1` into the slots `next..N-1` of the row and
nothing else. -/
theorem tableFill_apply (sp : SimParams) (i : Int) (table : Int → Int) (next : Int)
    (hle : next ≤ sp.NAA - 1 + sp.Nchains) (x : Int) :
    tableFill sp i table next x =
      if i * (sp.NAA - 1 + sp.Nchains) + next ≤ x ∧
          x < i * (sp.NAA - 1 + sp.Nchains) + (sp.NAA - 1 + sp.Nchains) then -1
      else table x := by
  unfold tableFill
  have key := foldl_intRange_inv
    (fun (k : Int) (t : (Int → Int) × Int) => t.2 = k ∧
      ∀ y, t.1 y = if i * (sp.NAA - 1 + sp.Nchains) + next ≤ y ∧
          y < i * (sp.NAA - 1 + sp.Nchains) + k then -1 else table y)
    (fun (t : (Int → Int) × Int) (_ : Int) =>
      (store t.1 (i * (sp.NAA - 1 + sp.Nchains) + t.2) (-1), t.2 + 1))
    next (sp.NAA - 1 + sp.Nchains) hle (table, next) ⟨rfl, fun y => ?_⟩ ?_
  · exact key.2 x
  · have : ¬ (i * (sp.NAA - 1 + sp.Nchains) + next ≤ y ∧
        y < i * (sp.NAA - 1 + sp.Nchains) + next) := by omega
    rw [if_neg this]
  · rintro k t hk1 hk2 ⟨ht2, ht1⟩
    refine ⟨by simp only; omega, fun y => ?_⟩
    simp only [store]
    rw [ht2]
    by_cases hy : y = i * (sp.NAA - 1 + sp.Nchains) + k
    · have hc : i * (sp.NAA - 1 + sp.Nchains) + next ≤ y ∧
          y < i * (sp.NAA - 1 + sp.Nchains) + (k + 1) := by omega
      rw [if_pos hy, if_pos hc]
    · rw [if_neg hy, ht1 y]
      by_cases hc : i * (sp.NAA - 1 + sp.Nchains) + next ≤ y ∧
          y < i * (sp.NAA - 1 + sp.Nchains) + k
      · have hc2 : i * (sp.NAA - 1 + sp.Nchains) + next ≤ y ∧
            y < i * (sp.NAA - 1 + sp.Nchains) + (k + 1) := by omega
        rw [if_pos hc, if_pos hc2]
      · have hc2 : ¬ (i * (sp.NAA - 1 + sp.Nchains) + next ≤ y ∧
            y < i * (sp.NAA - 1 + sp.Nchains) + (k + 1)) := by omega
        rw [if_neg hc, if_neg hc2]

/-- What one successful iteration of the loop over length classes leaves in the table. -/
theorem tableRow_ok (env : Env) (sp : SimParams) (chain : Chain) (t t1 : LookupTable)
    (i : Int) (hi : 0 ≤ i) (hN : 0 ≤ sp.Nchains)
    (h : tableRow env sp chain t i = Except.ok t1) :
    ((scanEntries env sp chain i).length : Int) ≤ sp.NAA - 1 + sp.Nchains ∧
    t1.n = store t.n i ((scanEntries env sp chain i).length : Int) ∧
    (∀ s : Nat, s < (scanEntries env sp chain i).length →
      t1.table (i * (sp.NAA - 1 + sp.Nchains) + (s : Int)) =
        (scanEntries env sp chain i).getD s 0) ∧
    (∀ s : Int, ((scanEntries env sp chain i).length : Int) ≤ s →
      s < sp.NAA - 1 + sp.Nchains →
      t1.table (i * (sp.NAA - 1 + sp.Nchains) + s) = -1) ∧
    (∀ x : Int, x < i * (sp.NAA - 1 + sp.Nchains) ∨
        i * (sp.NAA - 1 + sp.Nchains) + (sp.NAA - 1 + sp.Nchains) ≤ x →
      t1.table x = t.table x) ∧
    (∀ k : Int, k ≠ i → t1.n k = t.n k) := by
  obtain ⟨hn, htab, hfix⟩ := tableScan_rep env sp chain i t.table
  unfold tableRow at h
  simp only at h
  split_ifs at h with hcount
  simp only [Except.ok.injEq] at h
  have hcount2 : (tableScan env sp chain i t.table).next +
      (tableScan env sp chain i t.table).fixed_moves =
      sp.NAA - 1 + (1 - i) * sp.Nchains := by
    by_contra hc
    exact hcount hc
  have hprod : 0 ≤ i * sp.Nchains := mul_nonneg hi hN
  have hlen : ((scanEntries env sp chain i).length : Int) ≤ sp.NAA - 1 + sp.Nchains := by
    rw [← hn]
    have : (1 - i) * sp.Nchains = sp.Nchains - i * sp.Nchains := by ring
    rw [this] at hcount2
    omega
  subst h
  simp only
  rw [hn, htab]
  refine ⟨hlen, rfl, ?_, ?_, ?_, ?_⟩
  · intro s hs
    rw [tableFill_apply sp i _ _ hlen]
    have hc : ¬ (i * (sp.NAA - 1 + sp.Nchains) + ((scanEntries env sp chain i).length : Int)
        ≤ i * (sp.NAA - 1 + sp.Nchains) + (s : Int) ∧
        i * (sp.NAA - 1 + sp.Nchains) + (s : Int) <
          i * (sp.NAA - 1 + sp.Nchains) + (sp.NAA - 1 + sp.Nchains)) := by omega
    rw [if_neg hc]
    exact writeRow_inside _ _ _ s hs
  · intro s hs1 hs2
    rw [tableFill_apply sp i _ _ hlen]
    have hc : i * (sp.NAA - 1 + sp.Nchains) + ((scanEntries env sp chain i).length : Int)
        ≤ i * (sp.NAA - 1 + sp.Nchains) + s ∧
        i * (sp.NAA - 1 + sp.Nchains) + s <
          i * (sp.NAA - 1 + sp.Nchains) + (sp.NAA - 1 + sp.Nchains) := by omega
    rw [if_pos hc]
  · intro x hx
    rw [tableFill_apply sp i _ _ hlen]
    have hc : ¬ (i * (sp.NAA - 1 + sp.Nchains) + ((scanEntries env sp chain i).length : Int)
        ≤ x ∧ x < i * (sp.NAA - 1 + sp.Nchains) + (sp.NAA - 1 + sp.Nchains)) := by omega
    rw [if_neg hc]
    exact writeRow_outside _ _ _ x (by omega)
  · intro k hk
    simp only [store, hk, if_false]

theorem rowHolds_of_row (env : Env) (sp : SimParams) (chain : Chain) (t t1 : LookupTable)
    (i : Int) (hi : 0 ≤ i) (hN : 0 ≤ sp.Nchains)
    (h : tableRow env sp chain t i = Except.ok t1) :
    RowHolds sp t1 i (scanEntries env sp chain i) ∧
    ((scanEntries env sp chain i).length : Int) ≤ sp.NAA - 1 + sp.Nchains := by
  obtain ⟨h1, h2, h3, h4, _, _⟩ := tableRow_ok env sp chain t t1 i hi hN h
  refine ⟨⟨?_, h3, h4⟩, h1⟩
  rw [h2]
  simp [store]

theorem rowHolds_preserved (env : Env) (sp : SimParams) (chain : Chain)
    (t t1 : LookupTable) (L i : Int) (l : List Int) (hL : L < i) (hi : 0 ≤ i)
    (hN : 0 ≤ sp.Nchains) (hlen : (l.length : Int) ≤ sp.NAA - 1 + sp.Nchains)
    (hrow : RowHolds sp t L l)
    (h : tableRow env sp chain t i = Except.ok t1) : RowHolds sp t1 L l := by
  obtain ⟨_, _, _, _, h5, h6⟩ := tableRow_ok env sp chain t t1 i hi hN h
  have hN0 : 0 ≤ sp.NAA - 1 + sp.Nchains := le_trans (Int.natCast_nonneg _) hlen
  have hmul : (L + 1) * (sp.NAA - 1 + sp.Nchains) ≤ i * (sp.NAA - 1 + sp.Nchains) :=
    mul_le_mul_of_nonneg_right (by omega) hN0
  have hexp : (L + 1) * (sp.NAA - 1 + sp.Nchains) =
      L * (sp.NAA - 1 + sp.Nchains) + (sp.NAA - 1 + sp.Nchains) := by ring
  rw [hexp] at hmul
  obtain ⟨r1, r2, r3⟩ := hrow
  refine ⟨?_, ?_, ?_⟩
  · rw [h6 L (by omega)]
    exact r1
  · intro s hs
    rw [h5 _ (Or.inl (by omega))]
    exact r2 s hs
  · intro s hs1 hs2
    rw [h5 _ (Or.inl (by omega))]
    exact r3 s hs1 hs2

theorem buildLookupTable_ok (env : Env) (sp : SimParams) (chain : Chain) (t : LookupTable)
    (h : buildLookupTable env sp chain = Except.ok t) :
    ∃ t0 t1 t2, tableRow env sp chain { table := env.uninit, n := env.uninit } 0
        = Except.ok t0 ∧
      tableRow env sp chain t0 1 = Except.ok t1 ∧
      tableRow env sp chain t1 2 = Except.ok t2 ∧
      tableRow env sp chain t2 3 = Except.ok t := by
  unfold buildLookupTable at h
  split_ifs at h
  cases h0 : tableRow env sp chain { table := env.uninit, n := env.uninit } 0 with
  | error e => rw [h0] at h; simp [Except.bind] at h
  | ok t0 =>
    rw [h0] at h
    simp only [Except.bind] at h
    cases h1 : tableRow env sp chain t0 1 with
    | error e => rw [h1] at h; simp at h
    | ok t1 =>
      rw [h1] at h
      simp only at h
      cases h2 : tableRow env sp chain t1 2 with
      | error e => rw [h2] at h; simp at h
      | ok t2 =>
        rw [h2] at h
        simp only at h
        exact ⟨t0, t1, t2, rfl, h1, h2, h⟩

/-- After a successful build, row `L` of the table (for `L` in `0..3`) lists the start
indices the scan of the length class `L` recorded, followed by sentinels. -/
theorem buildLookupTable_rows (env : Env) (sp : SimParams) (chain : Chain)
    (t : LookupTable) (hN : 0 ≤ sp.Nchains)
    (h : buildLookupTable env sp chain = Except.ok t) (L : Int) (h0 : 0 ≤ L) (h3 : L ≤ 3) :
    RowHolds sp t L (scanEntries env sp chain L) ∧
    ((scanEntries env sp chain L).length : Int) ≤ sp.NAA - 1 + sp.Nchains := by
  obtain ⟨t0, t1, t2, e0, e1, e2, e3⟩ := buildLookupTable_ok env sp chain t h
  have hcases : L = 0 ∨ L = 1 ∨ L = 2 ∨ L = 3 := by omega
  rcases hcases with rfl | rfl | rfl | rfl
  · obtain ⟨r, hl⟩ := rowHolds_of_row env sp chain _ t0 0 (by decide) hN e0
    have r1 := rowHolds_preserved env sp chain t0 t1 0 1 _ (by decide) (by decide) hN hl r e1
    have r2 := rowHolds_preserved env sp chain t1 t2 0 2 _ (by decide) (by decide) hN hl r1 e2
    exact ⟨rowHolds_preserved env sp chain t2 t 0 3 _ (by decide) (by decide) hN hl r2 e3, hl⟩
  · obtain ⟨r, hl⟩ := rowHolds_of_row env sp chain _ t1 1 (by decide) hN e1
    have r2 := rowHolds_preserved env sp chain t1 t2 1 2 _ (by decide) (by decide) hN hl r e2
    exact ⟨rowHolds_preserved env sp chain t2 t 1 3 _ (by decide) (by decide) hN hl r2 e3, hl⟩
  · obtain ⟨r, hl⟩ := rowHolds_of_row env sp chain _ t2 2 (by decide) hN e2
    exact ⟨rowHolds_preserved env sp chain t2 t 2 3 _ (by decide) (by decide) hN hl r e3, hl⟩
  · exact rowHolds_of_row env sp chain _ t 3 (by decide) hN e3

/-- C12: for every topology (any chain ids, any FIXED flags, a non-negative chain count) whose
table build succeeds and every `L` in `0..3`, the first `legal_count[L]` slots of row `L` hold
non-negative start indices and every remaining slot of the row, up to its length
`NAA-1+Nchains`, holds the sentinel `-1`. -/
theorem C12_rows_are_starts_then_sentinels (env : Env) (sp : SimParams) (chain : Chain)
    (t : LookupTable) (hN : 0 ≤ sp.Nchains)
    (h : buildLookupTable env sp chain = Except.ok t) (L : Int) (h0 : 0 ≤ L) (h3 : L ≤ 3) :
    (0 ≤ t.n L ∧ t.n L ≤ sp.NAA - 1 + sp.Nchains) ∧
    (∀ s : Int, 0 ≤ s → s < t.n L →
      0 ≤ t.table (L * (sp.NAA - 1 + sp.Nchains) + s) ∧
      t.table (L * (sp.NAA - 1 + sp.Nchains) + s) ≠ -1) ∧
    (∀ s : Int, t.n L ≤ s → s < sp.NAA - 1 + sp.Nchains →
      t.table (L * (sp.NAA - 1 + sp.Nchains) + s) = -1) := by
  obtain ⟨⟨r1, r2, r3⟩, hl⟩ := buildLookupTable_rows env sp chain t hN h L h0 h3
  rw [r1]
  refine ⟨⟨Int.natCast_nonneg _, hl⟩, ?_, r3⟩
  intro s hs0 hs1
  have hs : s.toNat < (scanEntries env sp chain L).length := by
    have := Int.toNat_of_nonneg hs0
    omega
  have hval := r2 s.toNat hs
  rw [Int.toNat_of_nonneg hs0] at hval
  rw [hval, List.getD_eq_getElem _ _ hs]
  have hnn := scanEntries_nonneg env sp chain L _ (List.getElem_mem hs)
  exact ⟨hnn, by omega⟩

theorem demoTable_ok (flags : Int → Nat)
    (hs : (buildLookupTable (demoEnv 1 0) (demoParams 6 false 1 1)
      (demoChainFlags 6 0 flags)).toOption.isSome = true) :
    buildLookupTable (demoEnv 1 0) (demoParams 6 false 1 1) (demoChainFlags 6 0 flags) =
      Except.ok (demoTable flags) := by
  unfold demoTable tableOf
  cases hx : buildLookupTable (demoEnv 1 0) (demoParams 6 false 1 1)
      (demoChainFlags 6 0 flags) with
  | error e => rw [hx] at hs; simp [Except.toOption] at hs
  | ok r => rfl

theorem C12_witness :
    (0 ≤ (demoTable (fun k => if k = 2 then 1 else 0)).n 1 ∧
      (demoTable (fun k => if k = 2 then 1 else 0)).n 1 ≤ 6 - 1 + 1) ∧
    (∀ s : Int, 0 ≤ s → s < (demoTable (fun k => if k = 2 then 1 else 0)).n 1 →
      0 ≤ (demoTable (fun k => if k = 2 then 1 else 0)).table (1 * (6 - 1 + 1) + s) ∧
      (demoTable (fun k => if k = 2 then 1 else 0)).table (1 * (6 - 1 + 1) + s) ≠ -1) ∧
    (∀ s : Int, (demoTable (fun k => if k = 2 then 1 else 0)).n 1 ≤ s → s < 6 - 1 + 1 →
      (demoTable (fun k => if k = 2 then 1 else 0)).table (1 * (6 - 1 + 1) + s) = -1) :=
  C12_rows_are_starts_then_sentinels (demoEnv 1 0) (demoParams 6 false 1 1)
    (demoChainFlags 6 0 (fun k => if k = 2 then 1 else 0)) _ (by decide)
    (demoTable_ok _ (by decide!)) 1 (by decide) (by decide)

theorem intRange_cons {lo hi : Int} (h : lo < hi) :
    intRange lo hi = lo :: intRange (lo + 1) hi := by
  unfold intRange
  have e : (hi - lo).toNat = (hi - (lo + 1)).toNat + 1 := by
    have h1 := Int.toNat_of_nonneg (show 0 ≤ hi - lo by omega)
    have h2 := Int.toNat_of_nonneg (show 0 ≤ hi - (lo + 1) by omega)
    omega
  rw [e, List.range_succ_eq_map, List.map_cons, List.map_map]
  congr 1
  · simp
  · apply List.map_congr_left
    intro k _
    simp only [Function.comp, Nat.succ_eq_add_one, Nat.cast_add, Nat.cast_one]
    ring

theorem intRange_length (lo hi : Int) : (intRange lo hi).length = (hi - lo).toNat := by
  simp [intRange]

theorem intRange_pairwise (lo hi : Int) : (intRange lo hi).Pairwise (fun a b => a < b) := by
  unfold intRange
  refine List.Pairwise.map _ ?_ (List.pairwise_lt_range _)
  intro a b hab
  have : (a : Int) < (b : Int) := by exact_mod_cast hab
  omega

theorem anyFixed_single (env : Env) (chain : Chain) (n L j : Int) (hL : 0 ≤ L)
    (hj1 : 1 ≤ j) (hj2 : j + L ≤ n)
    (hchain : ∀ k : Int, 1 ≤ k → k ≤ n → (chain.aa k).chainid = (chain.aa 1).chainid) :
    anyFixed env chain L j = !windowFree env chain L j := by
  unfold anyFixed windowFree
  rw [Bool.not_not]
  apply Bool.eq_iff_iff.mpr
  simp only [List.any_eq_true, Bool.and_eq_true, decide_eq_true_eq]
  constructor
  · rintro ⟨k, hk, hf, _⟩
    exact ⟨k, hk, hf⟩
  · rintro ⟨k, hk, hf⟩
    have hk2 := mem_intRange.mp hk
    refine ⟨k, hk, hf, ?_⟩
    rw [hchain j hj1 (by omega), hchain k (by omega) (by omega)]

theorem stepEntries_single (env : Env) (chain : Chain) (n L j : Int) (hL : 0 ≤ L)
    (hj1 : 1 ≤ j) (hj2 : j + L ≤ n)
    (hchain : ∀ k : Int, 1 ≤ k → k ≤ n → (chain.aa k).chainid = (chain.aa 1).chainid) :
    stepEntries env chain L j =
      if windowFree env chain L j = true then (if j = 1 then [0, 1] else [j]) else [] := by
  have cj : (chain.aa j).chainid = (chain.aa 1).chainid := hchain j hj1 (by omega)
  have cji : (chain.aa (j + L)).chainid = (chain.aa 1).chainid :=
    hchain (j + L) (by omega) hj2
  unfold stepEntries
  simp only [cj, cji]
  rw [anyFixed_single env chain n L j hL hj1 hj2 hchain]
  by_cases hw : windowFree env chain L j = true
  · simp only [hw, Bool.not_true, if_true]
    by_cases h1 : j = 1
    · subst h1
      simp
    · have cjm : (chain.aa (j - 1)).chainid = (chain.aa 1).chainid :=
        hchain (j - 1) (by omega) (by omega)
      simp [h1, cjm]
  · simp [hw]

/-- On a single chain the scan of the length class `L` records the row the specification
describes. -/
theorem scanEntries_single (env : Env) (sp : SimParams) (chain : Chain) (L : Int)
    (hL0 : 0 ≤ L) (hL3 : L ≤ 3) (hNAA : 5 ≤ sp.NAA)
    (hchain : ∀ k : Int, 1 ≤ k → k ≤ sp.NAA - 1 →
      (chain.aa k).chainid = (chain.aa 1).chainid) :
    scanEntries env sp chain L = expectedRow env chain (sp.NAA - 1) L := by
  unfold scanEntries expectedRow
  have key := foldl_intRange_inv
    (fun (k : Int) (l : List Int) => l = if k = 1 then [] else
      (if windowFree env chain L 1 = true then [0] else []) ++
        (intRange 1 k).filter (fun j => windowFree env chain L j))
    (fun l j => l ++ stepEntries env chain L j) 1 (sp.NAA - L) (by omega) [] (by simp) ?_
  · have hne : ¬ (sp.NAA - L = 1) := by omega
    simp only [hne, if_false] at key
    rw [key, show sp.NAA - 1 - L + 1 = sp.NAA - L by ring]
  · intro k l hk1 hk2 hinv
    have hk : ¬ (k + 1 = 1) := by omega
    simp only [hk, if_false]
    rw [stepEntries_single env chain (sp.NAA - 1) L k hL0 hk1 (by omega) hchain, hinv]
    by_cases h1 : k = 1
    · subst h1
      rw [show (1 : Int) + 1 = 2 by norm_num, show (2 : Int) = 1 + 1 by norm_num,
        intRange_single]
      by_cases hw : windowFree env chain L 1 = true
      · simp [hw]
      · simp [hw]
    · simp only [h1, if_false]
      rw [intRange_succ hk1, List.filter_append, List.append_assoc]
      congr 1
      congr 1
      by_cases hw : windowFree env chain L k = true
      · simp [hw]
      · simp [hw]

theorem windowFree_of_no_fixed (env : Env) (chain : Chain) (n L j : Int)
    (hj1 : 1 ≤ j) (hj2 : j + L ≤ n)
    (hno : ∀ k : Int, 1 ≤ k → k ≤ n → isFixed env (chain.aa k) = false) :
    windowFree env chain L j = true := by
  unfold windowFree
  rw [Bool.not_eq_true', List.any_eq_false]
  intro k hk
  have := mem_intRange.mp hk
  rw [hno k (by omega) (by omega)]
  decide

theorem expectedRow_pairwise (env : Env) (chain : Chain) (n L : Int) :
    (expectedRow env chain n L).Pairwise (fun a b => a < b) := by
  unfold expectedRow
  rw [List.pairwise_append]
  refine ⟨?_, List.Pairwise.filter _ (intRange_pairwise _ _), ?_⟩
  · split_ifs <;> simp
  · intro a ha b hb
    have hb2 := mem_intRange.mp (List.mem_filter.mp hb).1
    split_ifs at ha
    · simp at ha
      omega
    · simp at ha

theorem expectedRow_no_fixed (env : Env) (chain : Chain) (n L : Int)
    (hn : 1 + L ≤ n)
    (hno : ∀ k : Int, 1 ≤ k → k ≤ n → isFixed env (chain.aa k) = false) :
    expectedRow env chain n L = intRange 0 (n - L + 1) := by
  unfold expectedRow
  rw [windowFree_of_no_fixed env chain n L 1 (le_refl 1) hn hno, if_pos rfl,
    List.filter_eq_self.mpr, intRange_cons (show (0 : Int) < n - L + 1 by omega)]
  · rfl
  · intro j hj
    have := mem_intRange.mp hj
    exact windowFree_of_no_fixed env chain n L j (by omega) (by omega) hno

/-- C11: for a single chain of `n = NAA-1 >= 4` residues whose table build succeeds, row `L`
(`L` in `0..3`) of the lookup table lists, in strictly increasing order, exactly: `0` if the
window `[1, 1+L]` contains no FIXED residue, followed by every `j` in `1..n-L` whose window
`[j, j+L]` contains no FIXED residue; with no FIXED residue the row is `0, 1, ..., n-L` and
`legal_count[L] = n-L+1`. -/
theorem C11_single_chain_rows (env : Env) (sp : SimParams) (chain : Chain)
    (t : LookupTable) (hN : sp.Nchains = 1) (hNAA : 5 ≤ sp.NAA)
    (hchain : ∀ k : Int, 1 ≤ k → k ≤ sp.NAA - 1 →
      (chain.aa k).chainid = (chain.aa 1).chainid)
    (h : buildLookupTable env sp chain = Except.ok t) (L : Int) (h0 : 0 ≤ L) (h3 : L ≤ 3) :
    RowHolds sp t L (expectedRow env chain (sp.NAA - 1) L) ∧
    (expectedRow env chain (sp.NAA - 1) L).Pairwise (fun a b => a < b) ∧
    ((∀ k : Int, 1 ≤ k → k ≤ sp.NAA - 1 → isFixed env (chain.aa k) = false) →
      expectedRow env chain (sp.NAA - 1) L = intRange 0 (sp.NAA - 1 - L + 1) ∧
      t.n L = sp.NAA - 1 - L + 1) := by
  have hrow := (buildLookupTable_rows env sp chain t (by omega) h L h0 h3).1
  rw [scanEntries_single env sp chain L h0 h3 hNAA hchain] at hrow
  refine ⟨hrow, expectedRow_pairwise _ _ _ _, fun hno => ?_⟩
  have he := expectedRow_no_fixed env chain (sp.NAA - 1) L (by omega) hno
  refine ⟨he, ?_⟩
  rw [hrow.1, he, intRange_length]
  rw [Int.toNat_of_nonneg (by omega)]
  ring

theorem C11_witness :
    RowHolds (demoParams 6 false 1 1) (demoTable (fun k => if k = 2 then 1 else 0)) 1
      (expectedRow (demoEnv 1 0) (demoChainFlags 6 0 (fun k => if k = 2 then 1 else 0))
        (6 - 1) 1) ∧
    expectedRow (demoEnv 1 0) (demoChainFlags 6 0 (fun k => if k = 2 then 1 else 0))
      (6 - 1) 1 = [3, 4] ∧
    RowHolds (demoParams 6 false 1 1) (demoTable (fun _ => 0)) 1 [0, 1, 2, 3, 4] := by
  have h1 := C11_single_chain_rows (demoEnv 1 0) (demoParams 6 false 1 1)
    (demoChainFlags 6 0 (fun k => if k = 2 then 1 else 0)) _ rfl (by decide)
    (fun _ _ _ => rfl) (demoTable_ok _ (by decide!)) 1 (by decide) (by decide)
  have h2 := C11_single_chain_rows (demoEnv 1 0) (demoParams 6 false 1 1)
    (demoChainFlags 6 0 (fun _ => 0)) _ rfl (by decide)
    (fun _ _ _ => rfl) (demoTable_ok _ (by decide!)) 1 (by decide) (by decide)
  refine ⟨h1.1, by decide!, ?_⟩
  have h3 : expectedRow (demoEnv 1 0) (demoChainFlags 6 0 (fun _ => 0)) (6 - 1) 1
      = [0, 1, 2, 3, 4] := by decide!
  have h4 := h2.1
  rw [show (demoParams 6 false 1 1).NAA - 1 = 6 - 1 from rfl, h3] at h4
  exact h4

theorem finishWindow_nonpos_capped (env : Env) (sp sp2 : SimParams) (changeamp : Int)
    (hpi : 0 ≤ env.M_PI) (h0 : sp.amplitude ≤ 0) (hcap : -env.M_PI ≤ sp.amplitude)
    (h : finishWindow env sp changeamp = Except.ok sp2) :
    -env.M_PI ≤ sp2.amplitude ∧ sp2.amplitude ≤ 0 := by
  by_cases hsum : sp.accept_counter + sp.reject_counter = 1024
  · obtain ⟨_, _, sp1, hcal, hsp2⟩ := finishWindow_complete env sp changeamp sp2 hsum h
    rw [hsp2]
    unfold calibrate at hcal
    split_ifs at hcal with hca h1 h2 h3 h4
    · simp only [Except.ok.injEq] at hcal
      rw [← hcal]
      exact adjustAmplitude_nonpos_capped env _ hpi (not_le.mp h3) h0
    · simp only [Except.ok.injEq] at hcal
      rw [← hcal]
      exact ⟨hcap, h0⟩
  · rw [finishWindow_incomplete env sp changeamp hsum] at h
    simp only [Except.ok.injEq] at h
    rw [← h]
    exact ⟨hcap, h0⟩

theorem acceptedWindows_nonpos_capped (env : Env) (sp : SimParams) (hpi : 0 ≤ env.M_PI)
    (h0 : sp.amplitude ≤ 0) (hcap : -env.M_PI ≤ sp.amplitude) (k : Nat) (s : SimParams)
    (h : acceptedWindows env sp k = Except.ok s) :
    -env.M_PI ≤ s.amplitude ∧ s.amplitude ≤ 0 := by
  induction k generalizing s with
  | zero =>
    simp only [acceptedWindows, Except.ok.injEq] at h
    rw [← h]
    exact ⟨hcap, h0⟩
  | succ k ih =>
    simp only [acceptedWindows] at h
    cases hk : acceptedWindows env sp k with
    | error e => rw [hk] at h; simp [Except.bind] at h
    | ok s1 =>
      rw [hk] at h
      simp only [Except.bind] at h
      obtain ⟨i1, i2⟩ := ih s1 hk
      exact finishWindow_nonpos_capped env
        { s1 with accept_counter := 1024, reject_counter := 0 } s 1 hpi i2 i1 h

/-- The magnitude of a non-positive amplitude is capped at pi: for every call
of `move` that returns, if `-pi <= amplitude <= 0` before the call then
`-pi <= amplitude <= 0` after it; in particular in the convergence scenario started from a
non-positive amplitude of magnitude at most pi, the amplitude has magnitude at most pi after
any number of calibration windows in which every move is accepted. -/
theorem move_nonpos_amplitude_capped (env : Env) (chain : Chain) (chaint : Chaint)
    (logLstar currE : ℚ) (changeamp : Int) (sp : SimParams) (loss_init q_init : ℚ)
    (rng : Rng) (r : MoveResult) (hpi : 0 ≤ env.M_PI)
    (h0 : sp.amplitude ≤ 0) (hcap : |sp.amplitude| ≤ env.M_PI)
    (h : move env chain chaint logLstar currE changeamp sp loss_init q_init rng
      = Except.ok r) :
    (r.sp.amplitude ≤ 0 ∧ |r.sp.amplitude| ≤ env.M_PI) ∧
    ∀ (k : Nat) (s : SimParams), acceptedWindows env sp k = Except.ok s →
      s.amplitude ≤ 0 ∧ |s.amplitude| ≤ env.M_PI := by
  have hcap2 : -env.M_PI ≤ sp.amplitude := neg_le_of_abs_le hcap
  refine ⟨?_, fun k s hs => ?_⟩
  · obtain ⟨cr, hc, hf⟩ := move_ok _ _ _ _ _ _ _ _ _ _ _ h
    have hsc := crankshaft_sameCalibration _ _ _ _ _ _ _ _ _ _ _ hc
    have hcm := countMove_fields cr.sp cr.ret
    have hamp : (countMove cr.sp cr.ret).amplitude = sp.amplitude := by
      rw [hcm.1, hsc.1, (resetCounters_fields sp changeamp).1]
    obtain ⟨k1, k2⟩ := finishWindow_nonpos_capped env (countMove cr.sp cr.ret) r.sp changeamp
      hpi (by rw [hamp]; exact h0) (by rw [hamp]; exact hcap2) hf
    exact ⟨k2, abs_le.mpr ⟨k1, le_trans k2 hpi⟩⟩
  · obtain ⟨k1, k2⟩ := acceptedWindows_nonpos_capped env sp hpi h0 hcap2 k s hs
    exact ⟨k2, abs_le.mpr ⟨k1, le_trans k2 hpi⟩⟩

/-! ## Classification of the selected window -/

/-- C21: the classifier never sets both pivot flags; `start = 0` gives `pivot_around_end`;
`end = NAA` with `start ≠ 0` gives `pivot_around_start`; a returned classification has
neither flag set exactly when `start ≠ 0`, `end ≠ NAA` and the residues at `start` and `end`
have the same chain id, and in that case the classifier does return, without drawing; the
only fatal exit is the classification error, and it is taken only for a window whose ends
lie on different chains. -/
theorem C21_classification (env : Env) (sp : SimParams) (chain : Chain) (w : Selection)
    (rng : Rng) :
    (∀ p r, classify env sp chain w rng = Except.ok (p, r) →
      ¬ (p.pivot_around_end = true ∧ p.pivot_around_start = true) ∧
      (w.start = 0 → p.pivot_around_end = true) ∧
      (w.start ≠ 0 → w.end_ = sp.NAA → p.pivot_around_start = true) ∧
      ((p.pivot_around_end = false ∧ p.pivot_around_start = false) ↔
        (w.start ≠ 0 ∧ w.end_ ≠ sp.NAA ∧
          (chain.aa w.start).chainid = (chain.aa w.end_).chainid))) ∧
    (w.start ≠ 0 → w.end_ ≠ sp.NAA →
      (chain.aa w.start).chainid = (chain.aa w.end_).chainid →
      classify env sp chain w rng =
        Except.ok ({ pivot_around_end := false, pivot_around_start := false }, rng)) ∧
    (∀ e, classify env sp chain w rng = Except.error e →
      e = Fatal.classification ∧ w.start ≠ 0 ∧ w.end_ ≠ sp.NAA ∧
        (chain.aa w.start).chainid ≠ (chain.aa w.end_).chainid) := by
  refine ⟨?_, ?_, ?_⟩
  · intro p r h
    unfold classify at h
    simp only at h
    split_ifs at h with h1 h2 h3 h4 h5 h6 h7 <;> cases h <;> simp_all
  · intro h1 h2 h3
    unfold classify
    simp only
    rw [if_neg h1, if_neg h2, if_neg (by simpa using h3)]
  · intro e h
    unfold classify at h
    simp only at h
    split_ifs at h with h1 h2 h3 h4 h5 h6 h7
    cases h
    exact ⟨rfl, h1, h2, h3⟩

/-- C21 on two six-residue chains: the window `6..7` across the break is a pivot chosen by
the coin, the window `5..7` pivots around its start, the window `2..4` inside the first
chain is a crankshaft, and the windows starting at `0` or ending at `NAA` are pivots. -/
theorem C21_witness :
    pivotFlags (classify (demoEnv 1 0) (demoParams 13 false 1 1) demoChainTwo
        { len := 0, start := 6, end_ := 7 } (demoRng 2)) = some (false, true) ∧
    pivotFlags (classify (demoEnv 1 0) (demoParams 13 false 1 1) demoChainTwo
        { len := 0, start := 6, end_ := 7 } (demoRng 1)) = some (true, false) ∧
    pivotFlags (classify (demoEnv 1 0) (demoParams 13 false 1 1) demoChainTwo
        { len := 1, start := 5, end_ := 7 } (demoRng 0)) = some (false, true) ∧
    pivotFlags (classify (demoEnv 1 0) (demoParams 13 false 1 1) demoChainTwo
        { len := 1, start := 2, end_ := 4 } (demoRng 0)) = some (false, false) ∧
    pivotFlags (classify (demoEnv 1 0) (demoParams 13 false 1 1) demoChainTwo
        { len := 1, start := 0, end_ := 2 } (demoRng 0)) = some (true, false) ∧
    pivotFlags (classify (demoEnv 1 0) (demoParams 13 false 1 1) demoChainTwo
        { len := 1, start := 11, end_ := 13 } (demoRng 0)) = some (false, true) := by
  have h := C21_classification (demoEnv 1 0) (demoParams 13 false 1 1) demoChainTwo
    { len := 1, start := 2, end_ := 4 } (demoRng 0)
  refine ⟨by decide!, by decide!, by decide!, ?_, by decide!, by decide!⟩
  rw [h.2.1 (by decide) (by decide!) (by decide!)]
  rfl

/-! ## The self-test on short single chains -/

theorem intRange_empty (lo hi : Int) (h : hi ≤ lo) : intRange lo hi = [] := by
  have h0 : (hi - lo).toNat = 0 := Int.toNat_eq_zero.mpr (by omega)
  simp [intRange, h0]

/-- An empty scan records nothing and counts nothing. -/
theorem tableScan_count_empty (env : Env) (sp : SimParams) (chain : Chain) (i : Int)
    (table : Int → Int) (h : sp.NAA - i ≤ 1) :
    (tableScan env sp chain i table).next + (tableScan env sp chain i table).fixed_moves =
      0 := by
  unfold tableScan
  rw [intRange_empty 1 (sp.NAA - i) h]
  rfl

/-- The count of a non-empty scan on a single chain whose last residue is not FIXED. -/
theorem tableScan_count_single_of_two (env : Env) (sp : SimParams) (chain : Chain) (i : Int)
    (table : Int → Int) (hi0 : 0 ≤ i) (h2 : 2 ≤ sp.NAA - i)
    (hchain : ∀ k : Int, 1 ≤ k → k ≤ sp.NAA - 1 →
      (chain.aa k).chainid = (chain.aa 1).chainid)
    (hlast : isFixed env (chain.aa (sp.NAA - 1)) = false) :
    (tableScan env sp chain i table).next + (tableScan env sp chain i table).fixed_moves =
      sp.NAA - i := by
  unfold tableScan
  have key := foldl_intRange_inv
    (fun (k : Int) (s : RowSt) => s.next + s.fixed_moves = if k = 1 then 0 else k)
    (tableStep env chain (sp.NAA - 1 + sp.Nchains) i) 1 (sp.NAA - i) (by omega)
    { table := table, next := 0, fixed_moves := 0 } (by simp) ?_
  · have hne : ¬ (sp.NAA - i = 1) := by omega
    simpa [hne] using key
  · intro k s hk1 hk2 hinv
    rw [tableStep_count_single env chain _ i sp.NAA s k hi0 hk1 hk2 hchain hlast, hinv]
    have hk : ¬ (k + 1 = 1) := by omega
    by_cases h1 : k = 1
    · subst h1; simp
    · simp only [h1, hk, if_false]

/-- The only fatal exit of one iteration of the loop over length classes is the failed
self-test, and a returned iteration passed it. -/
theorem tableRow_cases (env : Env) (sp : SimParams) (chain : Chain) (t : LookupTable)
    (i : Int) :
    (tableRow env sp chain t i = Except.error Fatal.tableCount ∧
      (tableScan env sp chain i t.table).next + (tableScan env sp chain i t.table).fixed_moves
        ≠ (sp.NAA - 1) + (1 - i) * sp.Nchains) ∨
    ((∃ t1, tableRow env sp chain t i = Except.ok t1) ∧
      (tableScan env sp chain i t.table).next + (tableScan env sp chain i t.table).fixed_moves
        = (sp.NAA - 1) + (1 - i) * sp.Nchains) := by
  unfold tableRow
  simp only
  by_cases h : (tableScan env sp chain i t.table).next +
      (tableScan env sp chain i t.table).fixed_moves ≠ (sp.NAA - 1) + (1 - i) * sp.Nchains
  · left
    rw [if_pos h]
    exact ⟨rfl, h⟩
  · right
    rw [if_neg h]
    exact ⟨⟨_, rfl⟩, not_not.mp h⟩

/-- On a single chain shorter than 4 residues the self-test fails for the length class 2 or
for the length class 3, whatever the flags are. -/
theorem selftest_short_fails (env : Env) (sp : SimParams) (chain : Chain)
    (hN : sp.Nchains = 1) (hshort : sp.NAA < 5) (ta tb : Int → Int)
    (h2 : (tableScan env sp chain 2 ta).next + (tableScan env sp chain 2 ta).fixed_moves
        = (sp.NAA - 1) + (1 - 2) * sp.Nchains)
    (h3 : (tableScan env sp chain 3 tb).next + (tableScan env sp chain 3 tb).fixed_moves
        = (sp.NAA - 1) + (1 - 3) * sp.Nchains) : False := by
  rw [tableScan_count_empty env sp chain 3 tb (by omega), hN] at h3
  have hNAA : sp.NAA = 3 := by omega
  rw [tableScan_count_empty env sp chain 2 ta (by omega), hN, hNAA] at h2
  omega

/-- The build on a single chain shorter than 4 residues stops at the self-test. -/
theorem buildLookupTable_short (env : Env) (sp : SimParams) (chain : Chain)
    (hN : sp.Nchains = 1) (hshort : sp.NAA < 5)
    (hseq : sp.seq_present = true ∧ sp.sequence_present = true)
    (hmem : env.malloc_ok = true) :
    buildLookupTable env sp chain = Except.error Fatal.tableCount := by
  unfold buildLookupTable
  simp only [hseq.1, hseq.2, hmem]
  rcases tableRow_cases env sp chain { table := env.uninit, n := env.uninit } 0 with
    ⟨e0, _⟩ | ⟨⟨t0, e0⟩, _⟩
  · simp [e0, Except.bind]
  rcases tableRow_cases env sp chain t0 1 with ⟨e1, _⟩ | ⟨⟨t1, e1⟩, _⟩
  · simp [e0, e1, Except.bind]
  rcases tableRow_cases env sp chain t1 2 with ⟨e2, _⟩ | ⟨⟨t2, e2⟩, c2⟩
  · simp [e0, e1, e2, Except.bind]
  rcases tableRow_cases env sp chain t2 3 with ⟨e3, _⟩ | ⟨⟨t3, e3⟩, c3⟩
  · simp [e0, e1, e2, e3, Except.bind]
  exact (selftest_short_fails env sp chain hN hshort _ _ c2 c3).elim

/-- C24: for a single chain (`Nchains = 1`, one chain id) with no FIXED residue, with the
sequence present and the allocation successful, all four length classes pass the count
self-test of the table build if and only if `NAA >= 5`, the build returns a table if and
only if `NAA >= 5`, and for every shorter chain the build stops fatally at the self-test. -/
theorem C24_single_chain_build_iff (env : Env) (sp : SimParams) (chain : Chain)
    (hN : sp.Nchains = 1)
    (hchain : ∀ k : Int, 1 ≤ k → k ≤ sp.NAA - 1 →
      (chain.aa k).chainid = (chain.aa 1).chainid)
    (hfree : ∀ k : Int, 1 ≤ k → k ≤ sp.NAA - 1 → isFixed env (chain.aa k) = false)
    (hseq : sp.seq_present = true ∧ sp.sequence_present = true)
    (hmem : env.malloc_ok = true) :
    ((∀ (L : Int) (table : Int → Int), 0 ≤ L → L ≤ 3 →
      (tableScan env sp chain L table).next + (tableScan env sp chain L table).fixed_moves =
        (sp.NAA - 1) + (1 - L) * sp.Nchains) ↔ 5 ≤ sp.NAA) ∧
    ((∃ t, buildLookupTable env sp chain = Except.ok t) ↔ 5 ≤ sp.NAA) ∧
    (sp.NAA < 5 → buildLookupTable env sp chain = Except.error Fatal.tableCount) := by
  have hbuild : 5 ≤ sp.NAA → ∃ t, buildLookupTable env sp chain = Except.ok t := by
    intro hNAA
    have hlast := hfree (sp.NAA - 1) (by omega) (le_refl _)
    unfold buildLookupTable
    simp only [hseq.1, hseq.2, hmem]
    obtain ⟨t0, e0⟩ := tableRow_ok_single env sp chain
      { table := env.uninit, n := env.uninit } 0 (by decide) (by decide) hNAA hN hchain hlast
    obtain ⟨t1, e1⟩ := tableRow_ok_single env sp chain t0 1 (by decide) (by decide) hNAA hN
      hchain hlast
    obtain ⟨t2, e2⟩ := tableRow_ok_single env sp chain t1 2 (by decide) (by decide) hNAA hN
      hchain hlast
    obtain ⟨t3, e3⟩ := tableRow_ok_single env sp chain t2 3 (by decide) (by decide) hNAA hN
      hchain hlast
    refine ⟨t3, ?_⟩
    simp [e0, e1, e2, e3, Except.bind]
  refine ⟨⟨?_, ?_⟩, ⟨?_, hbuild⟩, ?_⟩
  · intro h
    by_contra hshort
    exact selftest_short_fails env sp chain hN (by omega) env.uninit env.uninit
      (h 2 _ (by decide) (by decide)) (h 3 _ (by decide) (by decide))
  · intro hNAA L table h0 h3
    have hlast := hfree (sp.NAA - 1) (by omega) (le_refl _)
    rw [tableScan_count_single_of_two env sp chain L table h0 (by omega) hchain hlast, hN]
    ring
  · rintro ⟨t, ht⟩
    by_contra hshort
    rw [buildLookupTable_short env sp chain hN (by omega) hseq hmem] at ht
    cases ht
  · intro hshort
    exact buildLookupTable_short env sp chain hN hshort hseq hmem

theorem demoChain_free (NAA k : Int) :
    isFixed (demoEnv 1 0) ((demoChain NAA 0).aa k) = false := by
  simp [isFixed, demoChain, demoAA, demoEnv]

/-- C24 on the five-residue chain (`NAA = 6`, built) and on the three-residue chain
(`NAA = 4`, fatal). -/
theorem C24_witness :
    (∃ t, buildLookupTable (demoEnv 1 0) (demoParams 6 false 1 1) (demoChain 6 0)
      = Except.ok t) ∧
    buildLookupTable (demoEnv 1 0) (demoParams 4 false 1 1) (demoChain 4 0)
      = Except.error Fatal.tableCount := by
  have h6 := C24_single_chain_build_iff (demoEnv 1 0) (demoParams 6 false 1 1)
    (demoChain 6 0) rfl (fun _ _ _ => rfl) (fun k _ _ => demoChain_free _ k) ⟨rfl, rfl⟩ rfl
  have h4 := C24_single_chain_build_iff (demoEnv 1 0) (demoParams 4 false 1 1)
    (demoChain 4 0) rfl (fun _ _ _ => rfl) (fun k _ _ => demoChain_free _ k) ⟨rfl, rfl⟩ rfl
  exact ⟨h6.2.1.mpr (by decide), h4.2.2 (by decide)⟩

/-! ## Empty rows of the lookup table -/

theorem foldl_append_mem {α : Type} (f : Int → List α) (l : List Int) (init : List α)
    (x : α) :
    x ∈ l.foldl (fun acc j => acc ++ f j) init ↔ x ∈ init ∨ ∃ j ∈ l, x ∈ f j := by
  induction l generalizing init with
  | nil => simp
  | cons a l ih =>
    rw [List.foldl_cons, ih]
    simp only [List.mem_append, List.mem_cons, exists_eq_or_imp]
    tauto

theorem anyFixed_eq_false (env : Env) (chain : Chain) (i j : Int) :
    anyFixed env chain i j = false ↔
      ∀ k : Int, j ≤ k → k ≤ j + i → isFixed env (chain.aa k) = true →
        (chain.aa j).chainid ≠ (chain.aa k).chainid := by
  unfold anyFixed
  rw [List.any_eq_false]
  constructor
  · intro h k hk1 hk2 hf hc
    have := h k (mem_intRange.mpr ⟨hk1, by omega⟩)
    simp [hf, hc] at this
  · intro h k hk
    have hk2 := mem_intRange.mp hk
    intro hx
    simp only [Bool.and_eq_true, decide_eq_true_eq] at hx
    exact h k hk2.1 (by omega) hx.1 hx.2

/-- An iteration of the scan records a start exactly when the window is legal. -/
theorem stepEntries_ne_nil (env : Env) (chain : Chain) (i j : Int) :
    stepEntries env chain i j ≠ [] ↔ LegalWindow env chain i j := by
  unfold LegalWindow
  rw [← anyFixed_eq_false]
  unfold stepEntries
  simp only
  by_cases hf : anyFixed env chain i j = true
  · simp [hf]
  · have hf2 : anyFixed env chain i j = false := by simpa using hf
    rw [if_neg hf]
    by_cases hc : (chain.aa j).chainid = (chain.aa (j + i)).chainid
    · simp [hc, hf2]
    · simp [hc, hf2]

/-- The scan of a length class records a start exactly when some window of the class is
legal. -/
theorem scanEntries_length_pos (env : Env) (sp : SimParams) (chain : Chain) (L : Int) :
    1 ≤ ((scanEntries env sp chain L).length : Int) ↔
      ∃ j : Int, 1 ≤ j ∧ j ≤ sp.NAA - 1 - L ∧ LegalWindow env chain L j := by
  have h1 : 1 ≤ ((scanEntries env sp chain L).length : Int) ↔
      scanEntries env sp chain L ≠ [] := by
    rw [← List.length_pos, Nat.pos_iff_ne_zero]
    omega
  have h2 : ∀ l : List Int, l ≠ [] ↔ ∃ x, x ∈ l :=
    fun l => ⟨List.exists_mem_of_ne_nil l, fun ⟨_, hx⟩ => List.ne_nil_of_mem hx⟩
  rw [h1, h2]
  unfold scanEntries
  constructor
  · rintro ⟨x, hx⟩
    rw [foldl_append_mem] at hx
    rcases hx with hx | ⟨j, hj, hx⟩
    · cases hx
    · have hj2 := mem_intRange.mp hj
      refine ⟨j, hj2.1, by omega, (stepEntries_ne_nil env chain L j).mp ?_⟩
      exact List.ne_nil_of_mem hx
  · rintro ⟨j, hj1, hj2, hl⟩
    obtain ⟨x, hx⟩ := List.exists_mem_of_ne_nil _ ((stepEntries_ne_nil env chain L j).mpr hl)
    exact ⟨x, (foldl_append_mem _ _ _ _).mpr
      (Or.inr ⟨j, mem_intRange.mpr ⟨hj1, by omega⟩, hx⟩)⟩

/-- For every topology whose lookup-table build succeeds and every length class `L` in
`0..3`, `legal_count[L]` is non-negative, and it is at least 1 if and only if some window
`[j, j+L]` with `1 <= j <= NAA-1-L` has both ends on one chain and holds no FIXED residue of
that chain. -/
theorem legal_count_pos_iff (env : Env) (sp : SimParams) (chain : Chain)
    (t : LookupTable) (hN : 0 ≤ sp.Nchains)
    (h : buildLookupTable env sp chain = Except.ok t) (L : Int) (h0 : 0 ≤ L) (h3 : L ≤ 3) :
    0 ≤ t.n L ∧
    (1 ≤ t.n L ↔
      ∃ j : Int, 1 ≤ j ∧ j ≤ sp.NAA - 1 - L ∧ LegalWindow env chain L j) := by
  have hrow := (buildLookupTable_rows env sp chain t hN h L h0 h3).1.1
  refine ⟨?_, ?_⟩
  · rw [hrow]
    exact Int.natCast_nonneg _
  · rw [hrow]
    exact scanEntries_length_pos env sp chain L

/-- C23 (evaluation at the failing input): on the five-residue single chain (`NAA = 6`)
whose residue 2 is FIXED the build of the lookup table succeeds with `legal_count[3] = 0`;
the draw `toss = 3` selects the length class 3, and the slot computation
`(toss >> 2) % legal_count[3]` of line 316 divides by zero, in `selectWindow` and in the
call of `crankshaft` whose every draw is 3. -/
theorem C23_zero_count_divides_by_zero :
    buildLookupTable (demoEnv 1 0) (demoParams 6 false 1 1)
        (demoChainFlags 6 0 (fun k => if k = 2 then 1 else 0)) =
      Except.ok (demoTable (fun k => if k = 2 then 1 else 0)) ∧
    (demoTable (fun k => if k = 2 then 1 else 0)).n 3 = 0 ∧
    segLen (demoChainFlags 6 0 (fun k => if k = 2 then 1 else 0)) 3 = 3 ∧
    selectWindow (demoEnv 1 0) (demoParams 6 false 1 1)
        (demoChainFlags 6 0 (fun k => if k = 2 then 1 else 0))
        (demoTable (fun k => if k = 2 then 1 else 0)) 3 =
      Except.error Fatal.divisionByZero ∧
    fatalOf (crankshaft (demoEnv 1 0) (demoChainFlags 6 0 (fun k => if k = 2 then 1 else 0))
        demoChaint 1 0 0 (demoParams 6 false 1 1) 0 0 (demoRng 3)) =
      some Fatal.divisionByZero := by
  refine ⟨demoTable_ok _ (by decide!), by decide!, by decide!, ?_, by decide!⟩
  unfold selectWindow
  rw [if_pos (by decide!)]

/-! ## The cached total across a commit -/

theorem intRange_nodup (lo hi : Int) : (intRange lo hi).Nodup :=
  (intRange_pairwise lo hi).imp (fun h => ne_of_lt h)

theorem intRange_toFinset (lo hi : Int) : (intRange lo hi).toFinset = Finset.Ico lo hi := by
  ext x
  simp [mem_intRange]

theorem sum_intRange (lo hi : Int) (f : Int → ℚ) :
    ((intRange lo hi).map f).sum = Finset.sum (Finset.Ico lo hi) f := by
  rw [← intRange_toFinset, List.sum_toFinset f (intRange_nodup lo hi)]

theorem sum_intRange_filter (lo hi : Int) (p : Int → Prop) [DecidablePred p] (f : Int → ℚ) :
    (((intRange lo hi).filter (fun j => decide (p j))).map f).sum =
      Finset.sum (Finset.Ico lo hi) (fun x => if p x then f x else 0) := by
  rw [← List.sum_toFinset f ((intRange_nodup lo hi).filter _), List.toFinset_filter,
    intRange_toFinset, Finset.sum_filter]
  simp

/-- A sum over `lo <= x < hi` inside `1 <= x < N`, written as a guarded sum over the whole
range. -/
theorem sum_Ico_guard (N lo hi : Int) (h1 : 1 ≤ lo) (h2 : hi ≤ N) (f : Int → ℚ) :
    Finset.sum (Finset.Ico lo hi) f =
      Finset.sum (Finset.Ico 1 N) (fun x => if lo ≤ x ∧ x < hi then f x else 0) := by
  rw [← Finset.sum_filter]
  congr 1
  ext x
  simp only [Finset.mem_Ico, Finset.mem_filter]
  omega

/-- Summing, over the upper triangle, a change that is `g i j` on the rows of the window and
`g j i` on the columns of the window above it, gives the sum of `g` over the rows of the
window with the in-window columns `j < i` left out. -/
theorem upper_sum_window (N start end_ : Int)
    (d g : Int → Int → ℚ)
    (hd : ∀ i j : Int, 1 ≤ i → i ≤ j → j < N →
      d i j = (if start ≤ i ∧ i ≤ end_ then g i j else 0) +
        (if ¬ (start ≤ i ∧ i ≤ end_) ∧ (start ≤ j ∧ j ≤ end_) then g j i else 0)) :
    Finset.sum (Finset.Ico 1 N) (fun i =>
        Finset.sum (Finset.Ico 1 N) (fun j => if i ≤ j then d i j else 0)) =
      Finset.sum (Finset.Ico 1 N) (fun i => Finset.sum (Finset.Ico 1 N) (fun j =>
        if (start ≤ i ∧ i ≤ end_) ∧ ¬ (start ≤ j ∧ j < i) then g i j else 0)) := by
  have e1 : Finset.sum (Finset.Ico 1 N) (fun i =>
        Finset.sum (Finset.Ico 1 N) (fun j => if i ≤ j then d i j else 0)) =
      Finset.sum (Finset.Ico 1 N) (fun i => Finset.sum (Finset.Ico 1 N) (fun j =>
        (if i ≤ j ∧ (start ≤ i ∧ i ≤ end_) then g i j else 0) +
        (if i ≤ j ∧ ¬ (start ≤ i ∧ i ≤ end_) ∧ (start ≤ j ∧ j ≤ end_) then g j i else 0))) := by
    refine Finset.sum_congr rfl (fun i hi => Finset.sum_congr rfl (fun j hj => ?_))
    rw [Finset.mem_Ico] at hi hj
    by_cases hij : i ≤ j
    · rw [if_pos hij, hd i j hi.1 hij hj.2]
      simp only [hij, true_and]
    · simp [hij]
  have e2 : Finset.sum (Finset.Ico 1 N) (fun i => Finset.sum (Finset.Ico 1 N) (fun j =>
        if i ≤ j ∧ ¬ (start ≤ i ∧ i ≤ end_) ∧ (start ≤ j ∧ j ≤ end_) then g j i else 0)) =
      Finset.sum (Finset.Ico 1 N) (fun i => Finset.sum (Finset.Ico 1 N) (fun j =>
        if j ≤ i ∧ ¬ (start ≤ j ∧ j ≤ end_) ∧ (start ≤ i ∧ i ≤ end_) then g i j else 0)) :=
    Finset.sum_comm
  rw [e1]
  simp only [Finset.sum_add_distrib]
  rw [e2, ← Finset.sum_add_distrib]
  refine Finset.sum_congr rfl (fun i hi => ?_)
  rw [← Finset.sum_add_distrib]
  refine Finset.sum_congr rfl (fun j hj => ?_)
  rw [Finset.mem_Ico] at hi hj
  by_cases hW : start ≤ i ∧ i ≤ end_
  · by_cases hji : start ≤ j ∧ j < i
    · have c1 : ¬ (i ≤ j ∧ (start ≤ i ∧ i ≤ end_)) := by omega
      have c2 : ¬ (j ≤ i ∧ ¬ (start ≤ j ∧ j ≤ end_) ∧ (start ≤ i ∧ i ≤ end_)) := by omega
      have c3 : ¬ ((start ≤ i ∧ i ≤ end_) ∧ ¬ (start ≤ j ∧ j < i)) := by tauto
      rw [if_neg c1, if_neg c2, if_neg c3, add_zero]
    · have c3 : (start ≤ i ∧ i ≤ end_) ∧ ¬ (start ≤ j ∧ j < i) := ⟨hW, hji⟩
      rw [if_pos c3]
      by_cases hij : i ≤ j
      · have c1 : i ≤ j ∧ (start ≤ i ∧ i ≤ end_) := ⟨hij, hW⟩
        have c2 : ¬ (j ≤ i ∧ ¬ (start ≤ j ∧ j ≤ end_) ∧ (start ≤ i ∧ i ≤ end_)) := by omega
        rw [if_pos c1, if_neg c2, add_zero]
      · have c1 : ¬ (i ≤ j ∧ (start ≤ i ∧ i ≤ end_)) := by omega
        have c2 : j ≤ i ∧ ¬ (start ≤ j ∧ j ≤ end_) ∧ (start ≤ i ∧ i ≤ end_) := by omega
        rw [if_neg c1, if_pos c2, zero_add]
  · have c1 : ¬ (i ≤ j ∧ (start ≤ i ∧ i ≤ end_)) := by tauto
    have c2 : ¬ (j ≤ i ∧ ¬ (start ≤ j ∧ j ≤ end_) ∧ (start ≤ i ∧ i ≤ end_)) := by tauto
    have c3 : ¬ ((start ≤ i ∧ i ≤ end_) ∧ ¬ (start ≤ j ∧ j < i)) := by tauto
    rw [if_neg c1, if_neg c2, if_neg c3, add_zero]

theorem cachedTotal_eq (N : Int) (erg : Int → ℚ) :
    cachedTotal N erg =
      Finset.sum (Finset.Ico 1 N) (fun i =>
        Finset.sum (Finset.Ico 1 N) (fun j => if i ≤ j then erg (ErgIdx N i j) else 0)) +
      erg (ErgIdx N 0 0) := by
  unfold cachedTotal
  rw [sum_intRange]
  congr 1
  refine Finset.sum_congr rfl (fun i hi => ?_)
  rw [Finset.mem_Ico] at hi
  rw [sum_intRange, sum_Ico_guard N i N hi.1 (le_refl N)]
  refine Finset.sum_congr rfl (fun j hj => ?_)
  rw [Finset.mem_Ico] at hj
  by_cases hij : i ≤ j
  · rw [if_pos hij, if_pos ⟨hij, hj.2⟩]
  · rw [if_neg hij, if_neg (fun h => hij h.1)]

theorem pairLoss_eq (env : Env) (chain : Chain) (aat : Int → AA) (start end_ : Int)
    (hs : 1 ≤ start) (he : end_ ≤ chain.NAA - 1) :
    pairLoss env chain aat start end_ =
      Finset.sum (Finset.Ico 1 chain.NAA) (fun i =>
        Finset.sum (Finset.Ico 1 chain.NAA) (fun j =>
          if (start ≤ i ∧ i ≤ end_) ∧ ¬ (start ≤ j ∧ j < i) then
            chain.erg (ErgIdx chain.NAA i j) - trialTerm env chain aat start end_ i j
          else 0)) := by
  unfold pairLoss
  rw [sum_intRange, sum_Ico_guard chain.NAA start (end_ + 1) hs (by omega)]
  refine Finset.sum_congr rfl (fun i _ => ?_)
  by_cases hW : start ≤ i ∧ i ≤ end_
  · rw [if_pos (by omega),
      sum_intRange_filter 1 chain.NAA (fun j => ¬ (start ≤ j ∧ j < i))]
    refine Finset.sum_congr rfl (fun j _ => ?_)
    by_cases hj : start ≤ j ∧ j < i
    · rw [if_neg (not_not.mpr hj), if_neg (fun h => h.2 hj)]
    · rw [if_pos hj, if_pos ⟨hW, hj⟩]
  · rw [if_neg (by omega)]
    symm
    refine Finset.sum_eq_zero (fun j _ => ?_)
    rw [if_neg (fun h => hW h.1)]

/-- The change of one cell of the upper triangle across a commit. -/
theorem commit_upper_cell (env : Env) (chain : Chain) (aat : Int → AA) (start end_ : Int)
    (ergt : Int → ℚ) (q : ℚ) (hs : 1 ≤ start) (he : end_ ≤ chain.NAA - 1)
    (hsym : SymOn chain.NAA chain.erg)
    (hT : ∀ x y : Int, start ≤ x → x ≤ end_ → 1 ≤ y → y < chain.NAA →
      ergt (ErgtIdx chain.NAA start x y) = trialTerm env chain aat start end_ x y)
    (i j : Int) (hi : 1 ≤ i) (hij : i ≤ j) (hj : j < chain.NAA) :
    chain.erg (ErgIdx chain.NAA i j) -
        store (commitErg chain.NAA start end_ ergt chain.erg) (ErgIdx chain.NAA 0 0) q
          (ErgIdx chain.NAA i j) =
      (if start ≤ i ∧ i ≤ end_ then
        chain.erg (ErgIdx chain.NAA i j) - trialTerm env chain aat start end_ i j else 0) +
      (if ¬ (start ≤ i ∧ i ≤ end_) ∧ (start ≤ j ∧ j ≤ end_) then
        chain.erg (ErgIdx chain.NAA j i) - trialTerm env chain aat start end_ j i else 0) := by
  have n1 : ¬ ErgIdx chain.NAA i j = ErgIdx chain.NAA 0 0 := by
    intro hc
    have := ErgIdx_inj (by omega) hj (le_refl 0) (by omega) hc
    omega
  simp only [store, n1, if_false]
  by_cases hWi : start ≤ i ∧ i ≤ end_
  · have hw := @commitErg_window chain.NAA start end_ ergt chain.erg i j
      (trialTerm env chain aat start end_) hT
      (fun x y hx1 hx2 hy1 hy2 => trialTerm_symm env chain aat hx1 hx2 hy1 hy2)
      hs he hWi.1 hWi.2 (by omega) hj
    rw [hw.1, if_pos hWi, if_neg (fun h => h.1 hWi), add_zero]
  · by_cases hWj : start ≤ j ∧ j ≤ end_
    · have hw := @commitErg_window chain.NAA start end_ ergt chain.erg j i
        (trialTerm env chain aat start end_) hT
        (fun x y hx1 hx2 hy1 hy2 => trialTerm_symm env chain aat hx1 hx2 hy1 hy2)
        hs he hWj.1 hWj.2 hi (by omega)
      rw [hw.2, if_neg hWi, if_pos ⟨hWi, hWj⟩, zero_add,
        hsym i j hi (by omega) (by omega) hj]
    · rw [if_neg hWi, if_neg (fun h => hWj h.2), add_zero,
        commitErg_frame ergt chain.erg hs he (by omega) hj (by omega) (by omega)]
      ring

/-- Across a commit the cached total of a symmetric matrix falls by the pair sum plus the
external loss. -/
theorem cachedTotal_commit (env : Env) (chain : Chain) (aat : Int → AA) (start end_ : Int)
    (ergt : Int → ℚ) (q : ℚ) (hs : 1 ≤ start) (he : end_ ≤ chain.NAA - 1)
    (hsym : SymOn chain.NAA chain.erg)
    (hT : ∀ x y : Int, start ≤ x → x ≤ end_ → 1 ≤ y → y < chain.NAA →
      ergt (ErgtIdx chain.NAA start x y) = trialTerm env chain aat start end_ x y) :
    cachedTotal chain.NAA
        (store (commitErg chain.NAA start end_ ergt chain.erg) (ErgIdx chain.NAA 0 0) q) =
      cachedTotal chain.NAA chain.erg -
        (pairLoss env chain aat start end_ + (chain.erg (ErgIdx chain.NAA 0 0) - q)) := by
  have key := upper_sum_window chain.NAA start end_
    (fun i j => chain.erg (ErgIdx chain.NAA i j) -
      store (commitErg chain.NAA start end_ ergt chain.erg) (ErgIdx chain.NAA 0 0) q
        (ErgIdx chain.NAA i j))
    (fun i j => chain.erg (ErgIdx chain.NAA i j) - trialTerm env chain aat start end_ i j)
    (fun i j hi hij hj => commit_upper_cell env chain aat start end_ ergt q hs he hsym hT
      i j hi hij hj)
  rw [← pairLoss_eq env chain aat start end_ hs he] at key
  have hsub : Finset.sum (Finset.Ico 1 chain.NAA) (fun i =>
        Finset.sum (Finset.Ico 1 chain.NAA) (fun j =>
          if i ≤ j then chain.erg (ErgIdx chain.NAA i j) else 0)) -
      Finset.sum (Finset.Ico 1 chain.NAA) (fun i =>
        Finset.sum (Finset.Ico 1 chain.NAA) (fun j =>
          if i ≤ j then store (commitErg chain.NAA start end_ ergt chain.erg)
            (ErgIdx chain.NAA 0 0) q (ErgIdx chain.NAA i j) else 0)) =
      pairLoss env chain aat start end_ := by
    rw [← key, ← Finset.sum_sub_distrib]
    refine Finset.sum_congr rfl (fun i _ => ?_)
    rw [← Finset.sum_sub_distrib]
    refine Finset.sum_congr rfl (fun j _ => ?_)
    by_cases hij : i ≤ j
    · simp only [hij, if_true]
    · simp only [hij, if_false, sub_zero]
  rw [cachedTotal_eq, cachedTotal_eq]
  have h00 : store (commitErg chain.NAA start end_ ergt chain.erg) (ErgIdx chain.NAA 0 0) q
      (ErgIdx chain.NAA 0 0) = q := by simp [store]
  rw [h00]
  linarith

/-- C22 (what the code does): if the committed matrix is symmetric on `1..NAA-1` and
`*currE` equals the cached total before `allowed` accepts a move on a window
`1 <= start <= end <= NAA-1` with the cyclic special case off, then after the commit
`*currE` equals the cached total of the updated matrix minus the content the local `loss`
had on entry; it equals the cached total exactly when that content was `0`, which line 47
does not ensure. -/
theorem C22_cached_total_off_by_initial_loss (env : Env) (sp : SimParams) (chain : Chain)
    (chaint : Chaint) (start end_ : Int) (logLstar currE loss_init q_init : ℚ) (rng : Rng)
    (hs : 1 ≤ start) (hse : start ≤ end_) (he : end_ ≤ chain.NAA - 1)
    (hsym : SymOn chain.NAA chain.erg)
    (hcyc : sp.external_potential_type2 ≠ 4)
    (hcur : currE = cachedTotal chain.NAA chain.erg)
    (hacc : (allowed env sp chain chaint start end_ logLstar currE loss_init q_init rng).ret
      = 1) :
    (allowed env sp chain chaint start end_ logLstar currE loss_init q_init rng).currE =
      cachedTotal chain.NAA
        (allowed env sp chain chaint start end_ logLstar currE loss_init q_init
          rng).chain.erg - loss_init ∧
    ((allowed env sp chain chaint start end_ logLstar currE loss_init q_init rng).currE =
      cachedTotal chain.NAA
        (allowed env sp chain chaint start end_ logLstar currE loss_init q_init
          rng).chain.erg ↔ loss_init = 0) := by
  have hdrift : (allowed env sp chain chaint start end_ logLstar currE loss_init q_init
      rng).currE = cachedTotal chain.NAA
        (allowed env sp chain chaint start end_ logLstar currE loss_init q_init
          rng).chain.erg - loss_init := by
    have hacc2 := allowed_accept env sp chain chaint start end_ logLstar currE loss_init
      q_init rng hacc
    rw [hacc2.1, hacc2.2, allowedVals_loss env sp chain chaint start end_ loss_init q_init
      hcyc, allowedVals_externalloss]
    show _ = cachedTotal chain.NAA
      (store (commitErg chain.NAA start end_
        (allowedVals env sp chain chaint start end_ loss_init q_init).ergt chain.erg)
        (ErgIdx chain.NAA 0 0)
        (allowedVals env sp chain chaint start end_ loss_init q_init).q) - loss_init
    rw [cachedTotal_commit env chain chaint.aat start end_ _ _ hs he hsym
      (fun x y hx1 hx2 hy1 hy2 =>
        allowedVals_ergt env sp chain chaint start end_ loss_init q_init hs hse he x y
          hx1 hx2 hy1 hy2), hcur]
    ring
  refine ⟨hdrift, ?_⟩
  rw [hdrift]
  constructor
  · intro h
    linarith
  · intro h
    rw [h, sub_zero]

/-- C22 at the failing input: on the window `[1,1]` of a two-residue chain whose matrix is
zero and whose running energy is the cached total `0`, with the local `loss` holding `1` on
entry, the accepted move leaves `*currE = -12` while the cached total of the updated matrix
is `-11`. -/
theorem C22_witness :
    ((allowed (demoEnv (-1) 0) (demoParams 3 false 1 1) (demoChain 3 0) demoChaint
        1 1 0 0 1 0 (demoRng 5)).currE =
      cachedTotal (demoChain 3 0).NAA
        (allowed (demoEnv (-1) 0) (demoParams 3 false 1 1) (demoChain 3 0) demoChaint
          1 1 0 0 1 0 (demoRng 5)).chain.erg - 1 ∧
    ((allowed (demoEnv (-1) 0) (demoParams 3 false 1 1) (demoChain 3 0) demoChaint
        1 1 0 0 1 0 (demoRng 5)).currE =
      cachedTotal (demoChain 3 0).NAA
        (allowed (demoEnv (-1) 0) (demoParams 3 false 1 1) (demoChain 3 0) demoChaint
          1 1 0 0 1 0 (demoRng 5)).chain.erg ↔ (1 : ℚ) = 0)) ∧
    (0 : ℚ) = cachedTotal (demoChain 3 0).NAA (demoChain 3 0).erg ∧
    (allowed (demoEnv (-1) 0) (demoParams 3 false 1 1) (demoChain 3 0) demoChaint
        1 1 0 0 1 0 (demoRng 5)).ret = 1 ∧
    (allowed (demoEnv (-1) 0) (demoParams 3 false 1 1) (demoChain 3 0) demoChaint
        1 1 0 0 1 0 (demoRng 5)).currE = -12 ∧
    cachedTotal (demoChain 3 0).NAA
      (allowed (demoEnv (-1) 0) (demoParams 3 false 1 1) (demoChain 3 0) demoChaint
        1 1 0 0 1 0 (demoRng 5)).chain.erg = -11 :=
  ⟨C22_cached_total_off_by_initial_loss (demoEnv (-1) 0) (demoParams 3 false 1 1)
    (demoChain 3 0) demoChaint 1 1 0 0 1 0 (demoRng 5) (by decide) (by decide) (by decide)
    (fun _ _ _ _ _ _ => rfl) (by decide) (by decide!) (by decide!),
   by decide!, by decide!, by decide!, by decide!⟩

end ADCP
